import Mathlib

/-!
# Verification of the `nuri` configuration-manipulation core

A shallow embedding of the core of `src/atmfjstc/nuri/__init__.py`:

* the JSON value model (Python dicts modelled as insertion-ordered
  association lists, matching Python `dict` update/insert semantics),
* Python's `json.dumps(..., ensure_ascii=True)` / `json.loads` on that model
  (restricted to JSON values the program stores: no floats),
* `base64.urlsafe_b64encode` / `urlsafe_b64decode`,
* the sidecar data-step codec (`create_data_step`, `locate_data_step`,
  `retrieve_data_step`, `is_data_empty`, `store_data_step`),
* the generic tree transform `json_search_replace`,
* the `disable`/`reenable` command orchestration
  (`execute_disable_app_command`, `execute_reenable_app_command`) with the
  HTTP transport abstracted away: the fetched document is a parameter and
  the final `PUT` payload is the `Except.ok` result.

Python exceptions (`KeyError`, decode errors, attribute errors) are modelled
as `Option.none` / explicit error constructors; `os.urandom` tokens are
passed as parameters.
-/

namespace Nuri

/-- A Python/JSON value as manipulated by the program: `None`, booleans,
integers, strings, lists and dicts. Dicts are insertion-ordered association
lists (Python 3.7+ semantics). Floats are outside the model: the program
never stores them in sidecar data. -/
inductive JVal where
  | null
  | bool (b : Bool)
  | int (n : Int)
  | str (s : String)
  | arr (items : List JVal)
  | obj (fields : List (String × JVal))

mutual

/-- Structural equality of JSON values (Python `==` on these types). -/
def JVal.beq : JVal → JVal → Bool
  | .null, .null => true
  | .bool a, .bool b => a = b
  | .int a, .int b => a = b
  | .str a, .str b => a = b
  | .arr xs, .arr ys => JVal.beqItems xs ys
  | .obj xs, .obj ys => JVal.beqFields xs ys
  | _, _ => false

def JVal.beqItems : List JVal → List JVal → Bool
  | [], [] => true
  | x :: xs, y :: ys => JVal.beq x y && JVal.beqItems xs ys
  | _, _ => false

def JVal.beqFields : List (String × JVal) → List (String × JVal) → Bool
  | [], [] => true
  | (k, v) :: xs, (k', v') :: ys =>
    k = k' && JVal.beq v v' && JVal.beqFields xs ys
  | _, _ => false

end

mutual

theorem JVal.beq_iff : ∀ a b : JVal, JVal.beq a b = true ↔ a = b
  | .null, b => by cases b <;> simp [JVal.beq]
  | .bool x, b => by cases b <;> simp [JVal.beq]
  | .int x, b => by cases b <;> simp [JVal.beq]
  | .str x, b => by cases b <;> simp [JVal.beq]
  | .arr xs, b => by
    cases b <;> simp [JVal.beq]
    exact JVal.beqItems_iff xs _
  | .obj xs, b => by
    cases b <;> simp [JVal.beq]
    exact JVal.beqFields_iff xs _

theorem JVal.beqItems_iff : ∀ xs ys : List JVal, JVal.beqItems xs ys = true ↔ xs = ys
  | [], ys => by cases ys <;> simp [JVal.beqItems]
  | x :: xs, ys => by
    cases ys with
    | nil => simp [JVal.beqItems]
    | cons y ys =>
      simp only [JVal.beqItems, Bool.and_eq_true, JVal.beq_iff x y,
        JVal.beqItems_iff xs ys, List.cons.injEq]

theorem JVal.beqFields_iff :
    ∀ xs ys : List (String × JVal), JVal.beqFields xs ys = true ↔ xs = ys
  | [], ys => by cases ys <;> simp [JVal.beqFields]
  | (k, v) :: xs, ys => by
    cases ys with
    | nil => simp [JVal.beqFields]
    | cons y ys =>
      obtain ⟨k', v'⟩ := y
      simp only [JVal.beqFields, Bool.and_eq_true, decide_eq_true_eq,
        JVal.beq_iff v v', JVal.beqFields_iff xs ys, List.cons.injEq,
        Prod.mk.injEq, and_assoc]

end

instance : DecidableEq JVal := fun a b =>
  decidable_of_iff (JVal.beq a b = true) (JVal.beq_iff a b)

/-- A Python dict of JSON values: insertion-ordered key/value pairs. -/
abbrev JObj := List (String × JVal)

/-- `d[k]` lookup / `k in d`: first (unique, for genuine Python dicts)
binding of `k`. -/
def dget : JObj → String → Option JVal
  | [], _ => none
  | (k', v) :: rest, k => if k' = k then some v else dget rest k

/-- `d[k] = v`: update the existing binding in place, else append at the
end, exactly as Python dict insertion order behaves. -/
def dset : JObj → String → JVal → JObj
  | [], k, v => [(k, v)]
  | (k', v') :: rest, k, v =>
    if k' = k then (k, v) :: rest else (k', v') :: dset rest k v

/-- `d.pop(k, None)` (the removal part): drop the binding of `k` if present. -/
def dpop : JObj → String → JObj
  | [], _ => []
  | (k', v') :: rest, k => if k' = k then rest else (k', v') :: dpop rest k

/-- Python `dict(pairs)`: fold the pairs into a dict left to right, so a
duplicate key keeps its first position but takes its last value. -/
def dictOfPairs (ps : List (String × JVal)) : JObj :=
  ps.foldl (fun acc kv => dset acc kv.1 kv.2) []

/-- All keys pairwise distinct — true of every genuine Python dict. -/
def keysDistinct : List (String × JVal) → Bool
  | [] => true
  | (k, _) :: rest => (rest.all fun kv => kv.1 ≠ k) && keysDistinct rest

mutual

/-- Well-formed JSON value: every dict in it (recursively) has pairwise
distinct keys, as Python dicts always do. -/
def wfJson : JVal → Bool
  | .null | .bool _ | .int _ | .str _ => true
  | .arr items => wfItems items
  | .obj fields => keysDistinct fields && wfFields fields

def wfItems : List JVal → Bool
  | [] => true
  | v :: vs => wfJson v && wfItems vs

def wfFields : List (String × JVal) → Bool
  | [] => true
  | (_, v) :: fs => wfJson v && wfFields fs

end

/-! ## `json.dumps(..., ensure_ascii=True)`

The serializer used by `create_data_step`: Python's default separators
`", "` / `": "`, no indent, `ensure_ascii=True` (every character outside
`0x20..0x7e` is `\uXXXX`-escaped, with surrogate pairs above `0xffff`,
and the short escapes of `ESCAPE_DCT` for `\" \\ \b \f \n \r \t`). -/

/-- The decimal digit character of `k < 10`. -/
def digitChar (k : Nat) : Char := Char.ofNat (48 + k)

/-- Decimal digits of `n`, most significant first, prepended to `acc`
(the digits Python's `repr`/`json.dumps` emit for a nonnegative int). -/
def natDigits (n : Nat) (acc : List Char) : List Char :=
  if n < 10 then digitChar n :: acc
  else natDigits (n / 10) (digitChar (n % 10) :: acc)
termination_by n
decreasing_by omega

/-- `json.dumps` of a Python int: optional minus sign, then decimal digits. -/
def intChars (i : Int) : List Char :=
  (if i < 0 then ['-'] else []) ++ natDigits i.natAbs []

/-- The lowercase hex digit of `k < 16` (Python's `'%04x'` formatting). -/
def hexChar (k : Nat) : Char :=
  if k < 10 then Char.ofNat (48 + k) else Char.ofNat (87 + k)

/-- Four lowercase hex digits of `n < 0x10000`. -/
def hex4 (n : Nat) : List Char :=
  [hexChar (n / 4096 % 16), hexChar (n / 256 % 16),
   hexChar (n / 16 % 16), hexChar (n % 16)]

/-- One character escaped as by `py_encode_basestring_ascii`: the short
escapes of `ESCAPE_DCT`, a literal for printable ASCII, and `\uXXXX`
otherwise (a surrogate pair for code points above `0xffff`). -/
def escChar (c : Char) : List Char :=
  if c = '"' then ['\\', '"']
  else if c = '\\' then ['\\', '\\']
  else if c = '\x08' then ['\\', 'b']
  else if c = '\x0c' then ['\\', 'f']
  else if c = '\n' then ['\\', 'n']
  else if c = '\r' then ['\\', 'r']
  else if c = '\t' then ['\\', 't']
  else if 0x20 ≤ c.toNat ∧ c.toNat ≤ 0x7e then [c]
  else if c.toNat < 0x10000 then '\\' :: 'u' :: hex4 c.toNat
  else
    '\\' :: 'u' :: hex4 (0xd800 + (c.toNat - 0x10000) / 1024)
      ++ '\\' :: 'u' :: hex4 (0xdc00 + (c.toNat - 0x10000) % 1024)

/-- The escaped body of a dumped string (between the quotes). -/
def escBody (s : String) : List Char := (s.data.map escChar).flatten

/-- A dumped string, quotes included. -/
def dumpStr (s : String) : List Char := '"' :: (escBody s ++ ['"'])

mutual

/-- `json.dumps(v, ensure_ascii=True)` as a character list
(default separators `", "` and `": "`). -/
def dumpsL : JVal → List Char
  | .null => ['n', 'u', 'l', 'l']
  | .bool b => if b then ['t', 'r', 'u', 'e'] else ['f', 'a', 'l', 's', 'e']
  | .int n => intChars n
  | .str s => dumpStr s
  | .arr items => '[' :: (dumpItems items ++ [']'])
  | .obj fields => '{' :: (dumpFields fields ++ ['}'])

def dumpItems : List JVal → List Char
  | [] => []
  | v :: vs => dumpsL v ++ dumpItemsSep vs

def dumpItemsSep : List JVal → List Char
  | [] => []
  | v :: vs => ',' :: ' ' :: (dumpsL v ++ dumpItemsSep vs)

def dumpFields : List (String × JVal) → List Char
  | [] => []
  | (k, v) :: fs => dumpStr k ++ ':' :: ' ' :: (dumpsL v ++ dumpFieldsSep fs)

def dumpFieldsSep : List (String × JVal) → List Char
  | [] => []
  | (k, v) :: fs =>
    ',' :: ' ' :: (dumpStr k ++ ':' :: ' ' :: (dumpsL v ++ dumpFieldsSep fs))

end

/-! ## `json.loads`

A fuel-indexed recursive-descent parser mirroring Python's pure-python
decoder (`py_scanstring`, `JSONObject`, `JSONArray`, `py_make_scanner`).
Deliberate model restrictions, each unreachable when decoding output of
`dumpsL`: floats (a fraction or exponent part), `NaN`/`Infinity`
constants, and lone UTF-16 surrogates in strings (not representable as a
Lean `Char`) are rejected with `none` instead of producing a value. -/

/-- JSON whitespace, Python's `_w = [ \t\n\r]*`. -/
def isWsChar (c : Char) : Bool := c = ' ' || c = '\t' || c = '\n' || c = '\r'

def skipWs : List Char → List Char
  | c :: cs => if isWsChar c then skipWs cs else c :: cs
  | [] => []

def isDigitChar (c : Char) : Bool := '0' ≤ c && c ≤ '9'

def takeDigits : List Char → List Char × List Char
  | c :: cs =>
    if isDigitChar c then
      let (ds, r) := takeDigits cs
      (c :: ds, r)
    else ([], c :: cs)
  | [] => ([], [])

def digitsToNat (ds : List Char) : Nat :=
  ds.foldl (fun acc c => acc * 10 + (c.toNat - 48)) 0

/-- Strip the optional leading minus sign of `NUMBER_RE`. -/
def splitSign : List Char → Bool × List Char
  | '-' :: r => (true, r)
  | cs => (false, cs)

/-- Would `NUMBER_RE` continue with a fraction or exponent part here? -/
def floatFollows : List Char → Bool
  | '.' :: _ => true
  | 'e' :: _ => true
  | 'E' :: _ => true
  | _ => false

/-- The integer production of Python's `NUMBER_RE`,
`(-?(?:0|[1-9]\d*))`; a following `.`/`e`/`E` would make a float, which
is outside the model (`none`). A leading zero with further digits is not
matched by the regex (Python then fails on the leftover digits). -/
def parseNum (cs : List Char) : Option (Int × List Char) :=
  let (neg, cs1) := splitSign cs
  match takeDigits cs1 with
  | ([], _) => none
  | (d :: ds, cs2) =>
    if d = '0' ∧ ds ≠ [] then none
    else if floatFollows cs2 then none
    else some ((if neg then -1 else 1) * (digitsToNat (d :: ds) : Int), cs2)

/-- Value of one hex digit, as accepted by `int(esc, 16)` on a single
character (Python's whitespace/sign/underscore quirks for longer strings
never arise from dumped output and are not modelled). -/
def hexVal (c : Char) : Option Nat :=
  if '0' ≤ c ∧ c ≤ '9' then some (c.toNat - 48)
  else if 'a' ≤ c ∧ c ≤ 'f' then some (c.toNat - 87)
  else if 'A' ≤ c ∧ c ≤ 'F' then some (c.toNat - 55)
  else none

def hex4Val (a b c d : Char) : Option Nat := do
  let va ← hexVal a
  let vb ← hexVal b
  let vc ← hexVal c
  let vd ← hexVal d
  pure (((va * 16 + vb) * 16 + vc) * 16 + vd)

/-- The short backslash escapes of `py_scanstring`'s `BACKSLASH` table. -/
def unescChar : Char → Option Char
  | '/' => some '/'
  | '"' => some '"'
  | '\\' => some '\\'
  | 'n' => some '\n'
  | 't' => some '\t'
  | 'r' => some '\r'
  | 'b' => some '\x08'
  | 'f' => some '\x0c'
  | _ => none

/-- `py_scanstring` after the opening quote (strict mode): literal
characters up to the closing quote, raw control characters rejected,
escapes decoded, `\uXXXX\uXXXX` surrogate pairs recombined as
`0x10000 + (((n - 0xd800) << 10) | (n2 - 0xdc00))` (the low ten bits are
disjoint, so `|` is `+`).  Python keeps a *lone* surrogate as a one-char
`str`; no Lean `Char` exists for it, so the model rejects it (never
produced by `dumpsL`). -/
def parseStrAux (acc : List Char) : List Char → Option (String × List Char)
  | '"' :: rest => some (⟨acc.reverse⟩, rest)
  | '\\' :: 'u' :: a :: b :: c :: d :: rest =>
    match hex4Val a b c d with
    | none => none
    | some n =>
      if 0xd800 ≤ n ∧ n ≤ 0xdbff then
        match rest with
        | '\\' :: 'u' :: a2 :: b2 :: c2 :: d2 :: rest2 =>
          match hex4Val a2 b2 c2 d2 with
          | none => none
          | some n2 =>
            if 0xdc00 ≤ n2 ∧ n2 ≤ 0xdfff then
              parseStrAux
                (Char.ofNat (0x10000 + ((n - 0xd800) * 1024 + (n2 - 0xdc00))) :: acc)
                rest2
            else none
        | _ => none
      else if 0xdc00 ≤ n ∧ n ≤ 0xdfff then none
      else parseStrAux (Char.ofNat n :: acc) rest
  | '\\' :: e :: rest =>
    match unescChar e with
    | some ch => parseStrAux (ch :: acc) rest
    | none => none
  | c :: rest => if c.toNat < 0x20 then none else parseStrAux (c :: acc) rest
  | [] => none

def parseStr (cs : List Char) : Option (String × List Char) := parseStrAux [] cs

mutual

/-- `scan_once`: one JSON value.  `fuel` bounds the recursion depth plus
the container sizes traversed (Python's only bound is the interpreter
recursion limit); every caller supplies more fuel than the input length,
which the round-trip theorems show is always enough. -/
def parseVal : Nat → List Char → Option (JVal × List Char)
  | 0, _ => none
  | fuel + 1, cs =>
    match skipWs cs with
    | 'n' :: 'u' :: 'l' :: 'l' :: r => some (.null, r)
    | 't' :: 'r' :: 'u' :: 'e' :: r => some (.bool true, r)
    | 'f' :: 'a' :: 'l' :: 's' :: 'e' :: r => some (.bool false, r)
    | '"' :: r =>
      match parseStr r with
      | some (s, r') => some (.str s, r')
      | none => none
    | '[' :: r =>
      match skipWs r with
      | [] => none
      | c :: r' =>
        if c = ']' then some (.arr [], r')
        else
          match parseElems fuel (c :: r') with
          | some (es, r') => some (.arr es, r')
          | none => none
    | '{' :: r =>
      match skipWs r with
      | [] => none
      | c :: r' =>
        if c = '}' then some (.obj [], r')
        else
          match parseMembers fuel (c :: r') with
          | some (ms, r') => some (.obj (dictOfPairs ms), r')
          | none => none
    | other =>
      match parseNum other with
      | some (n, r') => some (.int n, r')
      | none => none

/-- `JSONArray`'s element loop: one or more comma-separated values (the
empty array is handled before entry). -/
def parseElems : Nat → List Char → Option (List JVal × List Char)
  | 0, _ => none
  | fuel + 1, cs =>
    match parseVal fuel cs with
    | none => none
    | some (v, r) =>
      match skipWs r with
      | ',' :: r' =>
        match parseElems fuel (skipWs r') with
        | some (vs, r'') => some (v :: vs, r'')
        | none => none
      | ']' :: r' => some ([v], r')
      | _ => none

/-- `JSONObject`'s member loop: one or more `"key": value` pairs (the
empty object is handled before entry); the pair list is folded into a
dict by the caller, as Python's `dict(pairs)` does. -/
def parseMembers : Nat → List Char → Option (List (String × JVal) × List Char)
  | 0, _ => none
  | fuel + 1, cs =>
    match skipWs cs with
    | '"' :: r =>
      match parseStr r with
      | none => none
      | some (key, r1) =>
        match skipWs r1 with
        | ':' :: r2 =>
          match parseVal fuel (skipWs r2) with
          | none => none
          | some (v, r3) =>
            match skipWs r3 with
            | ',' :: r4 =>
              match parseMembers fuel (skipWs r4) with
              | some (ms, r5) => some ((key, v) :: ms, r5)
              | none => none
            | '}' :: r4 => some ([(key, v)], r4)
            | _ => none
        | _ => none
    | _ => none

end

/-- `json.loads`: parse one value and require only whitespace after it. -/
def loads (cs : List Char) : Option JVal :=
  match parseVal (cs.length + 1) cs with
  | some (v, r) => if skipWs r = [] then some v else none
  | none => none

/-! ## Round-trip: `loads (dumpsL v) = some v` for well-formed `v` -/

theorem digitChar_spec (k : Nat) (h : k < 10) :
    (digitChar k).toNat = 48 + k ∧ isDigitChar (digitChar k) = true
      ∧ digitChar k ≠ '-' ∧ (digitChar k = '0' ↔ k = 0) := by
  have all : ∀ j : Fin 10, (digitChar j.1).toNat = 48 + j.1
      ∧ isDigitChar (digitChar j.1) = true
      ∧ digitChar j.1 ≠ '-' ∧ (digitChar j.1 = '0' ↔ j.1 = 0) := by decide
  exact all ⟨k, h⟩

theorem hexVal_hexChar (k : Nat) (h : k < 16) : hexVal (hexChar k) = some k := by
  have all : ∀ j : Fin 16, hexVal (hexChar j.1) = some j.1 := by decide
  exact all ⟨k, h⟩

theorem natDigits_shift (n : Nat) : ∀ acc : List Char,
    natDigits n acc = natDigits n [] ++ acc := by
  induction n using Nat.strong_induction_on with
  | _ n ih10 =>
    intro acc
    rw [natDigits.eq_def]
    conv_rhs => rw [natDigits.eq_def]
    by_cases hlt : n < 10
    · simp [hlt]
    · simp only [if_neg hlt]
      rw [ih10 (n / 10) (by omega), ih10 (n / 10) (by omega) [digitChar (n % 10)]]
      simp

theorem natDigits_last (n : Nat) :
    natDigits n [] = (if n < 10 then [] else natDigits (n / 10) [])
      ++ [digitChar (n % 10)] := by
  rw [natDigits.eq_def]
  by_cases h : n < 10
  · have hmod : n % 10 = n := Nat.mod_eq_of_lt h
    simp [h, hmod]
  · simp only [if_neg h]
    rw [natDigits_shift]

theorem natDigits_ne_nil (n : Nat) : natDigits n [] ≠ [] := by
  rw [natDigits_last]
  simp

theorem natDigits_all_digits (n : Nat) :
    ∀ c ∈ natDigits n [], isDigitChar c = true := by
  induction n using Nat.strong_induction_on with
  | _ n ih =>
    rw [natDigits_last]
    intro c hc
    rcases List.mem_append.1 hc with h | h
    · by_cases h10 : n < 10
      · simp [h10] at h
      · exact ih (n / 10) (by omega) c (by simpa [h10] using h)
    · rw [List.mem_singleton] at h
      subst h
      exact (digitChar_spec _ (Nat.mod_lt _ (by omega))).2.1

theorem digitsToNat_natDigits (n : Nat) : digitsToNat (natDigits n []) = n := by
  induction n using Nat.strong_induction_on with
  | _ n ih =>
    rw [natDigits_last]
    unfold digitsToNat
    rw [List.foldl_append]
    by_cases h : n < 10
    · simp only [if_pos h, List.foldl_nil, List.foldl_cons]
      rw [(digitChar_spec _ (Nat.mod_lt _ (by omega))).1]
      omega
    · simp only [if_neg h, List.foldl_cons, List.foldl_nil]
      have := ih (n / 10) (by omega)
      unfold digitsToNat at this
      rw [this, (digitChar_spec _ (Nat.mod_lt _ (by omega))).1]
      omega

/-- For nonzero `n` the digit run starts with a nonzero digit (so the
`NUMBER_RE` leading-zero guard passes). -/
theorem natDigits_headNonzero (n : Nat) (hn : n ≠ 0) :
    ∃ d ds, natDigits n [] = d :: ds ∧ isDigitChar d = true ∧ d ≠ '0' ∧ d ≠ '-' := by
  induction n using Nat.strong_induction_on with
  | _ n ih =>
    rw [natDigits.eq_def]
    by_cases h : n < 10
    · refine ⟨digitChar n, [], by simp [h], (digitChar_spec n h).2.1, ?_,
        (digitChar_spec n h).2.2.1⟩
      intro h0
      exact hn ((digitChar_spec n h).2.2.2.1 h0)
    · simp only [if_neg h]
      rw [natDigits_shift]
      obtain ⟨d, ds, heq, hd, h0, hm⟩ := ih (n / 10) (by omega) (by omega)
      exact ⟨d, ds ++ [digitChar (n % 10)], by simp [heq], hd, h0, hm⟩

/-- A remainder that cannot extend a dumped integer: empty or headed by a
character that is neither a digit nor `.`, `e`, `E`.  Every character a
dumped value can be followed by (`,`, `]`, `}`, end of input) qualifies. -/
def numStop : List Char → Bool
  | [] => true
  | c :: _ => !(isDigitChar c || c = '.' || c = 'e' || c = 'E')

theorem takeDigits_stop : ∀ {cs : List Char}, numStop cs = true →
    takeDigits cs = ([], cs)
  | [], _ => rfl
  | c :: t, h => by
    simp only [numStop, Bool.not_eq_true', Bool.or_eq_false_iff] at h
    simp [takeDigits, h.1.1.1]

theorem takeDigits_run (ds : List Char) (hds : ∀ c ∈ ds, isDigitChar c = true)
    (tl : List Char) (htl : takeDigits tl = ([], tl)) :
    takeDigits (ds ++ tl) = (ds, tl) := by
  induction ds with
  | cons d t ih =>
    have hd := hds d (by simp)
    have ht := ih fun x hx => hds x (by simp [hx])
    simp [takeDigits, hd, ht]
  | nil => simpa using htl

theorem numStop_head {c : Char} {t : List Char} (h : numStop (c :: t) = true) :
    isDigitChar c = false ∧ c ≠ '.' ∧ c ≠ 'e' ∧ c ≠ 'E' := by
  simp only [numStop, Bool.not_eq_true', Bool.or_eq_false_iff,
    decide_eq_false_iff_not] at h
  exact ⟨h.1.1.1, h.1.1.2, h.1.2, h.2⟩

theorem splitSign_minus (r : List Char) : splitSign ('-' :: r) = (true, r) := rfl

theorem splitSign_other {c : Char} (h : c ≠ '-') (r : List Char) :
    splitSign (c :: r) = (false, c :: r) := by
  rw [splitSign.eq_def]
  split
  · rename_i heq
    cases heq
    exact absurd rfl h
  · rfl

theorem floatFollows_of_numStop : ∀ {cs : List Char}, numStop cs = true →
    floatFollows cs = false
  | [], _ => rfl
  | c :: t, h => by
    obtain ⟨_, h2, h3, h4⟩ := numStop_head h
    rw [floatFollows.eq_def]
    split
    · rename_i heq
      cases heq
      exact absurd rfl h2
    · rename_i heq
      cases heq
      exact absurd rfl h3
    · rename_i heq
      cases heq
      exact absurd rfl h4
    · rfl

/-- The integer codec round-trip: `parseNum` inverts `intChars` whenever
the remainder cannot extend the number. -/
theorem parseNum_intChars (i : Int) (rest : List Char) (hr : numStop rest = true) :
    parseNum (intChars i ++ rest) = some (i, rest) := by
  have hstop := takeDigits_stop hr
  have hff := floatFollows_of_numStop hr
  by_cases hneg : i < 0
  · have habs : i.natAbs ≠ 0 := by omega
    obtain ⟨d, ds, heq, hd, h0, _⟩ := natDigits_headNonzero i.natAbs habs
    have harg : intChars i ++ rest = '-' :: (natDigits i.natAbs [] ++ rest) := by
      simp [intChars, hneg]
    have hrun : takeDigits (natDigits i.natAbs [] ++ rest)
        = (natDigits i.natAbs [], rest) :=
      takeDigits_run _ (natDigits_all_digits _) _ hstop
    have hval : digitsToNat (d :: ds) = i.natAbs := by
      rw [← heq, digitsToNat_natDigits]
    rw [harg]
    simp only [parseNum, splitSign_minus]
    rw [hrun, heq]
    simp [h0, hff, hval, abs_of_neg hneg]
  · by_cases hz : i = 0
    · subst hz
      have harg : intChars 0 ++ rest = '0' :: rest := by
        show intChars 0 ++ rest = '0' :: rest
        have : intChars 0 = ['0'] := by
          simp only [intChars]
          rw [natDigits.eq_def]
          norm_num
          decide
        rw [this]
        rfl
      have h0run : takeDigits ('0' :: rest) = (['0'], rest) := by
        have := takeDigits_run ['0'] (by decide) rest hstop
        simpa using this
      rw [harg]
      simp only [parseNum, splitSign_other (by decide : ('0' : Char) ≠ '-')]
      rw [h0run]
      simp [hff, digitsToNat]
    · obtain ⟨d, ds, heq, hd, h0, hm⟩ := natDigits_headNonzero i.natAbs (by omega)
      have harg : intChars i ++ rest = d :: (ds ++ rest) := by
        simp [intChars, hneg, heq]
      have hrun : takeDigits (d :: (ds ++ rest)) = (d :: ds, rest) := by
        have := takeDigits_run (d :: ds) (by rw [← heq]; exact natDigits_all_digits _)
          rest hstop
        simpa using this
      have hval : digitsToNat (d :: ds) = i.natAbs := by
        rw [← heq, digitsToNat_natDigits]
      rw [harg]
      simp only [parseNum, splitSign_other hm]
      rw [hrun]
      simp [h0, hff, hval]
      omega

theorem hex4Val_hex4 (n : Nat) (h : n < 0x10000) :
    hex4Val (hexChar (n / 4096 % 16)) (hexChar (n / 256 % 16))
      (hexChar (n / 16 % 16)) (hexChar (n % 16)) = some n := by
  rw [hex4Val, hexVal_hexChar _ (by omega), hexVal_hexChar _ (by omega),
    hexVal_hexChar _ (by omega), hexVal_hexChar _ (by omega)]
  show some _ = some n
  congr 1
  omega

/-- The valid-scalar-value property of every Lean `Char`: never a UTF-16
surrogate, always below `0x110000`. -/
theorem char_scalar (c : Char) :
    c.toNat < 0xd800 ∨ (0xdfff < c.toNat ∧ c.toNat < 0x110000) := c.valid

set_option maxHeartbeats 2000000 in
/-- A `\uXXXX` escape of a non-surrogate code point is decoded directly. -/
theorem parseStrAux_u_plain (acc : List Char) (a b c d : Char)
    (rest : List Char) (n : Nat) (h : hex4Val a b c d = some n)
    (hns : ¬(0xd800 ≤ n ∧ n ≤ 0xdbff)) (hns2 : ¬(0xdc00 ≤ n ∧ n ≤ 0xdfff)) :
    parseStrAux acc ('\\' :: 'u' :: a :: b :: c :: d :: rest)
      = parseStrAux (Char.ofNat n :: acc) rest := by
  rw [parseStrAux, h]
  split
  · rename_i hcon
    cases hcon
  · rename_i m hm
    injection hm with hm'
    subst hm'
    rw [if_neg hns, if_neg hns2]

set_option maxHeartbeats 2000000 in
/-- A surrogate-pair escape is recombined into one scalar value. -/
theorem parseStrAux_u_pair (acc : List Char) (a b c d a2 b2 c2 d2 : Char)
    (rest : List Char) (n n2 : Nat)
    (h : hex4Val a b c d = some n) (hhi : 0xd800 ≤ n ∧ n ≤ 0xdbff)
    (h2 : hex4Val a2 b2 c2 d2 = some n2) (hlo : 0xdc00 ≤ n2 ∧ n2 ≤ 0xdfff) :
    parseStrAux acc
        ('\\' :: 'u' :: a :: b :: c :: d :: '\\' :: 'u' :: a2 :: b2 :: c2 :: d2 :: rest)
      = parseStrAux
          (Char.ofNat (0x10000 + ((n - 0xd800) * 1024 + (n2 - 0xdc00))) :: acc)
          rest := by
  rw [parseStrAux, h]
  split
  · rename_i hcon
    cases hcon
  · rename_i m hm
    injection hm with hm'
    subst hm'
    rw [if_pos hhi]
    split
    · rename_i a2' b2' c2' d2' rest2' hcells
      cases hcells
      rw [h2]
      split
      · rename_i hcon
        cases hcon
      · rename_i m2 hm2
        injection hm2 with hm2'
        subst hm2'
        rw [if_pos hlo]
    · rename_i hno
      exact absurd rfl (hno a2 b2 c2 d2 rest)

/-- A literal (non-quote, non-backslash, non-control) character is
consumed unchanged. -/
theorem parseStrAux_lit (acc : List Char) {c : Char} (rest : List Char)
    (h1 : c ≠ '"') (h2 : c ≠ '\\') (h3 : ¬c.toNat < 0x20) :
    parseStrAux acc (c :: rest) = parseStrAux (c :: acc) rest := by
  rw [parseStrAux.eq_def]
  split
  · rename_i heq
    rw [List.cons.injEq] at heq
    exact absurd heq.1 h1
  · rename_i heq
    rw [List.cons.injEq] at heq
    exact absurd heq.1 h2
  · rename_i heq
    rw [List.cons.injEq] at heq
    exact absurd heq.1 h2
  · rename_i heq
    rw [List.cons.injEq] at heq
    rw [if_neg (heq.1 ▸ h3), heq.1, heq.2]
  · rename_i heq
    exact absurd heq (List.cons_ne_nil c rest)

/-- Parsing one escaped character undoes the escaping. -/
theorem parseStrAux_escChar (c : Char) (acc rest : List Char) :
    parseStrAux acc (escChar c ++ rest) = parseStrAux (c :: acc) rest := by
  by_cases h1 : c = '"'
  · subst h1; rfl
  by_cases h2 : c = '\\'
  · subst h2; rfl
  by_cases h3 : c = '\x08'
  · subst h3; rfl
  by_cases h4 : c = '\x0c'
  · subst h4; rfl
  by_cases h5 : c = '\n'
  · subst h5; rfl
  by_cases h6 : c = '\r'
  · subst h6; rfl
  by_cases h7 : c = '\t'
  · subst h7; rfl
  by_cases h8 : 0x20 ≤ c.toNat ∧ c.toNat ≤ 0x7e
  · have hesc : escChar c = [c] := by
      simp [escChar, h1, h2, h3, h4, h5, h6, h7, h8]
    rw [hesc, List.singleton_append, parseStrAux_lit acc rest h1 h2 (by omega)]
  by_cases h9 : c.toNat < 0x10000
  · have hns : ¬(0xd800 ≤ c.toNat ∧ c.toNat ≤ 0xdbff) := by
      rcases char_scalar c with h | h <;> omega
    have hns2 : ¬(0xdc00 ≤ c.toNat ∧ c.toNat ≤ 0xdfff) := by
      rcases char_scalar c with h | h <;> omega
    have hesc : escChar c = '\\' :: 'u' :: hex4 c.toNat := by
      rw [escChar]
      simp only [if_neg h1, if_neg h2, if_neg h3, if_neg h4, if_neg h5,
        if_neg h6, if_neg h7, if_neg h8, if_pos h9]
    rw [hesc, hex4]
    show parseStrAux acc ('\\' :: 'u' :: _ :: _ :: _ :: _ :: rest) = _
    rw [parseStrAux_u_plain acc _ _ _ _ rest c.toNat (hex4Val_hex4 c.toNat h9)
      hns hns2, Char.ofNat_toNat]
  · have hup : 0x10000 ≤ c.toNat ∧ c.toNat < 0x110000 := by
      rcases char_scalar c with h | h <;> omega
    have hmlt : (c.toNat - 0x10000) % 1024 < 1024 :=
      Nat.mod_lt _ (by omega)
    have hesc : escChar c =
        '\\' :: 'u' :: hex4 (0xd800 + (c.toNat - 0x10000) / 1024)
          ++ '\\' :: 'u' :: hex4 (0xdc00 + (c.toNat - 0x10000) % 1024) := by
      rw [escChar]
      simp only [if_neg h1, if_neg h2, if_neg h3, if_neg h4, if_neg h5,
        if_neg h6, if_neg h7, if_neg h8, if_neg h9]
    have hhiv : (0xd800 + (c.toNat - 0x10000) / 1024) < 0x10000 := by omega
    have hlov : (0xdc00 + (c.toNat - 0x10000) % 1024) < 0x10000 := by omega
    rw [hesc, hex4, hex4]
    show parseStrAux acc
      ('\\' :: 'u' :: _ :: _ :: _ :: _ :: ('\\' :: 'u' :: _ :: _ :: _ :: _ :: rest)) = _
    rw [parseStrAux_u_pair acc _ _ _ _ _ _ _ _ rest _ _
      (hex4Val_hex4 _ hhiv)
      (by omega : 0xd800 ≤ 0xd800 + (c.toNat - 0x10000) / 1024
        ∧ 0xd800 + (c.toNat - 0x10000) / 1024 ≤ 0xdbff)
      (hex4Val_hex4 _ hlov)
      (by omega : 0xdc00 ≤ 0xdc00 + (c.toNat - 0x10000) % 1024
        ∧ 0xdc00 + (c.toNat - 0x10000) % 1024 ≤ 0xdfff)]
    have hrec : 0x10000 + ((0xd800 + (c.toNat - 0x10000) / 1024 - 0xd800) * 1024
        + (0xdc00 + (c.toNat - 0x10000) % 1024 - 0xdc00)) = c.toNat := by
      have hdm := Nat.div_add_mod (c.toNat - 0x10000) 1024
      omega
    rw [hrec, Char.ofNat_toNat]

/-- Parsing an escaped run stops exactly at the closing quote, returning
the original characters. -/
theorem parseStrAux_escList (cs : List Char) : ∀ acc rest : List Char,
    parseStrAux acc ((cs.map escChar).flatten ++ '"' :: rest)
      = some (⟨acc.reverse ++ cs⟩, rest) := by
  induction cs with
  | nil =>
    intro acc rest
    simp [parseStrAux]
  | cons c cs ih =>
    intro acc rest
    rw [List.map_cons, List.flatten_cons, List.append_assoc,
      parseStrAux_escChar, ih]
    simp

/-- The string codec round-trip. -/
theorem parseStr_escBody (s : String) (rest : List Char) :
    parseStr (escBody s ++ '"' :: rest) = some (s, rest) := by
  rw [parseStr, escBody, parseStrAux_escList]
  simp

/-! ### Dispatch lemmas for the value parser -/

theorem skipWs_cons {c : Char} (t : List Char) (h : isWsChar c = false) :
    skipWs (c :: t) = c :: t := by
  simp [skipWs, h]

theorem dset_of_not_key (k : String) (v : JVal) :
    ∀ o : JObj, (∀ kv ∈ o, kv.1 ≠ k) → dset o k v = o ++ [(k, v)]
  | [], _ => rfl
  | (k', v') :: rest, h => by
    rw [dset, if_neg (h (k', v') (by simp)),
      dset_of_not_key k v rest fun kv hkv => h kv (by simp [hkv])]
    rfl

theorem foldl_dset_distinct :
    ∀ (ps acc : JObj), keysDistinct ps = true →
      (∀ kv ∈ ps, ∀ kv' ∈ acc, kv'.1 ≠ kv.1) →
      ps.foldl (fun a kv => dset a kv.1 kv.2) acc = acc ++ ps
  | [], acc, _, _ => by simp
  | (k, v) :: ps, acc, hd, hdisj => by
    rw [keysDistinct, Bool.and_eq_true, List.all_eq_true] at hd
    rw [List.foldl_cons]
    rw [show dset acc k v = acc ++ [(k, v)] from
      dset_of_not_key k v acc fun kv hkv => hdisj (k, v) (by simp) kv hkv]
    rw [foldl_dset_distinct ps (acc ++ [(k, v)]) hd.2 ?_]
    · simp
    · intro kv hkv kv' hkv'
      rcases List.mem_append.1 hkv' with hin | hin
      · exact hdisj kv (by simp [hkv]) kv' hin
      · rw [List.mem_singleton] at hin
        subst hin
        have := hd.1 kv hkv
        simp only [decide_eq_true_eq] at this
        exact fun hc => this (hc.symm ▸ rfl)

/-- Python's `dict(pairs)` is the identity on pair lists with distinct
keys — the shape every parsed dump of a well-formed dict has. -/
theorem dictOfPairs_distinct (ps : JObj) (h : keysDistinct ps = true) :
    dictOfPairs ps = ps := by
  rw [dictOfPairs, foldl_dset_distinct ps [] h (by simp), List.nil_append]

theorem digit_sides {c : Char} (h : isDigitChar c = true) :
    isWsChar c = false ∧ c ≠ 'n' ∧ c ≠ 't' ∧ c ≠ 'f' ∧ c ≠ '"'
      ∧ c ≠ '[' ∧ c ≠ '{' ∧ c ≠ ']' ∧ c ≠ '}' ∧ c ≠ '-' := by
  rw [isDigitChar, Bool.and_eq_true, decide_eq_true_eq, decide_eq_true_eq] at h
  obtain ⟨h1, h2⟩ := h
  have hlo : 48 ≤ c.toNat := h1
  have hhi : c.toNat ≤ 57 := h2
  refine ⟨?_, fun hc => absurd (hc ▸ hhi) (by decide),
    fun hc => absurd (hc ▸ hhi) (by decide), fun hc => absurd (hc ▸ hhi) (by decide),
    fun hc => absurd (hc ▸ hlo) (by decide), fun hc => absurd (hc ▸ hhi) (by decide),
    fun hc => absurd (hc ▸ hhi) (by decide), fun hc => absurd (hc ▸ hhi) (by decide),
    fun hc => absurd (hc ▸ hhi) (by decide), fun hc => absurd (hc ▸ hlo) (by decide)⟩
  simp only [isWsChar, Bool.or_eq_false_iff, decide_eq_false_iff_not]
  exact ⟨⟨⟨fun hc => absurd (hc ▸ hlo) (by decide),
    fun hc => absurd (hc ▸ hlo) (by decide)⟩,
    fun hc => absurd (hc ▸ hlo) (by decide)⟩,
    fun hc => absurd (hc ▸ hlo) (by decide)⟩

/-- One-step unfolding of `parseVal` at successor fuel (definitional). -/
theorem parseVal_step (fuel : Nat) (cs : List Char) :
    parseVal (fuel + 1) cs
      = (match skipWs cs with
        | 'n' :: 'u' :: 'l' :: 'l' :: r => some (.null, r)
        | 't' :: 'r' :: 'u' :: 'e' :: r => some (.bool true, r)
        | 'f' :: 'a' :: 'l' :: 's' :: 'e' :: r => some (.bool false, r)
        | '"' :: r =>
          match parseStr r with
          | some (s, r') => some (.str s, r')
          | none => none
        | '[' :: r =>
          match skipWs r with
          | [] => none
          | c :: r' =>
            if c = ']' then some (.arr [], r')
            else
              match parseElems fuel (c :: r') with
              | some (es, r') => some (.arr es, r')
              | none => none
        | '{' :: r =>
          match skipWs r with
          | [] => none
          | c :: r' =>
            if c = '}' then some (.obj [], r')
            else
              match parseMembers fuel (c :: r') with
              | some (ms, r') => some (.obj (dictOfPairs ms), r')
              | none => none
        | other =>
          match parseNum other with
          | some (n, r') => some (.int n, r')
          | none => none) := rfl

/-- One-step unfolding of `parseElems` at successor fuel (definitional). -/
theorem parseElems_step (fuel : Nat) (cs : List Char) :
    parseElems (fuel + 1) cs
      = (match parseVal fuel cs with
        | none => none
        | some (v, r) =>
          match skipWs r with
          | ',' :: r' =>
            match parseElems fuel (skipWs r') with
            | some (vs, r'') => some (v :: vs, r'')
            | none => none
          | ']' :: r' => some ([v], r')
          | _ => none) := rfl

/-- One-step unfolding of `parseMembers` at successor fuel (definitional). -/
theorem parseMembers_step (fuel : Nat) (cs : List Char) :
    parseMembers (fuel + 1) cs
      = (match skipWs cs with
        | '"' :: r =>
          match parseStr r with
          | none => none
          | some (key, r1) =>
            match skipWs r1 with
            | ':' :: r2 =>
              match parseVal fuel (skipWs r2) with
              | none => none
              | some (v, r3) =>
                match skipWs r3 with
                | ',' :: r4 =>
                  match parseMembers fuel (skipWs r4) with
                  | some (ms, r5) => some ((key, v) :: ms, r5)
                  | none => none
                | '}' :: r4 => some ([(key, v)], r4)
                | _ => none
            | _ => none
        | _ => none) := rfl

/-- Every dumped value begins with a character that is not whitespace and
closes no container. -/
theorem dumpsL_headChar (v : JVal) :
    ∃ c t, dumpsL v = c :: t ∧ isWsChar c = false ∧ c ≠ ']' ∧ c ≠ '}' := by
  cases v with
  | null => refine ⟨'n', _, rfl, ?_, ?_, ?_⟩ <;> decide
  | bool b =>
    cases b with
    | true => refine ⟨'t', _, rfl, ?_, ?_, ?_⟩ <;> decide
    | false => refine ⟨'f', _, rfl, ?_, ?_, ?_⟩ <;> decide
  | str s => refine ⟨'"', _, rfl, ?_, ?_, ?_⟩ <;> decide
  | arr items => refine ⟨'[', _, rfl, ?_, ?_, ?_⟩ <;> decide
  | obj fields => refine ⟨'{', _, rfl, ?_, ?_, ?_⟩ <;> decide
  | int i =>
    by_cases hneg : i < 0
    · refine ⟨'-', natDigits i.natAbs [], ?_, by decide, by decide, by decide⟩
      simp [dumpsL, intChars, hneg]
    · obtain ⟨d, ds, heq, hd, _, _⟩ :=
        natDigits_headNonzero (max i.natAbs 1) (by omega)
      by_cases hz : i = 0
      · refine ⟨'0', [], ?_, by decide, by decide, by decide⟩
        subst hz
        show intChars 0 = ['0']
        simp only [intChars]
        rw [natDigits.eq_def]
        norm_num
        decide
      · obtain ⟨d, ds, heq, hd, _, _⟩ := natDigits_headNonzero i.natAbs (by omega)
        obtain ⟨hws, _, _, _, _, _, _, hrb, hcb, _⟩ := digit_sides hd
        refine ⟨d, ds, ?_, hws, hrb, hcb⟩
        simp [dumpsL, intChars, hneg, heq]

theorem skipWs_dumpsL (v : JVal) (x : List Char) :
    skipWs (dumpsL v ++ x) = dumpsL v ++ x := by
  obtain ⟨c, t, heq, hws, _, _⟩ := dumpsL_headChar v
  rw [heq, List.cons_append, skipWs_cons _ hws]

theorem parseVal_quote (f : Nat) (r : List Char) :
    parseVal (f + 1) ('"' :: r)
      = (match parseStr r with
        | some (s, r') => some (.str s, r')
        | none => none) := rfl

theorem parseVal_arrOpen (f : Nat) (r : List Char) :
    parseVal (f + 1) ('[' :: r)
      = (match skipWs r with
        | [] => none
        | c :: r' =>
          if c = ']' then some (.arr [], r')
          else
            match parseElems f (c :: r') with
            | some (es, r') => some (.arr es, r')
            | none => none) := rfl

theorem parseVal_objOpen (f : Nat) (r : List Char) :
    parseVal (f + 1) ('{' :: r)
      = (match skipWs r with
        | [] => none
        | c :: r' =>
          if c = '}' then some (.obj [], r')
          else
            match parseMembers f (c :: r') with
            | some (ms, r') => some (.obj (dictOfPairs ms), r')
            | none => none) := rfl

theorem parseVal_arrDispatch (f : Nat) (c : Char) (t : List Char)
    (hws : isWsChar c = false) (hc : c ≠ ']') :
    parseVal (f + 1) ('[' :: (c :: t))
      = (match parseElems f (c :: t) with
        | some (es, r') => some (.arr es, r')
        | none => none) := by
  rw [parseVal_arrOpen, skipWs_cons _ hws]
  show (if c = ']' then some (JVal.arr [], t)
    else
      match parseElems f (c :: t) with
      | some (es, r') => some (.arr es, r')
      | none => none) = _
  rw [if_neg hc]

theorem parseVal_objDispatch (f : Nat) (c : Char) (t : List Char)
    (hws : isWsChar c = false) (hc : c ≠ '}') :
    parseVal (f + 1) ('{' :: (c :: t))
      = (match parseMembers f (c :: t) with
        | some (ms, r') => some (.obj (dictOfPairs ms), r')
        | none => none) := by
  rw [parseVal_objOpen, skipWs_cons _ hws]
  show (if c = '}' then some (JVal.obj [], t)
    else
      match parseMembers f (c :: t) with
      | some (ms, r') => some (.obj (dictOfPairs ms), r')
      | none => none) = _
  rw [if_neg hc]

set_option maxHeartbeats 1000000 in
theorem parseVal_to_num (f : Nat) (cc : Char) (t : List Char)
    (hws : isWsChar cc = false) (hn : cc ≠ 'n') (ht : cc ≠ 't') (hf : cc ≠ 'f')
    (hq : cc ≠ '"') (hbk : cc ≠ '[') (hbc : cc ≠ '{') :
    parseVal (f + 1) (cc :: t)
      = (match parseNum (cc :: t) with
        | some (n, r') => some (.int n, r')
        | none => none) := by
  rw [parseVal_step, skipWs_cons _ hws]
  split
  · rename_i heq
    rw [List.cons.injEq] at heq
    exact absurd heq.1 hn
  · rename_i heq
    rw [List.cons.injEq] at heq
    exact absurd heq.1 ht
  · rename_i heq
    rw [List.cons.injEq] at heq
    exact absurd heq.1 hf
  · rename_i heq
    rw [List.cons.injEq] at heq
    exact absurd heq.1 hq
  · rename_i heq
    rw [List.cons.injEq] at heq
    exact absurd heq.1 hbk
  · rename_i heq
    rw [List.cons.injEq] at heq
    exact absurd heq.1 hbc
  · rfl

theorem dumpItemsSep_cons (v : JVal) (vs : List JVal) :
    dumpItemsSep (v :: vs) = ',' :: ' ' :: dumpItems (v :: vs) := rfl

theorem dumpFieldsSep_cons (kv : String × JVal) (fs : List (String × JVal)) :
    dumpFieldsSep (kv :: fs) = ',' :: ' ' :: dumpFields (kv :: fs) := by
  obtain ⟨k, v⟩ := kv
  rfl

/-! ### The JSON codec round-trip -/

mutual

theorem rt_val : ∀ (v : JVal) (fuel : Nat) (rest : List Char),
    wfJson v = true → (dumpsL v).length < fuel → numStop rest = true →
    parseVal fuel (dumpsL v ++ rest) = some (v, rest)
  | .null, fuel, rest, _, hf, _ => by
    cases fuel with
    | zero => exact absurd hf (Nat.not_lt_zero _)
    | succ f => rfl
  | .bool true, fuel, rest, _, hf, _ => by
    cases fuel with
    | zero => exact absurd hf (Nat.not_lt_zero _)
    | succ f => rfl
  | .bool false, fuel, rest, _, hf, _ => by
    cases fuel with
    | zero => exact absurd hf (Nat.not_lt_zero _)
    | succ f => rfl
  | .int i, fuel, rest, _, hf, hr => by
    cases fuel with
    | zero => exact absurd hf (Nat.not_lt_zero _)
    | succ f =>
      by_cases hneg : i < 0
      · have harg : dumpsL (.int i) ++ rest = '-' :: (natDigits i.natAbs [] ++ rest) := by
          simp [dumpsL, intChars, hneg]
        rw [harg, parseVal_to_num f '-' _ (by decide) (by decide) (by decide)
          (by decide) (by decide) (by decide) (by decide)]
        have harg2 : ('-' : Char) :: (natDigits i.natAbs [] ++ rest)
            = intChars i ++ rest := by
          simp [intChars, hneg]
        rw [harg2, parseNum_intChars i rest hr]
      · obtain ⟨d, ds, heq⟩ : ∃ d ds, natDigits i.natAbs [] = d :: ds := by
          cases h : natDigits i.natAbs [] with
          | nil => exact absurd h (natDigits_ne_nil _)
          | cons d ds => exact ⟨d, ds, rfl⟩
        have hd : isDigitChar d = true :=
          natDigits_all_digits _ d (heq ▸ List.mem_cons_self d ds)
        obtain ⟨hws, hn, ht, hf', hq, hbk, hbc, _, _, _⟩ := digit_sides hd
        have harg : dumpsL (.int i) ++ rest = d :: (ds ++ rest) := by
          simp [dumpsL, intChars, hneg, heq]
        rw [harg, parseVal_to_num f d _ hws hn ht hf' hq hbk hbc]
        have harg2 : d :: (ds ++ rest) = intChars i ++ rest := by
          simp [intChars, hneg, heq]
        rw [harg2, parseNum_intChars i rest hr]
  | .str s, fuel, rest, _, hf, _ => by
    cases fuel with
    | zero => exact absurd hf (Nat.not_lt_zero _)
    | succ f =>
      have harg : dumpsL (.str s) ++ rest = '"' :: (escBody s ++ '"' :: rest) := by
        simp [dumpsL, dumpStr]
      rw [harg, parseVal_quote, parseStr_escBody]
  | .arr [], fuel, rest, _, hf, _ => by
    cases fuel with
    | zero => exact absurd hf (Nat.not_lt_zero _)
    | succ f => rfl
  | .arr (e :: es), fuel, rest, hw, hf, _ => by
    cases fuel with
    | zero => exact absurd hf (Nat.not_lt_zero _)
    | succ f =>
      rw [wfJson] at hw
      obtain ⟨c, t, hhead, hws, hrb, _⟩ := dumpsL_headChar e
      have hfl : (dumpItems (e :: es)).length + 1 < f := by
        have : (dumpsL (.arr (e :: es))).length
            = (dumpItems (e :: es)).length + 2 := by
          simp [dumpsL]
        omega
      have key := rt_elems e es f rest hw hfl
      have hcons : dumpItems (e :: es) ++ ']' :: rest
          = c :: (t ++ (dumpItemsSep es ++ ']' :: rest)) := by
        simp [dumpItems, hhead]
      have harg : dumpsL (.arr (e :: es)) ++ rest
          = '[' :: (c :: (t ++ (dumpItemsSep es ++ ']' :: rest))) := by
        rw [← hcons]
        simp [dumpsL]
      rw [harg, parseVal_arrDispatch f c _ hws hrb, ← hcons, key]
  | .obj [], fuel, rest, _, hf, _ => by
    cases fuel with
    | zero => exact absurd hf (Nat.not_lt_zero _)
    | succ f => rfl
  | .obj ((k, v) :: fs), fuel, rest, hw, hf, _ => by
    cases fuel with
    | zero => exact absurd hf (Nat.not_lt_zero _)
    | succ f =>
      rw [wfJson, Bool.and_eq_true] at hw
      have hfl : (dumpFields ((k, v) :: fs)).length + 1 < f := by
        have : (dumpsL (.obj ((k, v) :: fs))).length
            = (dumpFields ((k, v) :: fs)).length + 2 := by
          simp [dumpsL]
        omega
      have key := rt_members (k, v) fs f rest hw.2 hfl
      have hcons : dumpFields ((k, v) :: fs) ++ '}' :: rest
          = '"' :: ((escBody k ++ ['"'])
            ++ (':' :: ' ' :: (dumpsL v ++ dumpFieldsSep fs) ++ '}' :: rest)) := by
        simp [dumpFields, dumpStr]
      have harg : dumpsL (.obj ((k, v) :: fs)) ++ rest
          = '{' :: ('"' :: ((escBody k ++ ['"'])
            ++ (':' :: ' ' :: (dumpsL v ++ dumpFieldsSep fs) ++ '}' :: rest))) := by
        rw [← hcons]
        simp [dumpsL]
      rw [harg, parseVal_objDispatch f '"' _ (by decide) (by decide), ← hcons, key]
      show some (JVal.obj (dictOfPairs ((k, v) :: fs)), rest) = _
      rw [dictOfPairs_distinct _ hw.1]

theorem rt_elems : ∀ (e : JVal) (es : List JVal) (fuel : Nat) (rest : List Char),
    wfItems (e :: es) = true → (dumpItems (e :: es)).length + 1 < fuel →
    parseElems fuel (dumpItems (e :: es) ++ ']' :: rest) = some (e :: es, rest)
  | e, [], fuel, rest, hw, hf => by
    cases fuel with
    | zero => exact absurd hf (Nat.not_lt_zero _)
    | succ f =>
      rw [wfItems, Bool.and_eq_true] at hw
      have harg : dumpItems [e] ++ ']' :: rest = dumpsL e ++ ']' :: rest := by
        simp [dumpItems, dumpItemsSep]
      have hfe : (dumpsL e).length < f := by
        have : (dumpItems [e]).length = (dumpsL e).length := by
          simp [dumpItems, dumpItemsSep]
        omega
      have hv := rt_val e f (']' :: rest) hw.1 hfe (by rfl)
      rw [harg, parseElems_step, hv]
      rfl
  | e, x :: xs, fuel, rest, hw, hf => by
    cases fuel with
    | zero => exact absurd hf (Nat.not_lt_zero _)
    | succ f =>
      rw [wfItems, Bool.and_eq_true] at hw
      have hlen : (dumpItems (e :: x :: xs)).length
          = (dumpsL e).length + 2 + (dumpItems (x :: xs)).length := by
        simp [dumpItems, dumpItemsSep_cons]
        omega
      have hfe : (dumpsL e).length < f := by omega
      have hfx : (dumpItems (x :: xs)).length + 1 < f := by omega
      have hv := rt_val e f (',' :: ' ' :: (dumpItems (x :: xs) ++ ']' :: rest))
        hw.1 hfe (by rfl)
      have key := rt_elems x xs f rest hw.2 hfx
      have harg : dumpItems (e :: x :: xs) ++ ']' :: rest
          = dumpsL e ++ ',' :: ' ' :: (dumpItems (x :: xs) ++ ']' :: rest) := by
        simp [dumpItems, dumpItemsSep_cons]
      rw [harg, parseElems_step, hv]
      show (match skipWs (',' :: ' ' :: (dumpItems (x :: xs) ++ ']' :: rest)) with
        | ',' :: r' =>
          match parseElems f (skipWs r') with
          | some (vs, r'') => some (e :: vs, r'')
          | none => none
        | ']' :: r' => some ([e], r')
        | _ => none) = _
      rw [skipWs_cons _ (by decide)]
      show (match parseElems f (skipWs (' ' :: (dumpItems (x :: xs) ++ ']' :: rest))) with
        | some (vs, r'') => some (e :: vs, r'')
        | none => none) = _
      have hsw : skipWs (' ' :: (dumpItems (x :: xs) ++ ']' :: rest))
          = dumpItems (x :: xs) ++ ']' :: rest := by
        show skipWs (dumpItems (x :: xs) ++ ']' :: rest) = _
        obtain ⟨c, t, hhead, hws, _, _⟩ := dumpsL_headChar x
        have : dumpItems (x :: xs) ++ ']' :: rest
            = c :: (t ++ (dumpItemsSep xs ++ ']' :: rest)) := by
          simp [dumpItems, hhead]
        rw [this, skipWs_cons _ hws]
      rw [hsw, key]

theorem rt_members :
    ∀ (kv : String × JVal) (fs : List (String × JVal)) (fuel : Nat) (rest : List Char),
    wfFields (kv :: fs) = true → (dumpFields (kv :: fs)).length + 1 < fuel →
    parseMembers fuel (dumpFields (kv :: fs) ++ '}' :: rest) = some (kv :: fs, rest)
  | (k, v), [], fuel, rest, hw, hf => by
    cases fuel with
    | zero => exact absurd hf (Nat.not_lt_zero _)
    | succ f =>
      rw [wfFields, Bool.and_eq_true] at hw
      have hfe : (dumpsL v).length < f := by
        have : (dumpFields [(k, v)]).length
            = (dumpStr k).length + 2 + (dumpsL v).length := by
          simp [dumpFields, dumpFieldsSep]
          omega
        omega
      have hv := rt_val v f ('}' :: rest) hw.1 hfe (by rfl)
      have harg : dumpFields [(k, v)] ++ '}' :: rest
          = '"' :: (escBody k ++ '"' :: (':' :: ' ' :: (dumpsL v ++ '}' :: rest))) := by
        simp [dumpFields, dumpFieldsSep, dumpStr]
      rw [harg, parseMembers_step, skipWs_cons _ (by decide)]
      show (match parseStr (escBody k ++ '"' :: (':' :: ' ' :: (dumpsL v ++ '}' :: rest))) with
        | none => none
        | some (key, r1) =>
          match skipWs r1 with
          | ':' :: r2 =>
            match parseVal f (skipWs r2) with
            | none => none
            | some (v', r3) =>
              match skipWs r3 with
              | ',' :: r4 =>
                match parseMembers f (skipWs r4) with
                | some (ms, r5) => some ((key, v') :: ms, r5)
                | none => none
              | '}' :: r4 => some ([(key, v')], r4)
              | _ => none
          | _ => none) = _
      rw [parseStr_escBody]
      show (match parseVal f (skipWs (' ' :: (dumpsL v ++ '}' :: rest))) with
        | none => none
        | some (v', r3) =>
          match skipWs r3 with
          | ',' :: r4 =>
            match parseMembers f (skipWs r4) with
            | some (ms, r5) => some ((k, v') :: ms, r5)
            | none => none
          | '}' :: r4 => some ([(k, v')], r4)
          | _ => none) = _
      have hsw : skipWs (' ' :: (dumpsL v ++ '}' :: rest)) = dumpsL v ++ '}' :: rest := by
        show skipWs (dumpsL v ++ '}' :: rest) = _
        exact skipWs_dumpsL v _
      rw [hsw, hv]
      rfl
  | (k, v), kv2 :: fs, fuel, rest, hw, hf => by
    cases fuel with
    | zero => exact absurd hf (Nat.not_lt_zero _)
    | succ f =>
      rw [wfFields, Bool.and_eq_true] at hw
      have hlen : (dumpFields ((k, v) :: kv2 :: fs)).length
          = (dumpStr k).length + 2 + (dumpsL v).length + 2
            + (dumpFields (kv2 :: fs)).length := by
        simp [dumpFields, dumpFieldsSep_cons]
        omega
      have hfe : (dumpsL v).length < f := by omega
      have hfx : (dumpFields (kv2 :: fs)).length + 1 < f := by omega
      have hv := rt_val v f
        (',' :: ' ' :: (dumpFields (kv2 :: fs) ++ '}' :: rest)) hw.1 hfe (by rfl)
      have key := rt_members kv2 fs f rest hw.2 hfx
      have harg : dumpFields ((k, v) :: kv2 :: fs) ++ '}' :: rest
          = '"' :: (escBody k ++ '"' :: (':' :: ' '
            :: (dumpsL v ++ ',' :: ' ' :: (dumpFields (kv2 :: fs) ++ '}' :: rest)))) := by
        simp [dumpFields, dumpFieldsSep_cons, dumpStr]
      rw [harg, parseMembers_step, skipWs_cons _ (by decide)]
      show (match parseStr (escBody k ++ '"' :: (':' :: ' '
          :: (dumpsL v ++ ',' :: ' ' :: (dumpFields (kv2 :: fs) ++ '}' :: rest)))) with
        | none => none
        | some (key, r1) =>
          match skipWs r1 with
          | ':' :: r2 =>
            match parseVal f (skipWs r2) with
            | none => none
            | some (v', r3) =>
              match skipWs r3 with
              | ',' :: r4 =>
                match parseMembers f (skipWs r4) with
                | some (ms, r5) => some ((key, v') :: ms, r5)
                | none => none
              | '}' :: r4 => some ([(key, v')], r4)
              | _ => none
          | _ => none) = _
      rw [parseStr_escBody]
      show (match parseVal f (skipWs (' '
          :: (dumpsL v ++ ',' :: ' ' :: (dumpFields (kv2 :: fs) ++ '}' :: rest)))) with
        | none => none
        | some (v', r3) =>
          match skipWs r3 with
          | ',' :: r4 =>
            match parseMembers f (skipWs r4) with
            | some (ms, r5) => some ((k, v') :: ms, r5)
            | none => none
          | '}' :: r4 => some ([(k, v')], r4)
          | _ => none) = _
      have hsw : skipWs (' ' :: (dumpsL v ++ ',' :: ' '
          :: (dumpFields (kv2 :: fs) ++ '}' :: rest)))
          = dumpsL v ++ ',' :: ' ' :: (dumpFields (kv2 :: fs) ++ '}' :: rest) := by
        show skipWs (dumpsL v ++ _) = _
        exact skipWs_dumpsL v _
      rw [hsw, hv]
      show (match parseMembers f (skipWs (' ' :: (dumpFields (kv2 :: fs) ++ '}' :: rest))) with
        | some (ms, r5) => some ((k, v) :: ms, r5)
        | none => none) = _
      have hsw2 : skipWs (' ' :: (dumpFields (kv2 :: fs) ++ '}' :: rest))
          = dumpFields (kv2 :: fs) ++ '}' :: rest := by
        show skipWs (dumpFields (kv2 :: fs) ++ '}' :: rest) = _
        obtain ⟨k2, v2⟩ := kv2
        have : dumpFields ((k2, v2) :: fs) ++ '}' :: rest
            = '"' :: ((escBody k2 ++ ['"'])
              ++ (':' :: ' ' :: (dumpsL v2 ++ dumpFieldsSep fs) ++ '}' :: rest)) := by
          simp [dumpFields, dumpStr]
        rw [this, skipWs_cons _ (by decide)]
      rw [hsw2, key]

end

/-- `json.loads(json.dumps(v))` recovers every well-formed value. -/
theorem loads_dumps (v : JVal) (hw : wfJson v = true) : loads (dumpsL v) = some v := by
  rw [loads]
  have h := rt_val v ((dumpsL v).length + 1) [] hw (by omega) (by rfl)
  rw [List.append_nil] at h
  rw [h]
  rfl

/-! ### `dumpsL` output is pure ASCII (`ensure_ascii=True`) -/

theorem digitChar_lt (k : Nat) (h : k < 10) : (digitChar k).toNat < 128 := by
  have all : ∀ j : Fin 10, (digitChar j.1).toNat < 128 := by decide
  exact all ⟨k, h⟩

theorem natDigits_ascii (n : Nat) : ∀ c ∈ natDigits n [], c.toNat < 128 := by
  intro c hc
  have hd := natDigits_all_digits n c hc
  rw [isDigitChar, Bool.and_eq_true, decide_eq_true_eq, decide_eq_true_eq] at hd
  have : c.toNat ≤ 57 := hd.2
  omega

theorem hexChar_lt (k : Nat) (h : k < 16) : (hexChar k).toNat < 128 := by
  have all : ∀ j : Fin 16, (hexChar j.1).toNat < 128 := by decide
  exact all ⟨k, h⟩

theorem hex4_ascii (n : Nat) : ∀ c ∈ hex4 n, c.toNat < 128 := by
  intro c hc
  rw [hex4] at hc
  simp only [List.mem_cons, List.mem_singleton, List.not_mem_nil, or_false] at hc
  rcases hc with rfl | rfl | rfl | rfl <;>
    exact hexChar_lt _ (Nat.mod_lt _ (by omega))

theorem escChar_ascii (c : Char) : ∀ x ∈ escChar c, x.toNat < 128 := by
  intro x hx
  rw [escChar] at hx
  split at hx
  · simp only [List.mem_cons, List.not_mem_nil, or_false] at hx
    rcases hx with rfl | rfl <;> decide
  split at hx
  · simp only [List.mem_cons, List.not_mem_nil, or_false] at hx
    rcases hx with rfl | rfl <;> decide
  split at hx
  · simp only [List.mem_cons, List.not_mem_nil, or_false] at hx
    rcases hx with rfl | rfl <;> decide
  split at hx
  · simp only [List.mem_cons, List.not_mem_nil, or_false] at hx
    rcases hx with rfl | rfl <;> decide
  split at hx
  · simp only [List.mem_cons, List.not_mem_nil, or_false] at hx
    rcases hx with rfl | rfl <;> decide
  split at hx
  · simp only [List.mem_cons, List.not_mem_nil, or_false] at hx
    rcases hx with rfl | rfl <;> decide
  split at hx
  · simp only [List.mem_cons, List.not_mem_nil, or_false] at hx
    rcases hx with rfl | rfl <;> decide
  split at hx
  · rename_i hpr
    simp only [List.mem_cons, List.not_mem_nil, or_false] at hx
    subst hx
    omega
  split at hx
  · simp only [List.mem_cons] at hx
    rcases hx with rfl | rfl | hx
    · decide
    · decide
    · exact hex4_ascii _ x hx
  · simp only [List.cons_append, List.mem_cons, List.mem_append] at hx
    rcases hx with rfl | rfl | hx | rfl | rfl | hx
    · decide
    · decide
    · exact hex4_ascii _ x hx
    · decide
    · decide
    · exact hex4_ascii _ x hx

theorem escBody_ascii (s : String) : ∀ c ∈ escBody s, c.toNat < 128 := by
  intro c hc
  rw [escBody] at hc
  rw [List.mem_flatten] at hc
  obtain ⟨l, hl, hcl⟩ := hc
  rw [List.mem_map] at hl
  obtain ⟨x, _, rfl⟩ := hl
  exact escChar_ascii x c hcl

theorem dumpStr_ascii (s : String) : ∀ c ∈ dumpStr s, c.toNat < 128 := by
  intro c hc
  rw [dumpStr] at hc
  simp only [List.mem_cons, List.mem_append, List.not_mem_nil, or_false] at hc
  rcases hc with rfl | hc | rfl
  · decide
  · exact escBody_ascii s c hc
  · decide

theorem intChars_ascii (i : Int) : ∀ c ∈ intChars i, c.toNat < 128 := by
  intro c hc
  rw [intChars] at hc
  rw [List.mem_append] at hc
  rcases hc with hc | hc
  · split at hc
    · simp only [List.mem_singleton] at hc
      subst hc
      decide
    · cases hc
  · exact natDigits_ascii _ c hc

mutual

theorem dumpsL_ascii : ∀ (v : JVal), ∀ c ∈ dumpsL v, c.toNat < 128
  | .null, c, hc => by
    simp only [dumpsL, List.mem_cons, List.not_mem_nil, or_false] at hc
    rcases hc with rfl | rfl | rfl | rfl <;> decide
  | .bool true, c, hc => by
    rw [show dumpsL (.bool true) = ['t', 'r', 'u', 'e'] from rfl] at hc
    simp only [List.mem_cons, List.not_mem_nil, or_false] at hc
    rcases hc with rfl | rfl | rfl | rfl <;> decide
  | .bool false, c, hc => by
    rw [show dumpsL (.bool false) = ['f', 'a', 'l', 's', 'e'] from rfl] at hc
    simp only [List.mem_cons, List.not_mem_nil, or_false] at hc
    rcases hc with rfl | rfl | rfl | rfl | rfl <;> decide
  | .int i, c, hc => intChars_ascii i c hc
  | .str s, c, hc => dumpStr_ascii s c hc
  | .arr items, c, hc => by
    simp only [dumpsL, List.mem_cons, List.mem_append, List.not_mem_nil, or_false] at hc
    rcases hc with rfl | hc | rfl
    · decide
    · exact dumpItems_ascii items c hc
    · decide
  | .obj fields, c, hc => by
    simp only [dumpsL, List.mem_cons, List.mem_append, List.not_mem_nil, or_false] at hc
    rcases hc with rfl | hc | rfl
    · decide
    · exact dumpFields_ascii fields c hc
    · decide

theorem dumpItems_ascii : ∀ (items : List JVal), ∀ c ∈ dumpItems items, c.toNat < 128
  | [], c, hc => by cases hc
  | v :: vs, c, hc => by
    rw [dumpItems, List.mem_append] at hc
    rcases hc with hc | hc
    · exact dumpsL_ascii v c hc
    · exact dumpItemsSep_ascii vs c hc

theorem dumpItemsSep_ascii : ∀ (items : List JVal), ∀ c ∈ dumpItemsSep items, c.toNat < 128
  | [], c, hc => by cases hc
  | v :: vs, c, hc => by
    rw [dumpItemsSep] at hc
    simp only [List.mem_cons, List.mem_append] at hc
    rcases hc with rfl | rfl | hc | hc
    · decide
    · decide
    · exact dumpsL_ascii v c hc
    · exact dumpItemsSep_ascii vs c hc

theorem dumpFields_ascii :
    ∀ (fs : List (String × JVal)), ∀ c ∈ dumpFields fs, c.toNat < 128
  | [], c, hc => by cases hc
  | (k, v) :: fs, c, hc => by
    rw [dumpFields] at hc
    simp only [List.mem_append, List.mem_cons] at hc
    rcases hc with hc | rfl | rfl | hc | hc
    · exact dumpStr_ascii k c hc
    · decide
    · decide
    · exact dumpsL_ascii v c hc
    · exact dumpFieldsSep_ascii fs c hc

theorem dumpFieldsSep_ascii :
    ∀ (fs : List (String × JVal)), ∀ c ∈ dumpFieldsSep fs, c.toNat < 128
  | [], c, hc => by cases hc
  | (k, v) :: fs, c, hc => by
    rw [dumpFieldsSep] at hc
    simp only [List.mem_cons, List.mem_append] at hc
    rcases hc with rfl | rfl | hc | rfl | rfl | hc | hc
    · decide
    · decide
    · exact dumpStr_ascii k c hc
    · decide
    · decide
    · exact dumpsL_ascii v c hc
    · exact dumpFieldsSep_ascii fs c hc

end

/-! ## `base64.urlsafe_b64encode` / `urlsafe_b64decode`

Bytes are modelled as `Nat`s below 256; the encoded text as characters of
the URL-safe alphabet (`-` and `_` for 62/63) with `=` padding.  The
decoder models Python's behaviour on well-padded alphabet-only input;
Python's silent discarding of other characters (`validate=False`) only
matters for corrupted documents and is not modelled. -/

/-- Character of one sextet in the URL-safe base64 alphabet. -/
def b64Char (n : Nat) : Char :=
  if n < 26 then Char.ofNat (65 + n)
  else if n < 52 then Char.ofNat (97 + (n - 26))
  else if n < 62 then Char.ofNat (48 + (n - 52))
  else if n = 62 then '-'
  else '_'

/-- Sextet value of one alphabet character. -/
def b64Val (c : Char) : Option Nat :=
  if 'A' ≤ c ∧ c ≤ 'Z' then some (c.toNat - 65)
  else if 'a' ≤ c ∧ c ≤ 'z' then some (c.toNat - 71)
  else if '0' ≤ c ∧ c ≤ '9' then some (c.toNat - 48 + 52)
  else if c = '-' then some 62
  else if c = '_' then some 63
  else none

def b64encode : List Nat → List Char
  | [] => []
  | [a] => [b64Char (a / 4), b64Char (a % 4 * 16), '=', '=']
  | [a, b] => [b64Char (a / 4), b64Char (a % 4 * 16 + b / 16), b64Char (b % 16 * 4), '=']
  | a :: b :: c :: rest =>
    b64Char (a / 4) :: b64Char (a % 4 * 16 + b / 16)
      :: b64Char (b % 16 * 4 + c / 64) :: b64Char (c % 64) :: b64encode rest

def b64decode : List Char → Option (List Nat)
  | [] => some []
  | c1 :: c2 :: c3 :: c4 :: rest =>
    match b64Val c1 with
    | none => none
    | some v1 =>
      match b64Val c2 with
      | none => none
      | some v2 =>
        if c3 = '=' then
          if c4 = '=' ∧ rest = [] then some [v1 * 4 + v2 / 16] else none
        else
          match b64Val c3 with
          | none => none
          | some v3 =>
            if c4 = '=' then
              if rest = [] then some [v1 * 4 + v2 / 16, v2 % 16 * 16 + v3 / 4]
              else none
            else
              match b64Val c4 with
              | none => none
              | some v4 =>
                match b64decode rest with
                | some tail =>
                  some ((v1 * 4 + v2 / 16) :: (v2 % 16 * 16 + v3 / 4)
                    :: (v3 % 4 * 64 + v4) :: tail)
                | none => none
  | _ => none

theorem b64Val_b64Char (n : Nat) (h : n < 64) :
    b64Val (b64Char n) = some n ∧ b64Char n ≠ '='
      ∧ (b64Char n).toNat < 128 := by
  have all : ∀ j : Fin 64, b64Val (b64Char j.1) = some j.1 ∧ b64Char j.1 ≠ '='
      ∧ (b64Char j.1).toNat < 128 := by decide
  exact all ⟨n, h⟩

/-- One step of `b64decode` on a full quartet of alphabet characters. -/
theorem b64decode_quartet (c1 c2 c3 c4 : Char) (rest : List Char)
    (v1 v2 v3 v4 : Nat)
    (h1 : b64Val c1 = some v1) (h2 : b64Val c2 = some v2)
    (h3 : b64Val c3 = some v3) (h4 : b64Val c4 = some v4)
    (n3 : c3 ≠ '=') (n4 : c4 ≠ '=') :
    b64decode (c1 :: c2 :: c3 :: c4 :: rest)
      = (match b64decode rest with
        | some tail =>
          some ((v1 * 4 + v2 / 16) :: (v2 % 16 * 16 + v3 / 4) :: (v3 % 4 * 64 + v4) :: tail)
        | none => none) := by
  rw [b64decode, h1]
  show (match b64Val c2 with
    | none => none
    | some v2 =>
      if c3 = '=' then
        if c4 = '=' ∧ rest = [] then some [v1 * 4 + v2 / 16] else none
      else
        match b64Val c3 with
        | none => none
        | some v3 =>
          if c4 = '=' then
            if rest = [] then some [v1 * 4 + v2 / 16, v2 % 16 * 16 + v3 / 4]
            else none
          else
            match b64Val c4 with
            | none => none
            | some v4 =>
              match b64decode rest with
              | some tail =>
                some ((v1 * 4 + v2 / 16) :: (v2 % 16 * 16 + v3 / 4)
                  :: (v3 % 4 * 64 + v4) :: tail)
              | none => none) = _
  rw [h2]
  show (if c3 = '=' then _ else _) = _
  rw [if_neg n3, h3]
  show (if c4 = '=' then _ else _) = _
  rw [if_neg n4, h4]

/-- One step of `b64decode` on a `xx==`-padded final quartet. -/
theorem b64decode_pad2 (c1 c2 : Char) (v1 v2 : Nat)
    (h1 : b64Val c1 = some v1) (h2 : b64Val c2 = some v2) :
    b64decode [c1, c2, '=', '='] = some [v1 * 4 + v2 / 16] := by
  rw [b64decode, h1]
  show (match b64Val c2 with
    | none => none
    | some v2 =>
      if ('=' : Char) = '=' then
        if ('=' : Char) = '=' ∧ ([] : List Char) = [] then some [v1 * 4 + v2 / 16]
        else none
      else _) = _
  rw [h2]
  simp

/-- One step of `b64decode` on a `xxx=`-padded final quartet. -/
theorem b64decode_pad1 (c1 c2 c3 : Char) (v1 v2 v3 : Nat)
    (h1 : b64Val c1 = some v1) (h2 : b64Val c2 = some v2)
    (h3 : b64Val c3 = some v3) (n3 : c3 ≠ '=') :
    b64decode [c1, c2, c3, '='] = some [v1 * 4 + v2 / 16, v2 % 16 * 16 + v3 / 4] := by
  rw [b64decode, h1]
  show (match b64Val c2 with
    | none => none
    | some v2 =>
      if c3 = '=' then
        if ('=' : Char) = '=' ∧ ([] : List Char) = [] then some [v1 * 4 + v2 / 16]
        else none
      else
        match b64Val c3 with
        | none => none
        | some v3 =>
          if ('=' : Char) = '=' then
            if ([] : List Char) = [] then
              some [v1 * 4 + v2 / 16, v2 % 16 * 16 + v3 / 4]
            else none
          else _) = _
  rw [h2]
  show (if c3 = '=' then _ else _) = _
  rw [if_neg n3, h3]
  simp

/-- The base64 codec round-trip on byte lists. -/
theorem b64decode_encode : ∀ bs : List Nat, (∀ b ∈ bs, b < 256) →
    b64decode (b64encode bs) = some bs
  | [], _ => rfl
  | [a], h => by
    have ha : a < 256 := h a (by simp)
    have q1 := b64Val_b64Char (a / 4) (by omega)
    have q2 := b64Val_b64Char (a % 4 * 16) (by omega)
    rw [b64encode, b64decode_pad2 _ _ _ _ q1.1 q2.1]
    have : a / 4 * 4 + a % 4 * 16 / 16 = a := by omega
    rw [this]
  | [a, b], h => by
    have ha : a < 256 := h a (by simp)
    have hb : b < 256 := h b (by simp)
    have q1 := b64Val_b64Char (a / 4) (by omega)
    have q2 := b64Val_b64Char (a % 4 * 16 + b / 16) (by omega)
    have q3 := b64Val_b64Char (b % 16 * 4) (by omega)
    rw [b64encode, b64decode_pad1 _ _ _ _ _ _ q1.1 q2.1 q3.1 q3.2.1]
    have e1 : a / 4 * 4 + (a % 4 * 16 + b / 16) / 16 = a := by omega
    have e2 : (a % 4 * 16 + b / 16) % 16 * 16 + b % 16 * 4 / 4 = b := by omega
    rw [e1, e2]
  | a :: b :: c :: rest, h => by
    have ha : a < 256 := h a (by simp)
    have hb : b < 256 := h b (by simp)
    have hc : c < 256 := h c (by simp)
    have q1 := b64Val_b64Char (a / 4) (by omega)
    have q2 := b64Val_b64Char (a % 4 * 16 + b / 16) (by omega)
    have q3 := b64Val_b64Char (b % 16 * 4 + c / 64) (by omega)
    have q4 := b64Val_b64Char (c % 64) (by omega)
    have ih := b64decode_encode rest fun x hx => h x (by simp [hx])
    rw [b64encode, b64decode_quartet _ _ _ _ _ _ _ _ _
      q1.1 q2.1 q3.1 q4.1 q3.2.1 q4.2.1, ih]
    have e1 : a / 4 * 4 + (a % 4 * 16 + b / 16) / 16 = a := by omega
    have e2 : (a % 4 * 16 + b / 16) % 16 * 16 + (b % 16 * 4 + c / 64) / 4 = b := by
      omega
    have e3 : (b % 16 * 4 + c / 64) % 4 * 64 + c % 64 = c := by omega
    rw [e1, e2, e3]

theorem b64encode_ascii : ∀ (bs : List Nat), (∀ b ∈ bs, b < 256) →
    ∀ c ∈ b64encode bs, c.toNat < 128
  | [], _, c, hc => by cases hc
  | [a], h, c, hc => by
    have ha : a < 256 := h a (by simp)
    rw [b64encode] at hc
    simp only [List.mem_cons, List.not_mem_nil, or_false] at hc
    rcases hc with rfl | rfl | rfl | rfl
    · exact (b64Val_b64Char _ (by omega)).2.2
    · exact (b64Val_b64Char _ (by omega)).2.2
    · decide
    · decide
  | [a, b], h, c, hc => by
    have ha : a < 256 := h a (by simp)
    have hb : b < 256 := h b (by simp)
    rw [b64encode] at hc
    simp only [List.mem_cons, List.not_mem_nil, or_false] at hc
    rcases hc with rfl | rfl | rfl | rfl
    · exact (b64Val_b64Char _ (by omega)).2.2
    · exact (b64Val_b64Char _ (by omega)).2.2
    · exact (b64Val_b64Char _ (by omega)).2.2
    · decide
  | a :: b :: c0 :: rest, h, c, hc => by
    have ha : a < 256 := h a (by simp)
    have hb : b < 256 := h b (by simp)
    have hc0 : c0 < 256 := h c0 (by simp)
    rw [b64encode] at hc
    simp only [List.mem_cons] at hc
    rcases hc with rfl | rfl | rfl | rfl | hc
    · exact (b64Val_b64Char _ (by omega)).2.2
    · exact (b64Val_b64Char _ (by omega)).2.2
    · exact (b64Val_b64Char _ (by omega)).2.2
    · exact (b64Val_b64Char _ (by omega)).2.2
    · exact b64encode_ascii rest (fun x hx => h x (by simp [hx])) c hc

/-! ## The sidecar data-step codec

`create_data_step`, `locate_data_step`, `retrieve_data_step`,
`is_data_empty`, `store_data_step` from the source.  Python raising an
exception is `none`; the `os.urandom` token is a parameter. -/

def FAKE_URL_PREFIX : String := "https://localhost:59999/nuri-data/"

/-- Python `str.startswith`. -/
def startswith (p s : String) : Bool := p.data.isPrefixOf s.data

/-- `create_data_step(data)`: the artificial, impossible-to-match route
step that stores `data`; `token` stands for the
`urlsafe_b64encode(os.urandom(64))` random match token. -/
def create_data_step (data : JObj) (token : String) : JVal :=
  .obj [("match", .obj [("arguments", .obj [("impossible", .str token)])]),
    ("action", .obj [("return", .int 302),
      ("location", .str ⟨FAKE_URL_PREFIX.data
        ++ b64encode ((dumpsL (.obj data)).map Char.toNat)⟩)])]

/-- The per-step test of `locate_data_step`:
`('action' in step) and step['action'].get('location', '').startswith(FAKE_URL_PREFIX)`.
Exotic non-dict shapes on which Python would raise (`location` bound to a
non-string, `action` bound to a non-dict, an unhashable step) are mapped
to `false`; the theorems' hypotheses keep those shapes out of reach. -/
def is_data_step (step : JVal) : Bool :=
  match step with
  | .obj fields =>
    match dget fields "action" with
    | some (.obj af) =>
      match dget af "location" with
      | some (.str loc) => startswith FAKE_URL_PREFIX loc
      | some _ => false
      | none => false
    | some _ => false
    | none => false
  | _ => false

/-- Where a route lives: the `routes` list itself, or a named member of
the `routes` mapping. -/
inductive RouteRef where
  | top
  | named (k : String)
  deriving DecidableEq

/-- The values of a `routes` mapping, each required to be a list of
steps (Python iterates them with `enumerate`; non-list members are left
out of the model and make the surrounding operation `none`). -/
def routeValues : JObj → Option (List (RouteRef × List JVal))
  | [] => some []
  | (k, .arr steps) :: rest =>
    (routeValues rest).map fun es => (RouteRef.named k, steps) :: es
  | _ => none

/-- The routes scanned by `locate_data_step`:
`[config['routes']] if isinstance(config['routes'], list) else config['routes'].values()`;
no `routes` key means nothing to scan, a `routes` that is neither list
nor mapping raises (`none`). -/
def routeEntries (config : JObj) : Option (List (RouteRef × List JVal)) :=
  match dget config "routes" with
  | none => some []
  | some (.arr steps) => some [(.top, steps)]
  | some (.obj m) => routeValues m
  | some _ => none

def findDataStep : List (RouteRef × List JVal) → Option (RouteRef × Nat)
  | [] => none
  | (r, steps) :: rest =>
    match steps.findIdx? is_data_step with
    | some i => some (r, i)
    | none => findDataStep rest

/-- `locate_data_step(config)`: `none` when Python raises, `some none`
for the `(None, None)` not-found result, and `some (some (r, i))` for a
found step (the route handle and the index). -/
def locate_data_step (config : JObj) : Option (Option (RouteRef × Nat)) :=
  (routeEntries config).map findDataStep

/-- Dereference a route handle produced by `locate_data_step`. -/
def getRouteSteps (config : JObj) (r : RouteRef) : List JVal :=
  match r, dget config "routes" with
  | .top, some (.arr steps) => steps
  | .named k, some (.obj m) =>
    match dget m k with
    | some (.arr steps) => steps
    | _ => []
  | _, _ => []

/-- Write a route back through its handle (the in-place list mutation of
the Python original). -/
def setRouteSteps (config : JObj) (r : RouteRef) (steps : List JVal) : JObj :=
  match r with
  | .top => dset config "routes" (.arr steps)
  | .named k =>
    match dget config "routes" with
    | some (.obj m) => dset config "routes" (.obj (dset m k (.arr steps)))
    | _ => config

/-- The `location` payload decode of `retrieve_data_step`:
strip the prefix, `.encode('ascii')`, `urlsafe_b64decode`, `json.loads`.
A non-ASCII byte in the decoded payload would engage UTF-8 decoding,
which the model rejects instead (unreachable for payloads this program
wrote, which are `ensure_ascii` output). -/
def decode_payload (loc : String) : Option JVal :=
  let payload := loc.data.drop FAKE_URL_PREFIX.data.length
  if payload.all (fun c => c.toNat < 128) then
    match b64decode payload with
    | some bytes =>
      if bytes.all (fun b => b < 128) then loads (bytes.map Char.ofNat)
      else none
    | none => none
  else none

/-- `retrieve_data_step(config)`: the decoded sidecar payload, `dict()`
when no data step exists, `none` when Python raises (corrupt payload). -/
def retrieve_data_step (config : JObj) : Option JVal :=
  match locate_data_step config with
  | none => none
  | some none => some (.obj [])
  | some (some (r, i)) =>
    match (getRouteSteps config r)[i]? with
    | some (.obj fields) =>
      match dget fields "action" with
      | some (.obj af) =>
        match dget af "location" with
        | some (.str loc) => decode_payload loc
        | _ => none
      | _ => none
    | _ => none

/-- `is_data_empty(data)`: every value is an empty list or dict. -/
def is_empty_cont : JVal → Bool
  | .arr [] => true
  | .obj [] => true
  | _ => false

def is_data_empty (data : JObj) : Bool :=
  data.all fun kv => is_empty_cont kv.2

/-- `store_data_step(mut_config, data)` as a function from the old
document to the new one; `none` where Python raises (a `routes` value no
list can be inserted into). -/
def store_data_step (config : JObj) (data : JObj) (token : String) : Option JObj :=
  let step := create_data_step data token
  match locate_data_step config with
  | none => none
  | some (some (r, i)) =>
    let steps := getRouteSteps config r
    some (if is_data_empty data then setRouteSteps config r (steps.eraseIdx i)
      else setRouteSteps config r (steps.set i step))
  | some none =>
    let config1 := if (dget config "routes").isSome then config
      else dset config "routes" (.arr [])
    match dget config1 "routes" with
    | some (.arr steps) => some (dset config1 "routes" (.arr (step :: steps)))
    | some (.obj m) =>
      match (if m.isEmpty then [("main", JVal.arr [])] else m) with
      | (k, .arr steps) :: rest =>
        some (dset config1 "routes" (.obj ((k, .arr (step :: steps)) :: rest)))
      | _ => none
    | _ => none

/-- The number of data steps in the whole route set (what
`locate_data_step` scans). -/
def stepsCount : JVal → Nat
  | .arr steps => steps.countP is_data_step
  | _ => 0

def countDataSteps (config : JObj) : Nat :=
  match dget config "routes" with
  | none => 0
  | some (.arr steps) => steps.countP is_data_step
  | some (.obj m) => (m.map fun kv => stepsCount kv.2).sum
  | some _ => 0

/-- Keys of the `routes` mapping are pairwise distinct — automatic for a
document decoded from JSON into Python dicts. -/
def routesWf (config : JObj) : Bool :=
  match dget config "routes" with
  | some (.obj m) => keysDistinct m
  | _ => true

theorem isPrefixOf_append_self : ∀ p s : List Char, p.isPrefixOf (p ++ s) = true := by
  intro p s
  induction p with
  | nil => cases s <;> rfl
  | cons c cs ih => simp [List.isPrefixOf, ih]

theorem is_data_step_create (d : JObj) (t : String) :
    is_data_step (create_data_step d t) = true :=
  isPrefixOf_append_self FAKE_URL_PREFIX.data _

/-- Decoding the `location` payload that `create_data_step` wrote for a
well-formed mapping `d` gives back exactly `d`. -/
theorem decode_payload_encode (d : JObj) (hw : wfJson (.obj d) = true) :
    decode_payload ⟨FAKE_URL_PREFIX.data
      ++ b64encode ((dumpsL (.obj d)).map Char.toNat)⟩ = some (.obj d) := by
  rw [decode_payload]
  have hbytes : ∀ b ∈ (dumpsL (.obj d)).map Char.toNat, b < 256 := by
    intro b hb
    rw [List.mem_map] at hb
    obtain ⟨c, hc, rfl⟩ := hb
    have := dumpsL_ascii (.obj d) c hc
    omega
  have hdrop : (String.data ⟨FAKE_URL_PREFIX.data
      ++ b64encode ((dumpsL (.obj d)).map Char.toNat)⟩).drop FAKE_URL_PREFIX.data.length
      = b64encode ((dumpsL (.obj d)).map Char.toNat) := by
    show (FAKE_URL_PREFIX.data ++ _).drop FAKE_URL_PREFIX.data.length = _
    rw [List.drop_left]
  rw [hdrop]
  rw [if_pos (by
    rw [List.all_eq_true]
    intro c hc
    have := b64encode_ascii _ hbytes c hc
    simp only [decide_eq_true_eq]
    omega)]
  rw [b64decode_encode _ hbytes]
  show (if ((List.map Char.toNat (dumpsL (JVal.obj d))).all fun b => decide (b < 128)) = true
    then loads (List.map Char.ofNat (List.map Char.toNat (dumpsL (JVal.obj d))))
    else none) = some (JVal.obj d)
  rw [if_pos (by
    rw [List.all_eq_true]
    intro b hb
    rw [List.mem_map] at hb
    obtain ⟨c, hc, rfl⟩ := hb
    have := dumpsL_ascii (.obj d) c hc
    simp only [decide_eq_true_eq]
    omega)]
  have hmap : ((dumpsL (.obj d)).map Char.toNat).map Char.ofNat = dumpsL (.obj d) := by
    rw [List.map_map]
    rw [show (Char.ofNat ∘ Char.toNat) = id from funext Char.ofNat_toNat]
    exact List.map_id _
  rw [hmap, loads_dumps _ hw]

/-- Storing into an empty document creates `routes` and puts the data
step first (pure computation). -/
theorem store_into_empty (d : JObj) (t : String) :
    store_data_step [] d t = some [("routes", JVal.arr [create_data_step d t])] := rfl

theorem retrieve_after_store (d : JObj) (t : String) (hw : wfJson (.obj d) = true) :
    retrieve_data_step [("routes", JVal.arr [create_data_step d t])] = some (.obj d) := by
  have hstep := is_data_step_create d t
  have hfind : ([create_data_step d t] : List JVal).findIdx? is_data_step = some 0 := by
    simp [List.findIdx?_cons, hstep]
  have hloc : locate_data_step [("routes", JVal.arr [create_data_step d t])]
      = some (some (.top, 0)) := by
    rw [locate_data_step]
    show some (findDataStep [(RouteRef.top, [create_data_step d t])]) = _
    rw [findDataStep, hfind]
  rw [retrieve_data_step, hloc]
  show (match dget [("return", JVal.int 302),
      ("location", JVal.str ⟨FAKE_URL_PREFIX.data
        ++ b64encode ((dumpsL (.obj d)).map Char.toNat)⟩)] "location" with
    | some (.str loc) => decode_payload loc
    | _ => none) = some (.obj d)
  show decode_payload ⟨FAKE_URL_PREFIX.data
    ++ b64encode ((dumpsL (.obj d)).map Char.toNat)⟩ = some (.obj d)
  exact decode_payload_encode d hw
/-- **C5** — Round-trip: for every mapping `d` of JSON-safe values (a
well-formed `JObj`), storing `d` into an empty configuration document
with `store_data_step` and reading it back with `retrieve_data_step`
returns a mapping equal to `d`: the base64url/JSON encoding in the
DataStep location round-trips exactly. -/
theorem C5_sidecar_roundtrip (d : JObj) (t : String) (hw : wfJson (.obj d) = true) :
    (store_data_step [] d t).bind retrieve_data_step = some (.obj d) := by
  rw [store_into_empty]
  show retrieve_data_step [("routes", JVal.arr [create_data_step d t])] = _
  exact retrieve_after_store d t hw

theorem C5_sidecar_roundtrip_witness :
    wfJson (.obj [("k", JVal.int 5)]) = true ∧
    (store_data_step [] [("k", JVal.int 5)] "TOKEN").bind retrieve_data_step
      = some (.obj [("k", JVal.int 5)]) :=
  ⟨by decide, C5_sidecar_roundtrip [("k", JVal.int 5)] "TOKEN" (by decide)⟩

/-- **C1** — the claim "after `store_data_step(config, data)` with empty
sidecar `data` the route set holds no DataStep, regardless of whether a
DataStep existed before" fails on the code: when no DataStep exists, the
emptiness check is skipped and an empty-payload DataStep is *inserted*.
This theorem evaluates the code at the failing input `config = {}`,
`data = {}`: the store succeeds, and afterwards `locate_data_step` finds
a DataStep (the route set holds exactly one). -/
theorem C1_store_empty_data_inserts_step :
    store_data_step [] [] "tok"
      = some [("routes", JVal.arr [create_data_step [] "tok"])]
    ∧ locate_data_step [("routes", JVal.arr [create_data_step [] "tok"])]
      = some (some (.top, 0))
    ∧ countDataSteps [("routes", JVal.arr [create_data_step [] "tok"])] = 1 := by
  refine ⟨rfl, ?_, ?_⟩ <;> decide

theorem dget_dset_self : ∀ (m : JObj) (k : String) (v : JVal),
    dget (dset m k v) k = some v
  | [], k, v => by simp [dset, dget]
  | (k', v') :: rest, k, v => by
    rw [dset]
    by_cases h : k' = k
    · rw [if_pos h, dget, if_pos rfl]
    · rw [if_neg h, dget, if_neg h]
      exact dget_dset_self rest k v

theorem dget_some_mem : ∀ (m : JObj) (k : String) (v : JVal),
    dget m k = some v → (k, v) ∈ m
  | [], k, v, h => by cases h
  | (k', v') :: rest, k, v, h => by
    rw [dget] at h
    by_cases hk : k' = k
    · rw [if_pos hk] at h
      injection h with h
      subst hk h
      exact List.mem_cons_self _ _
    · rw [if_neg hk] at h
      exact List.mem_cons_of_mem _ (dget_some_mem rest k v h)

theorem all_ne_of_keys : ∀ (r1 r2 : JObj) (k : String),
    r1.map Prod.fst = r2.map Prod.fst →
    (r1.all fun kv => kv.1 ≠ k) = (r2.all fun kv => kv.1 ≠ k)
  | [], [], _, _ => rfl
  | (k1, v1) :: r1, (k2, v2) :: r2, k, h => by
    rw [List.map_cons, List.map_cons, List.cons.injEq] at h
    obtain ⟨hk, hr⟩ := h
    subst hk
    rw [List.all_cons, List.all_cons, all_ne_of_keys r1 r2 k hr]
  | [], (_, _) :: _, _, h => by cases h
  | (_, _) :: _, [], _, h => by cases h

theorem keysDistinct_of_keys : ∀ (m1 m2 : JObj),
    m1.map Prod.fst = m2.map Prod.fst → keysDistinct m1 = keysDistinct m2
  | [], [], _ => rfl
  | (k1, v1) :: r1, (k2, v2) :: r2, h => by
    rw [List.map_cons, List.map_cons, List.cons.injEq] at h
    obtain ⟨hk, hr⟩ := h
    subst hk
    rw [keysDistinct, keysDistinct, keysDistinct_of_keys r1 r2 hr,
      all_ne_of_keys r1 r2 k1 hr]
  | [], (_, _) :: _, h => by cases h
  | (_, _) :: _, [], h => by cases h

theorem dset_keys_of_mem : ∀ (m : JObj) (k : String) (v w : JVal),
    dget m k = some w → (dset m k v).map Prod.fst = m.map Prod.fst
  | [], k, v, w, h => by cases h
  | (k', v') :: rest, k, v, w, h => by
    rw [dget] at h
    rw [dset]
    by_cases hk : k' = k
    · rw [if_pos hk, List.map_cons, List.map_cons, hk]
    · rw [if_neg hk] at h
      rw [if_neg hk, List.map_cons, List.map_cons,
        dset_keys_of_mem rest k v w h]

theorem countP_eraseIdx_le (p : JVal → Bool) :
    ∀ (l : List JVal) (i : Nat), (l.eraseIdx i).countP p ≤ l.countP p
  | [], _ => by simp [List.eraseIdx]
  | x :: xs, 0 => by
    rw [List.eraseIdx, List.countP_cons]
    omega
  | x :: xs, i + 1 => by
    rw [List.eraseIdx, List.countP_cons, List.countP_cons]
    have := countP_eraseIdx_le p xs i
    omega

theorem countP_set_eq (p : JVal → Bool) :
    ∀ (l : List JVal) (i : Nat) (x y : JVal), l[i]? = some y →
      p y = true → p x = true → (l.set i x).countP p = l.countP p
  | [], i, x, y, h, _, _ => by cases h
  | a :: as, 0, x, y, h, hy, hx => by
    rw [List.getElem?_cons_zero] at h
    injection h with h
    subst h
    rw [List.set, List.countP_cons, List.countP_cons, hy, hx]
  | a :: as, i + 1, x, y, h, hy, hx => by
    rw [List.set, List.countP_cons, List.countP_cons,
      countP_set_eq p as i x y (by simpa using h) hy hx]

theorem findIdx?_some_get (p : JVal → Bool) :
    ∀ (l : List JVal) (i : Nat), l.findIdx? p = some i →
      ∃ y, l[i]? = some y ∧ p y = true
  | [], i, h => by cases h
  | a :: as, i, h => by
    rw [List.findIdx?_cons] at h
    by_cases hp : p a
    · rw [if_pos hp] at h
      injection h with h
      subst h
      exact ⟨a, by rw [List.getElem?_cons_zero], hp⟩
    · rw [if_neg hp, List.findIdx?_succ, Option.map_eq_some'] at h
      obtain ⟨j, hj, rfl⟩ := h
      obtain ⟨y, hy, hpy⟩ := findIdx?_some_get p as j hj
      exact ⟨y, by simpa using hy, hpy⟩

theorem countP_zero_of_findIdx?_none (p : JVal → Bool) (l : List JVal)
    (h : l.findIdx? p = none) : l.countP p = 0 := by
  rw [List.countP_eq_zero]
  rw [List.findIdx?_eq_none_iff] at h
  intro a ha
  simp [h a ha]

theorem map_sum_dset : ∀ (m : JObj) (k : String) (v w : JVal) (f : JVal → Nat),
    dget m k = some w →
    ((dset m k v).map fun kv => f kv.2).sum + f w
      = (m.map fun kv => f kv.2).sum + f v
  | [], k, v, w, f, h => by cases h
  | (k', v') :: rest, k, v, w, f, h => by
    rw [dget] at h
    rw [dset]
    by_cases hk : k' = k
    · rw [if_pos hk] at h ⊢
      injection h with h
      subst h
      rw [List.map_cons, List.map_cons, List.sum_cons, List.sum_cons]
      dsimp only
      omega
    · rw [if_neg hk] at h ⊢
      rw [List.map_cons, List.map_cons, List.sum_cons, List.sum_cons]
      have := map_sum_dset rest k v w f h
      dsimp only
      omega
theorem routeValues_named : ∀ (m : JObj) (es : List (RouteRef × List JVal)),
    routeValues m = some es → ∀ e ∈ es, ∃ k, e.1 = RouteRef.named k
  | [], es, h => by
    injection h with h
    subst h
    intro e he
    cases he
  | (k, .arr steps) :: rest, es, h => by
    rw [routeValues, Option.map_eq_some'] at h
    obtain ⟨es', hes', rfl⟩ := h
    intro e he
    rcases he with _ | ⟨_, he⟩
    · exact ⟨k, rfl⟩
    · exact routeValues_named rest es' hes' e he

theorem findDataStep_mem : ∀ (es : List (RouteRef × List JVal)) (r : RouteRef) (i : Nat),
    findDataStep es = some (r, i) →
    ∃ steps, (r, steps) ∈ es ∧ steps.findIdx? is_data_step = some i
  | [], r, i, h => by cases h
  | (r0, steps0) :: rest, r, i, h => by
    rw [findDataStep] at h
    cases hf : steps0.findIdx? is_data_step with
    | some j =>
      rw [hf] at h
      injection h with h
      rw [Prod.mk.injEq] at h
      obtain ⟨rfl, rfl⟩ := h
      exact ⟨steps0, List.mem_cons_self _ _, hf⟩
    | none =>
      rw [hf] at h
      obtain ⟨steps, hmem, hidx⟩ := findDataStep_mem rest r i h
      exact ⟨steps, List.mem_cons_of_mem _ hmem, hidx⟩

theorem findDataStep_none : ∀ (es : List (RouteRef × List JVal)),
    findDataStep es = none → ∀ e ∈ es, e.2.findIdx? is_data_step = none
  | [], _, e, he => by cases he
  | (r0, steps0) :: rest, h, e, he => by
    rw [findDataStep] at h
    cases hf : steps0.findIdx? is_data_step with
    | some j => rw [hf] at h; cases h
    | none =>
      rw [hf] at h
      rcases he with _ | ⟨_, he⟩
      · exact hf
      · exact findDataStep_none rest h e he

theorem routeValues_sum : ∀ (m : JObj) (es : List (RouteRef × List JVal)),
    routeValues m = some es →
    (m.map fun kv => stepsCount kv.2).sum
      = (es.map fun e => e.2.countP is_data_step).sum
  | [], es, h => by
    injection h with h
    subst h
    rfl
  | (k, .arr steps) :: rest, es, h => by
    rw [routeValues, Option.map_eq_some'] at h
    obtain ⟨es', hes', rfl⟩ := h
    rw [List.map_cons, List.map_cons, List.sum_cons, List.sum_cons,
      routeValues_sum rest es' hes']
    rfl

/-- For a data step located in a named route of a distinct-keys `routes`
mapping: the route is the unique binding of its name, and replacing it
changes the total count by exactly the route's own count. -/
theorem located_named : ∀ (m : JObj) (es : List (RouteRef × List JVal))
    (k : String) (i : Nat),
    keysDistinct m = true → routeValues m = some es →
    findDataStep es = some (.named k, i) →
    ∃ steps, dget m k = some (.arr steps)
      ∧ steps.findIdx? is_data_step = some i
      ∧ ∀ ns : List JVal,
        ((dset m k (.arr ns)).map fun kv => stepsCount kv.2).sum
            + steps.countP is_data_step
          = (m.map fun kv => stepsCount kv.2).sum + ns.countP is_data_step
  | [], es, k, i, _, hrv, hfd => by
    injection hrv with hrv
    subst hrv
    cases hfd
  | (k0, .arr s0) :: rest, es, k, i, hd, hrv, hfd => by
    rw [routeValues, Option.map_eq_some'] at hrv
    obtain ⟨es', hes', rfl⟩ := hrv
    rw [keysDistinct, Bool.and_eq_true] at hd
    rw [findDataStep] at hfd
    cases hf : List.findIdx? is_data_step s0 with
    | some j =>
      rw [hf] at hfd
      injection hfd with hfd
      rw [Prod.mk.injEq] at hfd
      obtain ⟨hk, rfl⟩ := hfd
      injection hk with hk
      subst hk
      refine ⟨s0, by rw [dget, if_pos rfl], hf, ?_⟩
      intro ns
      rw [dset, if_pos rfl, List.map_cons, List.map_cons,
        List.sum_cons, List.sum_cons]
      show ns.countP is_data_step + _ + s0.countP is_data_step
        = s0.countP is_data_step + _ + ns.countP is_data_step
      omega
    | none =>
      rw [hf] at hfd
      obtain ⟨steps, hget, hidx, hsum⟩ := located_named rest es' k i hd.2 hes' hfd
      have hkne : k0 ≠ k := by
        have hmem := dget_some_mem rest k _ hget
        have := List.all_eq_true.1 hd.1 _ hmem
        simp only [decide_eq_true_eq] at this
        exact fun hc => this hc.symm
      refine ⟨steps, by rw [dget, if_neg hkne]; exact hget, hidx, ?_⟩
      intro ns
      rw [dset, if_neg hkne, List.map_cons, List.map_cons,
        List.sum_cons, List.sum_cons]
      have := hsum ns
      dsimp only
      omega
theorem countDataSteps_dset_arr (config : JObj) (steps : List JVal) :
    countDataSteps (dset config "routes" (.arr steps))
      = steps.countP is_data_step := by
  unfold countDataSteps
  rw [dget_dset_self]

theorem countDataSteps_dset_obj (config : JObj) (m : JObj) :
    countDataSteps (dset config "routes" (.obj m))
      = (m.map fun kv => stepsCount kv.2).sum := by
  unfold countDataSteps
  rw [dget_dset_self]

theorem routesWf_dset_arr (config : JObj) (steps : List JVal) :
    routesWf (dset config "routes" (.arr steps)) = true := by
  unfold routesWf
  rw [dget_dset_self]

theorem routesWf_dset_obj (config : JObj) (m : JObj) :
    routesWf (dset config "routes" (.obj m)) = keysDistinct m := by
  unfold routesWf
  rw [dget_dset_self]

theorem if_true_one : (if (true = true) then (1 : Nat) else 0) = 1 := rfl

set_option maxHeartbeats 2000000 in
/-- One `store_data_step` call keeps the at-most-one-DataStep count
and the distinct-route-keys shape. -/
theorem store_step_preserves (config data : JObj) (token : String) (c' : JObj)
    (hwf : routesWf config = true) (hle : countDataSteps config ≤ 1)
    (h : store_data_step config data token = some c') :
    countDataSteps c' ≤ 1 ∧ routesWf c' = true := by
  simp only [store_data_step] at h
  split at h
  · exact absurd h (by simp)
  -- found: replace or remove
  case h_2 r i hloc =>
    rw [locate_data_step, Option.map_eq_some'] at hloc
    obtain ⟨es, hes, hfd⟩ := hloc
    injection h with h
    subst h
    rw [routeEntries] at hes
    split at hes
    · -- no routes: es = [] but something was found
      injection hes with hes
      subst hes
      cases hfd
    · -- routes is a list
      rename_i steps hr
      injection hes with hes
      subst hes
      rw [findDataStep] at hfd
      cases hfi : steps.findIdx? is_data_step with
      | none => rw [hfi] at hfd; cases hfd
      | some j =>
        rw [hfi] at hfd
        injection hfd with hfd
        rw [Prod.mk.injEq] at hfd
        obtain ⟨rfl, rfl⟩ := hfd
        have hg : getRouteSteps config .top = steps := by
          unfold getRouteSteps
          rw [hr]
        have hset : ∀ ns, setRouteSteps config .top ns
            = dset config "routes" (.arr ns) := fun ns => rfl
        have hcount : countDataSteps config = steps.countP is_data_step := by
          unfold countDataSteps
          rw [hr]
        split
        · rw [hg, hset, countDataSteps_dset_arr]
          refine ⟨?_, routesWf_dset_arr _ _⟩
          have := countP_eraseIdx_le is_data_step steps j
          omega
        · rw [hg, hset, countDataSteps_dset_arr]
          refine ⟨?_, routesWf_dset_arr _ _⟩
          obtain ⟨y, hy, hpy⟩ := findIdx?_some_get is_data_step steps j hfi
          rw [countP_set_eq is_data_step steps j _ y hy hpy
            (is_data_step_create data token)]
          omega
    · -- routes is a mapping
      rename_i m hr
      cases r with
      | top =>
        obtain ⟨steps, hmem, _⟩ := findDataStep_mem es .top i hfd
        obtain ⟨k, hk⟩ := routeValues_named m es hes (.top, steps) hmem
        cases hk
      | named k =>
        have hkd : keysDistinct m = true := by
          unfold routesWf at hwf
          rw [hr] at hwf
          exact hwf
        obtain ⟨steps, hget, hidx, hsum⟩ := located_named m es k i hkd hes hfd
        have hg : getRouteSteps config (.named k) = steps := by
          have e1 : getRouteSteps config (.named k)
              = match dget m k with
                | some (JVal.arr s) => s
                | _ => [] := by
            unfold getRouteSteps
            rw [hr]
          rw [e1, hget]
        have hset : ∀ ns, setRouteSteps config (.named k) ns
            = dset config "routes" (.obj (dset m k (.arr ns))) := by
          intro ns
          unfold setRouteSteps
          rw [hr]
        have hcount : countDataSteps config = (m.map fun kv => stepsCount kv.2).sum := by
          unfold countDataSteps
          rw [hr]
        have hwfkeys : ∀ ns, routesWf (dset config "routes"
            (.obj (dset m k (.arr ns)))) = true := by
          intro ns
          rw [routesWf_dset_obj,
            keysDistinct_of_keys _ _ (dset_keys_of_mem m k (.arr ns) _ hget)]
          exact hkd
        split
        · rw [hg, hset, countDataSteps_dset_obj]
          refine ⟨?_, hwfkeys _⟩
          have h1 := hsum (steps.eraseIdx i)
          have h2 := countP_eraseIdx_le is_data_step steps i
          omega
        · rw [hg, hset, countDataSteps_dset_obj]
          refine ⟨?_, hwfkeys _⟩
          have h1 := hsum (steps.set i (create_data_step data token))
          obtain ⟨y, hy, hpy⟩ := findIdx?_some_get is_data_step steps i hidx
          rw [countP_set_eq is_data_step steps i _ y hy hpy
            (is_data_step_create data token)] at h1
          omega
    · -- routes is neither list nor mapping: locate raised
      cases hes
  -- not found: insert
  case h_3 hloc =>
    rw [locate_data_step, Option.map_eq_some'] at hloc
    obtain ⟨es, hes, hfd⟩ := hloc
    split at h
    · -- routes (possibly just created) is a list
      rename_i steps hr1
      injection h with h
      subst h
      rw [countDataSteps_dset_arr, List.countP_cons,
        is_data_step_create data token, if_true_one]
      refine ⟨?_, routesWf_dset_arr _ _⟩
      by_cases hopt : (dget config "routes").isSome
      · rw [if_pos hopt] at hr1
        rw [routeEntries] at hes
        split at hes
        · rename_i hnone
          rw [hnone] at hr1
          cases hr1
        · rename_i steps0 hr0
          rw [hr0] at hr1
          injection hr1 with h2
          injection h2 with h3
          injection hes with hes
          subst hes
          have h4 : List.findIdx? is_data_step steps0 = none :=
            findDataStep_none _ hfd (.top, steps0) (by simp)
          have h5 := countP_zero_of_findIdx?_none is_data_step steps0 h4
          rw [← h3, h5]
        · rename_i m0 hr0
          rw [hr0] at hr1
          cases hr1
        · cases hes
      · rw [if_neg hopt, dget_dset_self] at hr1
        injection hr1 with h2
        injection h2 with h3
        rw [← h3, List.countP_nil]
    · -- routes is a mapping: insert into its first route
      rename_i m hr1
      split at h
      case h_2 => exact absurd h (by simp)
      rename_i k steps rest hfirst
      injection h with h
      subst h
      rw [countDataSteps_dset_obj, routesWf_dset_obj, List.map_cons, List.sum_cons]
      by_cases hopt : (dget config "routes").isSome
      · rw [if_pos hopt] at hr1
        rw [routeEntries] at hes
        split at hes
        · rename_i hnone
          rw [hnone] at hr1
          cases hr1
        · rename_i steps0 hr0
          rw [hr0] at hr1
          cases hr1
        · rename_i m0 hr0
          rw [hr0] at hr1
          injection hr1 with h2
          injection h2 with h3
          rw [h3] at hes hr0
          have hsum0 : (m.map fun kv => stepsCount kv.2).sum = 0 := by
            rw [routeValues_sum m es hes]
            refine List.sum_eq_zero ?_
            intro x hx
            rw [List.mem_map] at hx
            obtain ⟨e, he, rfl⟩ := hx
            exact countP_zero_of_findIdx?_none _ _ (findDataStep_none es hfd e he)
          have hkd : keysDistinct m = true := by
            unfold routesWf at hwf
            rw [hr0] at hwf
            exact hwf
          cases hm : m.isEmpty with
          | true =>
            rw [if_pos hm] at hfirst
            injection hfirst with h4 h5
            rw [Prod.mk.injEq] at h4
            obtain ⟨h4a, h4b⟩ := h4
            injection h4b with h4c
            rw [← h5, ← h4c]
            constructor
            · simp [stepsCount, List.countP_cons, is_data_step_create]
            · simp [keysDistinct]
          | false =>
            rw [if_neg (by simp [hm])] at hfirst
            rw [hfirst, List.map_cons, List.sum_cons] at hsum0
            simp only [stepsCount] at hsum0
            rw [hfirst] at hkd
            constructor
            · simp only [stepsCount, List.countP_cons,
                is_data_step_create, if_true_one, eq_self_iff_true, if_true]
              omega
            · rw [keysDistinct_of_keys
                ((k, JVal.arr (create_data_step data token :: steps)) :: rest)
                ((k, JVal.arr steps) :: rest) rfl]
              exact hkd
        · cases hes
      · rw [if_neg hopt, dget_dset_self] at hr1
        cases hr1
    · exact absurd h (by simp)
/-- A finite sequence of `store_data_step` calls (payload, token) folded
over the document; `none` as soon as one call raises. -/
def storeSeq (config : JObj) : List (JObj × String) → Option JObj
  | [] => some config
  | (d, t) :: ops =>
    match store_data_step config d t with
    | none => none
    | some c1 => storeSeq c1 ops

theorem storeSeq_preserves : ∀ (ops : List (JObj × String)) (config c' : JObj),
    routesWf config = true → countDataSteps config ≤ 1 →
    storeSeq config ops = some c' →
    countDataSteps c' ≤ 1 ∧ routesWf c' = true
  | [], config, c', hwf, hle, h => by
    injection h with h
    subst h
    exact ⟨hle, hwf⟩
  | (d, t) :: ops, config, c', hwf, hle, h => by
    rw [storeSeq] at h
    cases hs : store_data_step config d t with
    | none => rw [hs] at h; cases h
    | some c1 =>
      rw [hs] at h
      obtain ⟨h1, h2⟩ := store_step_preserves config d t c1 hwf hle hs
      exact storeSeq_preserves ops c1 c' h2 h1 h

/-- C4: for every configuration document whose `routes` mapping has
distinct keys and which initially contains at most one DataStep, after
any finite sequence of `store_data_step` calls with arbitrary payload
mappings and tokens, the route set contains at most one step whose
`action.location` starts with the fixed URL prefix (so
`locate_data_step` finds at most one). -/
theorem C4_at_most_one_data_step (ops : List (JObj × String)) (config c' : JObj)
    (hwf : routesWf config = true) (hle : countDataSteps config ≤ 1)
    (h : storeSeq config ops = some c') :
    countDataSteps c' ≤ 1 :=
  (storeSeq_preserves ops config c' hwf hle h).1

theorem C4_at_most_one_data_step_witness :
    countDataSteps
      ((storeSeq [] [([("a", JVal.int 1)], "t1"), ([("b", JVal.str "x")], "t2")]).getD [])
      ≤ 1 :=
  C4_at_most_one_data_step [([("a", JVal.int 1)], "t1"), ([("b", JVal.str "x")], "t2")] []
    ((storeSeq [] [([("a", JVal.int 1)], "t1"), ([("b", JVal.str "x")], "t2")]).getD [])
    rfl (by decide) (by rfl)

/-! ## `json_search_replace`

The generic tree transform of the tool. The Python inner function
`_json_search_replace_rec` recurses into the children of the value as it
stands *after* the head-first callback, so a callback that keeps
enlarging the value makes it diverge; the model indexes the recursion
with fuel and the wrapper passes `sizeJ data + 1`, which is shown
sufficient whenever the callback never enlarges values (every callback
in this program). -/

/-- One element of the `path` tuple handed to the callback: a list index
or a mapping key. -/
inductive PathEl where
  | idx (i : Nat)
  | key (k : String)
  deriving DecidableEq

/-- `isinstance(data, (list, dict))`. -/
def isCont : JVal → Bool
  | .arr _ => true
  | .obj _ => true
  | _ => false

mutual

/-- Structural size of a JSON value, used as fuel for the transform. -/
def sizeJ : JVal → Nat
  | .arr items => 1 + sizeItems items
  | .obj fields => 1 + sizeFields fields
  | _ => 1

def sizeItems : List JVal → Nat
  | [] => 0
  | x :: xs => 1 + sizeJ x + sizeItems xs

def sizeFields : List (String × JVal) → Nat
  | [] => 0
  | kv :: fs => 1 + sizeJ kv.2 + sizeFields fs

end

theorem sizeItems_mem : ∀ (items : List JVal) (x : JVal), x ∈ items →
    1 + sizeJ x ≤ sizeItems items
  | [], x, h => by cases h
  | y :: ys, x, h => by
    rw [sizeItems]
    rcases h with _ | ⟨_, h⟩
    · omega
    · have := sizeItems_mem ys x h
      omega

theorem sizeFields_mem : ∀ (fs : List (String × JVal)) (kv : String × JVal),
    kv ∈ fs → 1 + sizeJ kv.2 ≤ sizeFields fs
  | [], kv, h => by cases h
  | f :: fs, kv, h => by
    rw [sizeFields]
    rcases h with _ | ⟨_, h⟩
    · omega
    · have := sizeFields_mem fs kv h
      omega

/-- `[f(index, item) for index, item in enumerate(items)]` for a fallible
`f`, starting at index `i`. -/
def optMapIdx (f : Nat → JVal → Option JVal) : Nat → List JVal → Option (List JVal)
  | _, [] => some []
  | i, x :: xs =>
    match f i x with
    | none => none
    | some y => (optMapIdx f (i + 1) xs).map fun ys => y :: ys

/-- `{k: f(k, v) for k, v in fields.items()}` for a fallible `f`; genuine
Python dicts have distinct keys, so the comprehension never collapses
entries and is a plain map over the pairs. -/
def optMapFields (f : String → JVal → Option JVal) :
    List (String × JVal) → Option (List (String × JVal))
  | [] => some []
  | (k, v) :: fs =>
    match f k v with
    | none => none
    | some w => (optMapFields f fs).map fun ws => (k, w) :: ws

/-- `_json_search_replace_rec(data, path)`: head-first callback on
containers, recursion into the (possibly replaced) value's children,
callback on scalars, tail-first callback on containers; `none` only when
the model's fuel runs out. -/
def jsr_rec (cb : JVal → List PathEl → JVal) (hf : Bool) :
    Nat → JVal → List PathEl → Option JVal
  | 0, _, _ => none
  | fuel + 1, data, path =>
    (match (if hf && isCont data then cb data path else data) with
      | .arr items =>
        (optMapIdx (fun i x => jsr_rec cb hf fuel x (path ++ [PathEl.idx i])) 0 items).map JVal.arr
      | .obj fields =>
        (optMapFields (fun k v => jsr_rec cb hf fuel v (path ++ [PathEl.key k])) fields).map JVal.obj
      | v => some (cb v path)).map
      fun d => if !hf && isCont d then cb d path else d

/-- `json_search_replace(data, callback, head_first)`. -/
def json_search_replace (data : JVal) (cb : JVal → List PathEl → JVal)
    (hf : Bool) : Option JVal :=
  jsr_rec cb hf (sizeJ data + 1) data []

theorem optMapIdx_id (g : Nat → JVal → Option JVal) :
    ∀ (items : List JVal) (i0 : Nat), (∀ i x, x ∈ items → g i x = some x) →
      optMapIdx g i0 items = some items
  | [], _, _ => rfl
  | x :: xs, i0, h => by
    rw [optMapIdx, h i0 x (List.mem_cons_self x xs),
      optMapIdx_id g xs (i0 + 1) (fun i y hy => h i y (List.mem_cons_of_mem x hy))]
    rfl

theorem optMapFields_id (g : String → JVal → Option JVal) :
    ∀ (fs : List (String × JVal)), (∀ k v, (k, v) ∈ fs → g k v = some v) →
      optMapFields g fs = some fs
  | [], _ => rfl
  | (k, v) :: fs, h => by
    rw [optMapFields, h k v (List.mem_cons_self _ fs),
      optMapFields_id g fs (fun k1 v1 hkv => h k1 v1 (List.mem_cons_of_mem _ hkv))]
    rfl

theorem jsr_rec_id (hf : Bool) :
    ∀ (fuel : Nat) (v : JVal) (p : List PathEl), sizeJ v < fuel →
      jsr_rec (fun x _ => x) hf fuel v p = some v
  | 0, v, _, h => absurd h (by omega)
  | fuel + 1, .null, p, _ => by cases hf <;> rfl
  | fuel + 1, .bool b, p, _ => by cases hf <;> rfl
  | fuel + 1, .int n, p, _ => by cases hf <;> rfl
  | fuel + 1, .str s, p, _ => by cases hf <;> rfl
  | fuel + 1, .arr items, p, h => by
    rw [sizeJ] at h
    rw [jsr_rec]
    show ((match (if hf && true then JVal.arr items else JVal.arr items) with
      | .arr items =>
        (optMapIdx (fun i x => jsr_rec (fun x _ => x) hf fuel x (p ++ [PathEl.idx i])) 0 items).map JVal.arr
      | .obj fields =>
        (optMapFields (fun k v => jsr_rec (fun x _ => x) hf fuel v (p ++ [PathEl.key k])) fields).map JVal.obj
      | v => some v).map
      fun d => if !hf && isCont d then d else d) = some (JVal.arr items)
    rw [ite_self]
    show ((optMapIdx (fun i x => jsr_rec (fun x _ => x) hf fuel x (p ++ [PathEl.idx i])) 0 items).map JVal.arr).map
      (fun d => if !hf && isCont d then d else d) = some (JVal.arr items)
    rw [optMapIdx_id _ items 0 (fun i x hx =>
      jsr_rec_id hf fuel x (p ++ [PathEl.idx i]) (by
        have := sizeItems_mem items x hx
        omega))]
    show some (if !hf && isCont (JVal.arr items) then JVal.arr items else JVal.arr items) = _
    rw [ite_self]
  | fuel + 1, .obj fields, p, h => by
    rw [sizeJ] at h
    rw [jsr_rec]
    show ((match (if hf && true then JVal.obj fields else JVal.obj fields) with
      | .arr items =>
        (optMapIdx (fun i x => jsr_rec (fun x _ => x) hf fuel x (p ++ [PathEl.idx i])) 0 items).map JVal.arr
      | .obj fields =>
        (optMapFields (fun k v => jsr_rec (fun x _ => x) hf fuel v (p ++ [PathEl.key k])) fields).map JVal.obj
      | v => some v).map
      fun d => if !hf && isCont d then d else d) = some (JVal.obj fields)
    rw [ite_self]
    show ((optMapFields (fun k v => jsr_rec (fun x _ => x) hf fuel v (p ++ [PathEl.key k])) fields).map JVal.obj).map
      (fun d => if !hf && isCont d then d else d) = some (JVal.obj fields)
    rw [optMapFields_id _ fields (fun k v hkv =>
      jsr_rec_id hf fuel v (p ++ [PathEl.key k]) (by
        have := sizeFields_mem fields (k, v) hkv
        dsimp only at this
        omega))]
    show some (if !hf && isCont (JVal.obj fields) then JVal.obj fields else JVal.obj fields) = _
    rw [ite_self]

/-- **C9** — for every JSON-like value and the identity callback,
`json_search_replace(value, identity, head_first)` returns a value deeply
equal to the input, in both head-first and tail-first modes. -/
theorem C9_identity_transform (v : JVal) (hf : Bool) :
    json_search_replace v (fun x _ => x) hf = some v :=
  jsr_rec_id hf (sizeJ v + 1) v [] (by omega)

/-- Counterexample callback for the head-first recursion order: replaces
the mapping `{"a": 1}` by `{"b": 2}` and the scalar `2` by `99`. -/
def cb6 : JVal → List PathEl → JVal := fun v _ =>
  match v with
  | .obj [("a", .int 1)] => .obj [("b", .int 2)]
  | .int 2 => .int 99
  | x => x

/-- **C6 counterexample** — the claim says the head-first recursion
visits the *original* node's children and never descends into the
replacement value's children. The code rebinds `data` to the callback
result before the `isinstance` dispatch, so it recurses into the
*replacement's* children: replacing `{"a": 1}` by `{"b": 2}` at the root
makes the recursion visit the replacement's child `2` (at the key path
`"b"`, which does not exist in the original) and rewrite it to `99`;
under the claimed semantics the result would keep `2`. -/
theorem C6_counterexample :
    json_search_replace (.obj [("a", .int 1)]) cb6 true
      = some (.obj [("b", .int 99)]) := by decide

/-- **C6 (amended)** — in head-first mode the callback result replaces
the node before the container dispatch, so for a container node whose
callback result is the list `items`, the recursion proceeds over the
*replacement's* children `items` (each at its index path below the
node), and the original node's children are not themselves visited. -/
theorem C6_head_first_descends_into_replacement
    (cb : JVal → List PathEl → JVal) (fuel : Nat) (p : List PathEl) (v : JVal)
    (hv : isCont v = true) (items : List JVal) (hw : cb v p = JVal.arr items) :
    jsr_rec cb true (fuel + 1) v p
      = (optMapIdx (fun i x => jsr_rec cb true fuel x (p ++ [PathEl.idx i])) 0 items).map
          JVal.arr := by
  rw [jsr_rec]
  show ((match (if true && isCont v then cb v p else v) with
      | JVal.arr items =>
        (optMapIdx (fun i x => jsr_rec cb true fuel x (p ++ [PathEl.idx i])) 0 items).map JVal.arr
      | JVal.obj fields =>
        (optMapFields (fun k v => jsr_rec cb true fuel v (p ++ [PathEl.key k])) fields).map JVal.obj
      | v1 => some (cb v1 p)).map
      fun d => if !true && isCont d then cb d p else d) = _
  rw [hv]
  show ((match cb v p with
      | JVal.arr items =>
        (optMapIdx (fun i x => jsr_rec cb true fuel x (p ++ [PathEl.idx i])) 0 items).map JVal.arr
      | JVal.obj fields =>
        (optMapFields (fun k v => jsr_rec cb true fuel v (p ++ [PathEl.key k])) fields).map JVal.obj
      | v1 => some (cb v1 p)).map
      fun d => if !true && isCont d then cb d p else d) = _
  rw [hw]
  show ((optMapIdx (fun i x => jsr_rec cb true fuel x (p ++ [PathEl.idx i])) 0 items).map JVal.arr).map
      (fun d => if !true && isCont d then cb d p else d)
    = (optMapIdx (fun i x => jsr_rec cb true fuel x (p ++ [PathEl.idx i])) 0 items).map JVal.arr
  cases hopt : optMapIdx (fun i x => jsr_rec cb true fuel x (p ++ [PathEl.idx i])) 0 items <;> rfl

theorem C6_head_first_descends_into_replacement_witness :
    isCont (JVal.obj []) = true
    ∧ (fun (_ : JVal) (_ : List PathEl) => JVal.arr [JVal.int 2]) (JVal.obj []) []
        = JVal.arr [JVal.int 2]
    ∧ jsr_rec (fun _ _ => JVal.arr [JVal.int 2]) true 1 (JVal.obj []) []
        = (optMapIdx (fun i x =>
            jsr_rec (fun _ _ => JVal.arr [JVal.int 2]) true 0 x ([] ++ [PathEl.idx i]))
            0 [JVal.int 2]).map JVal.arr :=
  ⟨rfl, rfl, C6_head_first_descends_into_replacement (fun _ _ => JVal.arr [JVal.int 2])
    0 [] (JVal.obj []) rfl [JVal.int 2] rfl⟩

/-! ## The `disable-app` and `reenable-app` commands

Each command is modelled as a function from the document fetched by
`run_json_request(context, 'config/')` (plus the application name and the
DataStep's random token) to either the document the command sends back in
its `PUT config/` request, or the error that aborted it. An `.error`
result means the command never issued a `PUT`, so the live configuration
is unmodified. -/

def FAKE_PROXY_PREFIX : String := "http://unix:/fake-socket/"

/-- How a modelled command fails: `fail(msg)` business failures,
`KeyError(k)` from a missing mandatory key, and `crash` for any other
uncaught Python exception. -/
inductive CmdErr where
  | keyError (k : String)
  | crash
  | failMsg (msg : String)
  deriving DecidableEq

/-- The `_replace` callback of `execute_disable_app_command`: a mapping
whose `pass` equals `applications/<app>` has its `pass` entry replaced,
in place, by a `proxy` entry pointing at the disguised unreachable
socket; Python's `dict(...)` collapses a duplicated `proxy` key (first
position, last value). Everything else is returned unchanged. -/
def disableReplace (app : String) : JVal → List PathEl → JVal := fun v _ =>
  match v with
  | .obj fields =>
    if dget fields "pass" = some (.str ("applications/" ++ app)) then
      .obj (dictOfPairs (fields.map fun kv =>
        if kv.1 = "pass" then
          ("proxy", JVal.str (FAKE_PROXY_PREFIX ++ "disabled-app-ref/" ++ app))
        else kv))
    else v
  | v => v

/-- The `_replace` callback of `execute_reenable_app_command`: a mapping
whose `proxy` value is a string starting with
`<FAKE_PROXY_PREFIX>disabled-app-ref/<app>` (a `startswith` test, not an
equality test) has its `proxy` entry replaced by
`pass: applications/<app>`. `value.get('proxy', '')` with a non-string
`proxy` would make Python raise on `.startswith`; the model leaves such
nodes unchanged (no claim reaches them). -/
def reenableReplace (app : String) : JVal → List PathEl → JVal := fun v _ =>
  match v with
  | .obj fields =>
    match dget fields "proxy" with
    | some (.str s) =>
      if startswith (FAKE_PROXY_PREFIX ++ "disabled-app-ref/" ++ app) s then
        .obj (dictOfPairs (fields.map fun kv =>
          if kv.1 = "proxy" then ("pass", JVal.str ("applications/" ++ app)) else kv))
      else v
    | _ => v
  | v => v

/-- The tail of `execute_disable_app_command` from `store_data_step` on:
store the updated sidecar data, run the tree transform, and send the
result. Non-dict values where real Unit documents have dicts make Python
raise; the model maps those (and a raising store) to `crash`. -/
def disable_store_transform (config1 : JObj) (app token : String) (data2 : JObj) :
    Except CmdErr JObj :=
  match store_data_step config1 data2 token with
  | some config2 =>
    match json_search_replace (.obj config2) (disableReplace app) true with
    | some (.obj config3) => .ok config3
    | _ => .error .crash
  | none => .error .crash

/-- `execute_disable_app_command` once the app was found and popped:
retrieve the sidecar data, default `disabled-applications` to `{}`, file
the popped app config under it, then store and transform. -/
def disable_found (config1 : JObj) (app token : String) (app_config : JVal) :
    Except CmdErr JObj :=
  match retrieve_data_step config1 with
  | some (.obj data) =>
    let data1 := if (dget data "disabled-applications").isSome then data
      else dset data "disabled-applications" (.obj [])
    match dget data1 "disabled-applications" with
    | some (.obj dapps) =>
      disable_store_transform config1 app token
        (dset data1 "disabled-applications" (.obj (dset dapps app app_config)))
    | _ => .error .crash
  | _ => .error .crash

/-- `execute_disable_app_command`, as a function from the fetched
document (plus the app name and the DataStep's random token) to the
document sent back in the `PUT config/` request, or the error that
aborted the command before any `PUT`. `pop(app_name, None)` returns the
stored value, so an entry bound to JSON `null` is indistinguishable from
an absent one: `if app_config is None` fails not-found for both. Python
mutates `config` in place; the model threads the updated document
through the named stages. -/
def execute_disable_app (config : JObj) (app : String) (token : String) :
    Except CmdErr JObj :=
  match dget config "applications" with
  | none => .error (.keyError "applications")
  | some (.obj apps) =>
    match dget apps app with
    | none => .error (.failMsg ("Found no active application named \x27" ++ app ++ "\x27"))
    | some app_config =>
      if app_config = JVal.null then
        .error (.failMsg ("Found no active application named \x27" ++ app ++ "\x27"))
      else
        disable_found (dset config "applications" (.obj (dpop apps app))) app token app_config
  | some _ => .error .crash

/-- The tail of `execute_reenable_app_command` from `store_data_step` on:
store the shrunken sidecar data, run the tree transform, then re-insert
the app under the transformed document's `applications`. -/
def reenable_store_transform (config : JObj) (app token : String) (data1 : JObj)
    (app_config : JVal) : Except CmdErr JObj :=
  match store_data_step config data1 token with
  | some config2 =>
    match json_search_replace (.obj config2) (reenableReplace app) true with
    | some (.obj config3) =>
      match dget config3 "applications" with
      | some (.obj apps3) =>
        .ok (dset config3 "applications" (.obj (dset apps3 app app_config)))
      | none => .error (.keyError "applications")
      | some _ => .error .crash
    | _ => .error .crash
  | none => .error .crash

/-- `execute_reenable_app_command` past the already-enabled check:
retrieve the sidecar data, pop the app from `disabled-applications`
(failing with the exact not-found message when it is not there — also
when it is bound to JSON `null`, which `pop(app_name, None)` cannot tell
from absent, and also when the whole key is absent: Python pops from a
fresh `dict()` then), then store and transform. -/
def reenable_after_check (config : JObj) (app token : String) : Except CmdErr JObj :=
  match retrieve_data_step config with
  | some (.obj data) =>
    match dget data "disabled-applications" with
    | some (.obj dapps) =>
      match dget dapps app with
      | none => .error (.failMsg ("Found no disabled app named \x27" ++ app ++ "\x27"))
      | some app_config =>
        if app_config = JVal.null then
          .error (.failMsg ("Found no disabled app named \x27" ++ app ++ "\x27"))
        else
          reenable_store_transform config app token
            (dset data "disabled-applications" (.obj (dpop dapps app))) app_config
    | none => .error (.failMsg ("Found no disabled app named \x27" ++ app ++ "\x27"))
    | some _ => .error .crash
  | _ => .error .crash

/-- `execute_reenable_app_command`; same conventions as
`execute_disable_app`. -/
def execute_reenable_app (config : JObj) (app : String) (token : String) :
    Except CmdErr JObj :=
  match dget config "applications" with
  | none => .error (.keyError "applications")
  | some (.obj apps) =>
    if (dget apps app).isSome then
      .error (.failMsg ("App \x27" ++ app ++ "\x27 seems to be already enabled"))
    else reenable_after_check config app token
  | some _ => .error .crash

/-- **C10** — both commands index `config['applications']` before any
other check: a document without an `applications` key makes each fail
with the uncaught `KeyError('applications')` rather than the business
not-found / conflict message, and no `PUT` is issued. The commands are
total (no uncaught key error) only under the precondition that the
document has an `applications` mapping. -/
theorem C10_applications_key_required (config : JObj) (app token : String)
    (h : dget config "applications" = none) :
    execute_disable_app config app token = .error (.keyError "applications")
    ∧ execute_reenable_app config app token = .error (.keyError "applications") := by
  unfold execute_disable_app execute_reenable_app
  rw [h]
  exact ⟨rfl, rfl⟩

theorem C10_applications_key_required_witness :
    dget [] "applications" = none
    ∧ execute_disable_app [] "foo" "tok" = .error (.keyError "applications")
    ∧ execute_reenable_app [] "foo" "tok" = .error (.keyError "applications") :=
  ⟨rfl, (C10_applications_key_required [] "foo" "tok" rfl).1,
    (C10_applications_key_required [] "foo" "tok" rfl).2⟩

/-- **C7** — the business-failure paths: disabling a name absent from the
`applications` mapping fails with the exact not-found message, and
re-enabling a name still present in `applications` fails with the exact
conflict message. Both failures return before `store_data_step`, the
tree transform, or any `PUT` request, so the live document is left
unmodified. -/
theorem C7_notfound_and_conflict (config apps : JObj) (app token : String)
    (h : dget config "applications" = some (.obj apps)) :
    (dget apps app = none →
      execute_disable_app config app token
        = .error (.failMsg ("Found no active application named \x27" ++ app ++ "\x27")))
    ∧ (∀ v, dget apps app = some v →
      execute_reenable_app config app token
        = .error (.failMsg ("App \x27" ++ app ++ "\x27 seems to be already enabled"))) := by
  constructor
  · intro hn
    unfold execute_disable_app
    rw [h]
    show (match dget apps app with
      | none => Except.error (CmdErr.failMsg ("Found no active application named \x27" ++ app ++ "\x27"))
      | some app_config =>
        if app_config = JVal.null then
          Except.error (CmdErr.failMsg ("Found no active application named \x27" ++ app ++ "\x27"))
        else
          disable_found (dset config "applications" (.obj (dpop apps app))) app token app_config)
      = _
    rw [hn]
  · intro v hv
    unfold execute_reenable_app
    rw [h]
    show (if (dget apps app).isSome = true then
        Except.error (CmdErr.failMsg ("App \x27" ++ app ++ "\x27 seems to be already enabled"))
      else reenable_after_check config app token) = _
    rw [hv]
    rfl

theorem C7_notfound_and_conflict_witness :
    dget [("applications", JVal.obj [("bar", JVal.null)])] "applications"
        = some (.obj [("bar", JVal.null)])
    ∧ execute_disable_app [("applications", JVal.obj [("bar", JVal.null)])] "ghost" "tok"
        = .error (.failMsg "Found no active application named \x27ghost\x27")
    ∧ execute_reenable_app [("applications", JVal.obj [("bar", JVal.null)])] "bar" "tok"
        = .error (.failMsg "App \x27bar\x27 seems to be already enabled") :=
  ⟨rfl,
    (C7_notfound_and_conflict [("applications", JVal.obj [("bar", JVal.null)])]
      [("bar", JVal.null)] "ghost" "tok" rfl).1 rfl,
    (C7_notfound_and_conflict [("applications", JVal.obj [("bar", JVal.null)])]
      [("bar", JVal.null)] "bar" "tok" rfl).2 JVal.null rfl⟩

/-! ## C8: the Disable transform as an in-place node rewrite -/

theorem wfItems_mem : ∀ (items : List JVal), wfItems items = true →
    ∀ x ∈ items, wfJson x = true
  | [], _, x, hx => by cases hx
  | y :: ys, h, x, hx => by
    rw [wfItems, Bool.and_eq_true] at h
    rcases hx with _ | ⟨_, hx⟩
    · exact h.1
    · exact wfItems_mem ys h.2 x hx

theorem wfFields_mem : ∀ (fs : List (String × JVal)), wfFields fs = true →
    ∀ kv ∈ fs, wfJson kv.2 = true
  | [], _, kv, hkv => by cases hkv
  | (k, v) :: fs, h, kv, hkv => by
    rw [wfFields, Bool.and_eq_true] at h
    rcases hkv with _ | ⟨_, hkv⟩
    · exact h.1
    · exact wfFields_mem fs h.2 kv hkv

theorem dget_none_keys : ∀ (m : JObj) (k : String), dget m k = none →
    ∀ kv ∈ m, kv.1 ≠ k
  | [], _, _, kv, hkv => by cases hkv
  | (k', v') :: rest, k, h, kv, hkv => by
    rw [dget] at h
    by_cases hk : k' = k
    · rw [if_pos hk] at h
      cases h
    · rw [if_neg hk] at h
      rcases hkv with _ | ⟨_, hkv⟩
      · exact hk
      · exact dget_none_keys rest k h kv hkv

/-- Renaming the (unique) `k0` entry to a key `k1` that is not already a
key keeps the keys pairwise distinct. -/
theorem keysDistinct_rename (k0 k1 : String) (w : JVal) :
    ∀ (fs : List (String × JVal)), keysDistinct fs = true →
    (∀ kv ∈ fs, kv.1 ≠ k1) →
    keysDistinct (fs.map fun kv => if kv.1 = k0 then (k1, w) else kv) = true
  | [], _, _ => rfl
  | (k, v) :: fs, hd, hno => by
    rw [keysDistinct, Bool.and_eq_true] at hd
    obtain ⟨hall, hd2⟩ := hd
    rw [List.all_eq_true] at hall
    have hknotk1 : k ≠ k1 := hno (k, v) (List.mem_cons_self _ _)
    have htail := keysDistinct_rename k0 k1 w fs hd2
      (fun kv hkv => hno kv (List.mem_cons_of_mem _ hkv))
    rw [List.map_cons]
    by_cases hk : k = k0
    · rw [if_pos (show (k, v).1 = k0 from hk), keysDistinct, Bool.and_eq_true]
      refine ⟨?_, htail⟩
      simp only [List.all_eq_true, List.mem_map, decide_eq_true_eq]
      rintro kv2 ⟨kv0, hkv0, rfl⟩
      by_cases hp : kv0.1 = k0
      · exact absurd (show kv0.1 = k from hp.trans hk.symm)
          (by simpa using hall kv0 hkv0)
      · rw [if_neg hp]
        simpa using hno kv0 (List.mem_cons_of_mem _ hkv0)
    · rw [if_neg (show ¬(k, v).1 = k0 from hk), keysDistinct, Bool.and_eq_true]
      refine ⟨?_, htail⟩
      simp only [List.all_eq_true, List.mem_map, decide_eq_true_eq]
      rintro kv2 ⟨kv0, hkv0, rfl⟩
      by_cases hp : kv0.1 = k0
      · rw [if_pos hp]
        exact fun hcon => hknotk1 hcon.symm
      · rw [if_neg hp]
        simpa using hall kv0 hkv0

mutual

/-- No mapping in the value has both a `pass` naming the app and an
existing `proxy` key — the precondition under which Python's `dict()`
in the Disable callback cannot collapse entries. -/
def noProxyClash (app : String) : JVal → Bool
  | .arr items => noProxyClashItems app items
  | .obj fields =>
    (if dget fields "pass" = some (.str ("applications/" ++ app)) then
      (dget fields "proxy").isNone
    else true) && noProxyClashFields app fields
  | _ => true

def noProxyClashItems (app : String) : List JVal → Bool
  | [] => true
  | x :: xs => noProxyClash app x && noProxyClashItems app xs

def noProxyClashFields (app : String) : List (String × JVal) → Bool
  | [] => true
  | kv :: fs => noProxyClash app kv.2 && noProxyClashFields app fs

end

theorem noProxyClashItems_mem (app : String) :
    ∀ (items : List JVal), noProxyClashItems app items = true →
    ∀ x ∈ items, noProxyClash app x = true
  | [], _, x, hx => by cases hx
  | y :: ys, h, x, hx => by
    rw [noProxyClashItems, Bool.and_eq_true] at h
    rcases hx with _ | ⟨_, hx⟩
    · exact h.1
    · exact noProxyClashItems_mem app ys h.2 x hx

theorem noProxyClashFields_mem (app : String) :
    ∀ (fs : List (String × JVal)), noProxyClashFields app fs = true →
    ∀ kv ∈ fs, noProxyClash app kv.2 = true
  | [], _, kv, hkv => by cases hkv
  | f :: fs, h, kv, hkv => by
    rw [noProxyClashFields, Bool.and_eq_true] at h
    rcases hkv with _ | ⟨_, hkv⟩
    · exact h.1
    · exact noProxyClashFields_mem app fs h.2 kv hkv

mutual

/-- Modelled from the spec: the Disable tree transform as a recursive
in-place node rewrite — every mapping node whose `pass` equals exactly
`applications/<app>` has its `pass` entry replaced, at the same
position, by the disguised `proxy` entry; every other entry and every
other node is kept, and the rewrite recurses into all children. -/
def claimRewrite (app : String) : JVal → JVal
  | .arr items => .arr (claimRewriteItems app items)
  | .obj fields =>
    if dget fields "pass" = some (.str ("applications/" ++ app)) then
      .obj ((claimRewriteFields app fields).map fun kv =>
        if kv.1 = "pass" then
          ("proxy", JVal.str (FAKE_PROXY_PREFIX ++ "disabled-app-ref/" ++ app))
        else kv)
    else .obj (claimRewriteFields app fields)
  | v => v

def claimRewriteItems (app : String) : List JVal → List JVal
  | [] => []
  | x :: xs => claimRewrite app x :: claimRewriteItems app xs

def claimRewriteFields (app : String) :
    List (String × JVal) → List (String × JVal)
  | [] => []
  | (k, v) :: fs => (k, claimRewrite app v) :: claimRewriteFields app fs

end

theorem claimRewriteItems_eq_map (app : String) :
    ∀ items, claimRewriteItems app items = items.map (claimRewrite app)
  | [] => rfl
  | x :: xs => by
    rw [claimRewriteItems, List.map_cons, claimRewriteItems_eq_map app xs]

theorem claimRewriteFields_eq_map (app : String) :
    ∀ fs, claimRewriteFields app fs
      = fs.map fun kv => (kv.1, claimRewrite app kv.2)
  | [] => rfl
  | (k, v) :: fs => by
    rw [claimRewriteFields, List.map_cons, claimRewriteFields_eq_map app fs]

theorem optMapIdx_map (g : Nat → JVal → Option JVal) (t : JVal → JVal) :
    ∀ (items : List JVal) (i0 : Nat),
      (∀ i x, x ∈ items → g i x = some (t x)) →
      optMapIdx g i0 items = some (items.map t)
  | [], _, _ => rfl
  | x :: xs, i0, h => by
    rw [optMapIdx, h i0 x (List.mem_cons_self x xs),
      optMapIdx_map g t xs (i0 + 1) (fun i y hy => h i y (List.mem_cons_of_mem x hy))]
    rfl

theorem optMapFields_map (g : String → JVal → Option JVal) (t : JVal → JVal) :
    ∀ (fs : List (String × JVal)),
      (∀ k v, (k, v) ∈ fs → g k v = some (t v)) →
      optMapFields g fs = some (fs.map fun kv => (kv.1, t kv.2))
  | [], _ => rfl
  | (k, v) :: fs, h => by
    rw [optMapFields, h k v (List.mem_cons_self _ fs),
      optMapFields_map g t fs (fun k1 v1 hkv => h k1 v1 (List.mem_cons_of_mem _ hkv))]
    rfl

theorem sizeJ_pos : ∀ v : JVal, 1 ≤ sizeJ v
  | .null => Nat.le_refl 1
  | .bool _ => Nat.le_refl 1
  | .int _ => Nat.le_refl 1
  | .str _ => Nat.le_refl 1
  | .arr items => by rw [sizeJ]; omega
  | .obj fields => by rw [sizeJ]; omega

theorem map_congr_mem (f g : (String × JVal) → (String × JVal)) :
    ∀ (l : List (String × JVal)), (∀ x ∈ l, f x = g x) → l.map f = l.map g
  | [], _ => rfl
  | x :: xs, h => by
    rw [List.map_cons, List.map_cons, h x (List.mem_cons_self _ _),
      map_congr_mem f g xs (fun y hy => h y (List.mem_cons_of_mem _ hy))]

set_option maxHeartbeats 1000000 in
/-- The head-first transform with the Disable callback computes exactly
the spec-side node rewrite, on values whose dicts have distinct keys and
that are free of `pass`/`proxy` clashes. -/
theorem jsr_disable_refines (app : String) :
    ∀ (fuel : Nat) (v : JVal) (p : List PathEl), sizeJ v < fuel →
      wfJson v = true → noProxyClash app v = true →
      jsr_rec (disableReplace app) true fuel v p = some (claimRewrite app v)
  | 0, v, _, hsz, _, _ => absurd hsz (by omega)
  | fuel + 1, .null, p, _, _, _ => rfl
  | fuel + 1, .bool b, p, _, _, _ => rfl
  | fuel + 1, .int n, p, _, _, _ => rfl
  | fuel + 1, .str st, p, _, _, _ => rfl
  | fuel + 1, .arr items, p, hsz, hwf, hnc => by
    rw [sizeJ] at hsz
    rw [wfJson] at hwf
    rw [noProxyClash] at hnc
    rw [jsr_rec]
    show ((optMapIdx (fun i x =>
        jsr_rec (disableReplace app) true fuel x (p ++ [PathEl.idx i])) 0 items).map JVal.arr).map
      (fun d => if !true && isCont d then disableReplace app d p else d)
      = some (claimRewrite app (JVal.arr items))
    rw [optMapIdx_map _ (claimRewrite app) items 0 (fun i x hx =>
      jsr_disable_refines app fuel x (p ++ [PathEl.idx i])
        (by have := sizeItems_mem items x hx; omega)
        (wfItems_mem items hwf x hx)
        (noProxyClashItems_mem app items hnc x hx))]
    rw [claimRewrite, claimRewriteItems_eq_map]
    rfl
  | fuel + 1, .obj fields, p, hsz, hwf, hnc => by
    rw [sizeJ] at hsz
    rw [wfJson, Bool.and_eq_true] at hwf
    obtain ⟨hkd, hwff⟩ := hwf
    rw [noProxyClash, Bool.and_eq_true] at hnc
    obtain ⟨hclash, hncf⟩ := hnc
    rw [jsr_rec]
    show ((match disableReplace app (JVal.obj fields) p with
      | JVal.arr items =>
        (optMapIdx (fun i x =>
          jsr_rec (disableReplace app) true fuel x (p ++ [PathEl.idx i])) 0 items).map JVal.arr
      | JVal.obj fields2 =>
        (optMapFields (fun k v =>
          jsr_rec (disableReplace app) true fuel v (p ++ [PathEl.key k])) fields2).map JVal.obj
      | v1 => some (disableReplace app v1 p)).map
      fun d => if !true && isCont d then disableReplace app d p else d)
      = some (claimRewrite app (JVal.obj fields))
    by_cases hc : dget fields "pass" = some (JVal.str ("applications/" ++ app))
    · have hnone : dget fields "proxy" = none := by
        rw [if_pos hc] at hclash
        exact Option.isNone_iff_eq_none.mp hclash
      have hkeys : keysDistinct (fields.map fun kv =>
          if kv.1 = "pass" then
            ("proxy", JVal.str (FAKE_PROXY_PREFIX ++ "disabled-app-ref/" ++ app))
          else kv) = true :=
        keysDistinct_rename "pass" "proxy" _ fields hkd
          (dget_none_keys fields "proxy" hnone)
      have hcb : disableReplace app (JVal.obj fields) p
          = JVal.obj (fields.map fun kv =>
            if kv.1 = "pass" then
              ("proxy", JVal.str (FAKE_PROXY_PREFIX ++ "disabled-app-ref/" ++ app))
            else kv) := by
        show (if dget fields "pass" = some (JVal.str ("applications/" ++ app)) then
            JVal.obj (dictOfPairs (fields.map fun kv =>
              if kv.1 = "pass" then
                ("proxy", JVal.str (FAKE_PROXY_PREFIX ++ "disabled-app-ref/" ++ app))
              else kv))
          else JVal.obj fields) = _
        rw [if_pos hc, dictOfPairs_distinct _ hkeys]
      rw [hcb]
      show ((optMapFields (fun k v =>
          jsr_rec (disableReplace app) true fuel v (p ++ [PathEl.key k]))
          (fields.map fun kv =>
            if kv.1 = "pass" then
              ("proxy", JVal.str (FAKE_PROXY_PREFIX ++ "disabled-app-ref/" ++ app))
            else kv)).map JVal.obj).map
        (fun d => if !true && isCont d then disableReplace app d p else d)
        = some (claimRewrite app (JVal.obj fields))
    -- the replaced entry holds a fresh scalar; all others keep their value
      have hfuel2 : 2 ≤ fuel := by
        obtain ⟨w, hw⟩ : ∃ w, dget fields "pass" = some w := ⟨_, hc⟩
        have hmem := dget_some_mem fields "pass" w hw
        have := sizeFields_mem fields ("pass", w) hmem
        dsimp only at this
        have hz := sizeJ_pos w
        omega
      have hpt : ∀ k v, (k, v) ∈ (fields.map fun kv =>
          if kv.1 = "pass" then
            ("proxy", JVal.str (FAKE_PROXY_PREFIX ++ "disabled-app-ref/" ++ app))
          else kv) →
          jsr_rec (disableReplace app) true fuel v (p ++ [PathEl.key k])
            = some (claimRewrite app v) := by
        intro k v hkv
        rw [List.mem_map] at hkv
        obtain ⟨kv0, hkv0, heq⟩ := hkv
        by_cases hp : kv0.1 = "pass"
        · rw [if_pos hp] at heq
          rw [Prod.mk.injEq] at heq
          obtain ⟨hk1, hv1⟩ := heq
          subst hv1
          obtain ⟨f2, rfl⟩ : ∃ f2, fuel = f2 + 1 := ⟨fuel - 1, by omega⟩
          rfl
        · rw [if_neg hp] at heq
          have hv2 : kv0.2 = v := congrArg Prod.snd heq
          have hk2 : kv0.1 = k := congrArg Prod.fst heq
          rw [← hv2, ← hk2]
          exact jsr_disable_refines app fuel kv0.2 (p ++ [PathEl.key kv0.1])
            (by have := sizeFields_mem fields kv0 hkv0; omega)
            (wfFields_mem fields hwff kv0 hkv0)
            (noProxyClashFields_mem app fields hncf kv0 hkv0)
      have hcomm : ∀ kv ∈ fields,
          ((fun kv => ((kv : String × JVal).1, claimRewrite app kv.2)) ∘ (fun kv =>
            if kv.1 = "pass" then
              ("proxy", JVal.str (FAKE_PROXY_PREFIX ++ "disabled-app-ref/" ++ app))
            else kv)) kv
          = ((fun kv => if (kv : String × JVal).1 = "pass" then
              ("proxy", JVal.str (FAKE_PROXY_PREFIX ++ "disabled-app-ref/" ++ app))
            else kv) ∘ (fun kv => (kv.1, claimRewrite app kv.2))) kv := by
        intro kv _
        by_cases hp : kv.1 = "pass"
        · simp only [Function.comp_apply, if_pos hp]
          rfl
        · simp only [Function.comp_apply, if_neg hp]
      rw [optMapFields_map _ (claimRewrite app) _ hpt]
      rw [claimRewrite, if_pos hc, claimRewriteFields_eq_map]
      rw [List.map_map, List.map_map, map_congr_mem _ _ fields hcomm]
      rfl
    · have hcb : disableReplace app (JVal.obj fields) p = JVal.obj fields := by
        show (if dget fields "pass" = some (JVal.str ("applications/" ++ app)) then
            JVal.obj (dictOfPairs (fields.map fun kv =>
              if kv.1 = "pass" then
                ("proxy", JVal.str (FAKE_PROXY_PREFIX ++ "disabled-app-ref/" ++ app))
              else kv))
          else JVal.obj fields) = _
        rw [if_neg hc]
      rw [hcb]
      show ((optMapFields (fun k v =>
          jsr_rec (disableReplace app) true fuel v (p ++ [PathEl.key k])) fields).map JVal.obj).map
        (fun d => if !true && isCont d then disableReplace app d p else d)
        = some (claimRewrite app (JVal.obj fields))
      rw [optMapFields_map _ (claimRewrite app) fields (fun k v hkv =>
        jsr_disable_refines app fuel v (p ++ [PathEl.key k])
          (by have := sizeFields_mem fields (k, v) hkv; dsimp only at this; omega)
          (by have := wfFields_mem fields hwff (k, v) hkv; exact this)
          (by have := noProxyClashFields_mem app fields hncf (k, v) hkv; exact this))]
      rw [claimRewrite, if_neg hc, claimRewriteFields_eq_map]
      rfl

/-- **C8 counterexample** — the claim says every key of a matching
mapping other than `pass` is left unchanged and `pass` becomes a `proxy`
entry with the disguised target. With a pre-existing `proxy` key,
Python's `dict(...)` collapses the duplicated `proxy`: the disguised
target is overwritten by the old `proxy` value and the mapping loses an
entry — `{"pass": "applications/foo", "proxy": "x"}` becomes
`{"proxy": "x"}`, with no disguised target at all. -/
theorem C8_counterexample :
    json_search_replace
      (.obj [("pass", JVal.str "applications/foo"), ("proxy", JVal.str "x")])
      (disableReplace "foo") true
      = some (.obj [("proxy", JVal.str "x")]) := by decide

/-- **C8 (amended)** — on documents whose dicts have distinct keys and
in which no mapping both passes to the app and already has a `proxy`
key, the Disable tree transform is exactly the spec-side in-place node
rewrite `claimRewrite`: every mapping whose `pass` equals exactly
`applications/<app>` has only its `pass` entry replaced (by the
disguised `proxy` entry, at the same position), every other entry and
every mapping whose `pass` differs being kept unchanged. -/
theorem C8_disable_transform_is_rewrite (app : String) (v : JVal)
    (hw : wfJson v = true) (hnc : noProxyClash app v = true) :
    json_search_replace v (disableReplace app) true = some (claimRewrite app v) :=
  jsr_disable_refines app (sizeJ v + 1) v [] (by omega) hw hnc

theorem C8_disable_transform_is_rewrite_witness :
    wfJson (.obj [("pass", JVal.str "applications/foo"), ("keep", JVal.int 7)]) = true
    ∧ noProxyClash "foo"
        (.obj [("pass", JVal.str "applications/foo"), ("keep", JVal.int 7)]) = true
    ∧ json_search_replace
        (.obj [("pass", JVal.str "applications/foo"), ("keep", JVal.int 7)])
        (disableReplace "foo") true
      = some (claimRewrite "foo"
          (.obj [("pass", JVal.str "applications/foo"), ("keep", JVal.int 7)])) :=
  ⟨by decide, by decide,
    C8_disable_transform_is_rewrite "foo"
      (.obj [("pass", JVal.str "applications/foo"), ("keep", JVal.int 7)])
      (by decide) (by decide)⟩

/-! ## C3: disable followed by re-enable is the identity -/

/-- The single route step of the C3 scenario document. -/
def demoStep : JVal :=
  .obj [("action", .obj [("pass", .str "applications/foo")])]

/-- The C3 scenario document: one application `foo` (arbitrary
configuration `X`) and one route step passing to it. -/
def demoDoc (X : JVal) : JObj :=
  [("applications", .obj [("foo", X)]), ("routes", .arr [demoStep])]

/-- **C3 counterexample** — the claim covers every application
configuration `X`, but for `X = null` the code's
`if app_config is None` check after `pop(app_name, None)` cannot tell
the stored `null` from an absent entry: `Disable("foo")` aborts with the
not-found message and issues no `PUT`, so the pipeline yields no
document at all instead of one deep-equal to the original. -/
theorem C3_counterexample :
    (execute_disable_app (demoDoc JVal.null) "foo" "t1").bind
      (fun c1 => execute_reenable_app c1 "foo" "t2")
    = .error (.failMsg "Found no active application named \x27foo\x27") := rfl

set_option maxHeartbeats 4000000 in
/-- **C3 (amended)** — starting from a document with
`applications.foo = X` for any *non-null* JSON-safe `X` and the single
route step `{"action": {"pass": "applications/foo"}}`, `Disable("foo")`
followed by `Re-enable("foo")` (transport abstracted: each command's
`PUT` payload is fed to the next fetch) returns a document deep-equal to
the original — the sidecar data becomes empty, so the DataStep (with its
random token) disappears again and nothing else is left behind. A null
`X` is indistinguishable from an absent entry to `pop(app_name, None)`
and makes `Disable` fail not-found instead. -/
theorem C3_disable_reenable_roundtrip (X : JVal) (hw : wfJson X = true)
    (hX : X ≠ JVal.null) (t1 t2 : String) :
    (execute_disable_app (demoDoc X) "foo" t1).bind
      (fun c1 => execute_reenable_app c1 "foo" t2)
    = .ok (demoDoc X) := by
  have hdis : execute_disable_app (demoDoc X) "foo" t1
      = .ok [("applications", JVal.obj []),
          ("routes", JVal.arr
            [create_data_step [("disabled-applications", JVal.obj [("foo", X)])] t1,
             JVal.obj [("action", JVal.obj
               [("proxy", JVal.str "http://unix:/fake-socket/disabled-app-ref/foo")])]])] := by
    show (if X = JVal.null then
        Except.error (CmdErr.failMsg ("Found no active application named \x27" ++ "foo" ++ "\x27"))
      else disable_found [("applications", JVal.obj []), ("routes", JVal.arr [demoStep])]
        "foo" t1 X) = _
    rw [if_neg hX]
    rfl
  rw [hdis]
  show execute_reenable_app
      [("applications", JVal.obj []),
        ("routes", JVal.arr
          [create_data_step [("disabled-applications", JVal.obj [("foo", X)])] t1,
           JVal.obj [("action", JVal.obj
             [("proxy", JVal.str "http://unix:/fake-socket/disabled-app-ref/foo")])]])]
      "foo" t2 = .ok (demoDoc X)
  have hwf2 : wfJson (.obj [("disabled-applications", JVal.obj [("foo", X)])]) = true := by
    simp [wfJson, wfFields, keysDistinct, hw]
  have hret : retrieve_data_step
      [("applications", JVal.obj []),
        ("routes", JVal.arr
          [create_data_step [("disabled-applications", JVal.obj [("foo", X)])] t1,
           JVal.obj [("action", JVal.obj
             [("proxy", JVal.str "http://unix:/fake-socket/disabled-app-ref/foo")])]])]
      = some (.obj [("disabled-applications", JVal.obj [("foo", X)])]) := by
    show decode_payload ⟨FAKE_URL_PREFIX.data
      ++ b64encode ((dumpsL (.obj [("disabled-applications", JVal.obj [("foo", X)])])).map
        Char.toNat)⟩ = some (.obj [("disabled-applications", JVal.obj [("foo", X)])])
    exact decode_payload_encode _ hwf2
  show reenable_after_check
      [("applications", JVal.obj []),
        ("routes", JVal.arr
          [create_data_step [("disabled-applications", JVal.obj [("foo", X)])] t1,
           JVal.obj [("action", JVal.obj
             [("proxy", JVal.str "http://unix:/fake-socket/disabled-app-ref/foo")])]])]
      "foo" t2 = .ok (demoDoc X)
  unfold reenable_after_check
  rw [hret]
  show (if X = JVal.null then
      Except.error (CmdErr.failMsg ("Found no disabled app named \x27" ++ "foo" ++ "\x27"))
    else reenable_store_transform
      [("applications", JVal.obj []),
        ("routes", JVal.arr
          [create_data_step [("disabled-applications", JVal.obj [("foo", X)])] t1,
           JVal.obj [("action", JVal.obj
             [("proxy", JVal.str "http://unix:/fake-socket/disabled-app-ref/foo")])]])]
      "foo" t2 [("disabled-applications", JVal.obj [])] X) = Except.ok (demoDoc X)
  rw [if_neg hX]
  rfl

theorem C3_disable_reenable_roundtrip_witness :
    wfJson (JVal.obj []) = true ∧ JVal.obj [] ≠ JVal.null
    ∧ (execute_disable_app (demoDoc (JVal.obj [])) "foo" "t1").bind
        (fun c1 => execute_reenable_app c1 "foo" "t2")
      = .ok (demoDoc (JVal.obj [])) :=
  ⟨rfl, by decide,
    C3_disable_reenable_roundtrip (JVal.obj []) rfl (by decide) "t1" "t2"⟩

/-! ## C2: re-enabling one app must not touch another's references -/

theorem dget_dpop_ne : ∀ (m : JObj) (a b : String), a ≠ b →
    dget (dpop m a) b = dget m b
  | [], _, _, _ => rfl
  | (k, v) :: rest, a, b, hab => by
    rw [dpop, dget]
    by_cases hk : k = a
    · rw [if_pos hk, if_neg (fun hkb : k = b => hab (hk.symm.trans hkb))]
    · rw [if_neg hk, dget]
      by_cases hkb : k = b
      · rw [if_pos hkb, if_pos hkb]
      · rw [if_neg hkb, if_neg hkb, dget_dpop_ne rest a b hab]

theorem isPrefixOf_refl : ∀ (l : List Char), l.isPrefixOf l = true
  | [] => rfl
  | c :: cs => by simp [List.isPrefixOf, isPrefixOf_refl cs]

theorem isPrefixOf_append_cancel : ∀ (P x y : List Char),
    (P ++ x).isPrefixOf (P ++ y) = x.isPrefixOf y
  | [], _, _ => rfl
  | c :: P, x, y => by
    simp [List.isPrefixOf, isPrefixOf_append_cancel P x y]

/-- A plain pass-step to the named application. -/
def c2step (t : String) : JVal :=
  .obj [("action", .obj [("pass", .str ("applications/" ++ t))])]

/-- The C2 scenario document: two active applications named `a` and `b`
(empty-mapping configurations), each referenced by one pass step. -/
def c2doc (a b : String) : JObj :=
  [("applications", .obj [(a, JVal.obj []), (b, JVal.obj [])]),
   ("routes", .arr [c2step a, c2step b])]

theorem dget_cons_self (k : String) (v : JVal) (r : JObj) :
    dget ((k, v) :: r) k = some v := by
  rw [dget, if_pos rfl]

theorem dpop_cons_self (k : String) (v : JVal) (r : JObj) :
    dpop ((k, v) :: r) k = r := by
  rw [dpop, if_pos rfl]

theorem dset_cons_ne (k' : String) (v' : JVal) (r : JObj) (k : String) (v : JVal)
    (h : k' ≠ k) : dset ((k', v') :: r) k v = (k', v') :: dset r k v := by
  rw [dset, if_neg h]

theorem str_append_ne (S : String) {x y : String} (h : x ≠ y) : S ++ x ≠ S ++ y := by
  intro he
  apply h
  have hd : S.data ++ x.data = S.data ++ y.data := congrArg String.data he
  have h2 := List.append_cancel_left hd
  obtain ⟨dx⟩ := x
  obtain ⟨dy⟩ := y
  have h3 : dx = dy := h2
  rw [h3]

/-- The Disable callback on a mapping whose `pass` names exactly the
app: the in-place `pass` → disguised-`proxy` rewrite. -/
theorem disableReplace_pass_match (app : String) (p : List PathEl) :
    disableReplace app (.obj [("pass", JVal.str ("applications/" ++ app))]) p
      = .obj [("proxy", JVal.str (FAKE_PROXY_PREFIX ++ "disabled-app-ref/" ++ app))] := by
  show (if dget [("pass", JVal.str ("applications/" ++ app))] "pass"
      = some (JVal.str ("applications/" ++ app)) then
      JVal.obj (dictOfPairs ([("pass", JVal.str ("applications/" ++ app))].map fun kv =>
        if kv.1 = "pass" then
          ("proxy", JVal.str (FAKE_PROXY_PREFIX ++ "disabled-app-ref/" ++ app))
        else kv))
    else JVal.obj [("pass", JVal.str ("applications/" ++ app))])
    = JVal.obj [("proxy", JVal.str (FAKE_PROXY_PREFIX ++ "disabled-app-ref/" ++ app))]
  rw [if_pos (show dget [("pass", JVal.str ("applications/" ++ app))] "pass"
    = some (JVal.str ("applications/" ++ app)) from rfl)]
  rfl

/-- The Disable callback leaves a mapping alone when its `pass` is any
other string. -/
theorem disableReplace_pass_other (app s : String) (hs : s ≠ "applications/" ++ app)
    (p : List PathEl) :
    disableReplace app (.obj [("pass", JVal.str s)]) p = .obj [("pass", JVal.str s)] := by
  show (if dget [("pass", JVal.str s)] "pass" = some (JVal.str ("applications/" ++ app)) then
      JVal.obj (dictOfPairs ([("pass", JVal.str s)].map fun kv =>
        if kv.1 = "pass" then
          ("proxy", JVal.str (FAKE_PROXY_PREFIX ++ "disabled-app-ref/" ++ app))
        else kv))
    else JVal.obj [("pass", JVal.str s)]) = JVal.obj [("pass", JVal.str s)]
  rw [if_neg (show ¬(dget [("pass", JVal.str s)] "pass"
      = some (JVal.str ("applications/" ++ app))) from fun hcon => hs (by
    have hcon2 : some (JVal.str s) = some (JVal.str ("applications/" ++ app)) := hcon
    simpa using hcon2))]

/-- The Disable callback leaves a single-entry mapping with an
empty-mapping value alone, whatever its key is. -/
theorem disableReplace_single_obj (app k : String) (p : List PathEl) :
    disableReplace app (.obj [(k, JVal.obj [])]) p = .obj [(k, JVal.obj [])] := by
  by_cases hk : k = "pass"
  · subst hk
    rfl
  · show (if dget [(k, JVal.obj [])] "pass" = some (JVal.str ("applications/" ++ app)) then
        JVal.obj (dictOfPairs ([(k, JVal.obj [])].map fun kv =>
          if kv.1 = "pass" then
            ("proxy", JVal.str (FAKE_PROXY_PREFIX ++ "disabled-app-ref/" ++ app))
          else kv))
      else JVal.obj [(k, JVal.obj [])]) = JVal.obj [(k, JVal.obj [])]
    rw [show dget [(k, JVal.obj [])] "pass" = none from by
      rw [dget, if_neg hk]
      rfl]
    rfl

/-- The Re-enable callback on a mapping carrying exactly the app's own
disguised proxy reference: rewritten back to `pass`. -/
theorem reenableReplace_proxy_self (app : String) (p : List PathEl) :
    reenableReplace app
      (.obj [("proxy", JVal.str (FAKE_PROXY_PREFIX ++ "disabled-app-ref/" ++ app))]) p
      = .obj [("pass", JVal.str ("applications/" ++ app))] := by
  show (if startswith (FAKE_PROXY_PREFIX ++ "disabled-app-ref/" ++ app)
      (FAKE_PROXY_PREFIX ++ "disabled-app-ref/" ++ app) = true then
      JVal.obj (dictOfPairs
        ([("proxy", JVal.str (FAKE_PROXY_PREFIX ++ "disabled-app-ref/" ++ app))].map fun kv =>
          if kv.1 = "proxy" then ("pass", JVal.str ("applications/" ++ app)) else kv))
    else JVal.obj [("proxy", JVal.str (FAKE_PROXY_PREFIX ++ "disabled-app-ref/" ++ app))])
    = JVal.obj [("pass", JVal.str ("applications/" ++ app))]
  rw [if_pos (show startswith (FAKE_PROXY_PREFIX ++ "disabled-app-ref/" ++ app)
    (FAKE_PROXY_PREFIX ++ "disabled-app-ref/" ++ app) = true from isPrefixOf_refl _)]
  rfl

/-- The Re-enable callback leaves a mapping alone when its `proxy` does
not start with the app's disguised reference. -/
theorem reenableReplace_proxy_other (app s : String)
    (hs : startswith (FAKE_PROXY_PREFIX ++ "disabled-app-ref/" ++ app) s = false)
    (p : List PathEl) :
    reenableReplace app (.obj [("proxy", JVal.str s)]) p = .obj [("proxy", JVal.str s)] := by
  show (if startswith (FAKE_PROXY_PREFIX ++ "disabled-app-ref/" ++ app) s = true then
      JVal.obj (dictOfPairs ([("proxy", JVal.str s)].map fun kv =>
        if kv.1 = "proxy" then ("pass", JVal.str ("applications/" ++ app)) else kv))
    else JVal.obj [("proxy", JVal.str s)]) = JVal.obj [("proxy", JVal.str s)]
  rw [hs]
  rfl

theorem optMapFields_cons (g : String → JVal → Option JVal) (k : String) (v : JVal)
    (fs : List (String × JVal)) (w : JVal) (ws : List (String × JVal))
    (h1 : g k v = some w) (h2 : optMapFields g fs = some ws) :
    optMapFields g ((k, v) :: fs) = some ((k, w) :: ws) := by
  rw [optMapFields, h1, h2]
  rfl

theorem optMapIdx_cons (g : Nat → JVal → Option JVal) (i : Nat) (x : JVal)
    (xs : List JVal) (y : JVal) (ys : List JVal)
    (h1 : g i x = some y) (h2 : optMapIdx g (i + 1) xs = some ys) :
    optMapIdx g i (x :: xs) = some (y :: ys) := by
  rw [optMapIdx, h1, h2]
  rfl

/-- One head-first step on a mapping node, from the callback's result
and the children's results. -/
theorem jsr_obj_step (cb : JVal → List PathEl → JVal) (fuel : Nat) (p : List PathEl)
    (fields fields2 ws : List (String × JVal))
    (hcb : cb (.obj fields) p = .obj fields2)
    (hrec : optMapFields (fun k v => jsr_rec cb true fuel v (p ++ [PathEl.key k])) fields2
      = some ws) :
    jsr_rec cb true (fuel + 1) (.obj fields) p = some (.obj ws) := by
  rw [jsr_rec]
  show ((match cb (JVal.obj fields) p with
    | JVal.arr items =>
      (optMapIdx (fun i x => jsr_rec cb true fuel x (p ++ [PathEl.idx i])) 0 items).map JVal.arr
    | JVal.obj fs2 =>
      (optMapFields (fun k v => jsr_rec cb true fuel v (p ++ [PathEl.key k])) fs2).map JVal.obj
    | v1 => some (cb v1 p)).map
    fun d => if !true && isCont d then cb d p else d) = some (JVal.obj ws)
  rw [hcb]
  show ((optMapFields (fun k v => jsr_rec cb true fuel v (p ++ [PathEl.key k])) fields2).map
    JVal.obj).map (fun d => if !true && isCont d then cb d p else d) = some (JVal.obj ws)
  rw [hrec]
  rfl

/-- One head-first step on a list node. -/
theorem jsr_arr_step (cb : JVal → List PathEl → JVal) (fuel : Nat) (p : List PathEl)
    (items items2 ws : List JVal)
    (hcb : cb (.arr items) p = .arr items2)
    (hrec : optMapIdx (fun i x => jsr_rec cb true fuel x (p ++ [PathEl.idx i])) 0 items2
      = some ws) :
    jsr_rec cb true (fuel + 1) (.arr items) p = some (.arr ws) := by
  rw [jsr_rec]
  show ((match cb (JVal.arr items) p with
    | JVal.arr its2 =>
      (optMapIdx (fun i x => jsr_rec cb true fuel x (p ++ [PathEl.idx i])) 0 its2).map JVal.arr
    | JVal.obj fs2 =>
      (optMapFields (fun k v => jsr_rec cb true fuel v (p ++ [PathEl.key k])) fs2).map JVal.obj
    | v1 => some (cb v1 p)).map
    fun d => if !true && isCont d then cb d p else d) = some (JVal.arr ws)
  rw [hcb]
  show ((optMapIdx (fun i x => jsr_rec cb true fuel x (p ++ [PathEl.idx i])) 0 items2).map
    JVal.arr).map (fun d => if !true && isCont d then cb d p else d) = some (JVal.arr ws)
  rw [hrec]
  rfl

set_option maxHeartbeats 4000000 in
/-- **C2 counterexample** — Disable("a"), Disable("ab"), then
Re-enable("a") on a document with the two active applications `a` and
`ab`. The claim says re-enabling `a` leaves `ab` disabled with every
`disabled-app-ref/ab` proxy reference unchanged. The Re-enable callback
matches proxy references with `startswith`, and `…disabled-app-ref/ab`
starts with `…disabled-app-ref/a`, so `ab`'s disguised step is also
rewritten — to `pass: applications/a`, the wrong application. The
sidecar still lists `ab` as disabled (its entry survives in the new
DataStep), but its proxy reference is gone. -/
theorem C2_counterexample :
    (execute_disable_app (c2doc "a" "ab") "a" "t1").bind (fun c1 =>
      (execute_disable_app c1 "ab" "t2").bind (fun c2 =>
        execute_reenable_app c2 "a" "t3"))
    = .ok [("applications", JVal.obj [("a", JVal.obj [])]),
        ("routes", JVal.arr
          [create_data_step [("disabled-applications", JVal.obj [("ab", JVal.obj [])])] "t3",
           JVal.obj [("action", JVal.obj [("pass", JVal.str "applications/a")])],
           JVal.obj [("action", JVal.obj [("pass", JVal.str "applications/a")])]])] := by
  rfl

set_option maxHeartbeats 4000000 in
/-- **C2 (amended)** — for any two distinct application names `a`, `b`
where `a` is not a prefix of `b`, on the document with the two active
applications (each referenced by one pass step): after Disable(`a`) then
Disable(`b`), Re-enable(`a`) removes only `a` from the
`disabled-applications` sidecar mapping (the new DataStep carries
exactly `b`'s entry), rewrites back to `pass: applications/a` exactly
the proxy reference created for `a`, and leaves `b`'s
`…disabled-app-ref/b` proxy reference unchanged — `b` stays disabled.
(When `a` is a prefix of `b`, the callback's `startswith` test also
captures `b`'s reference — the counterexample.) -/
theorem C2_reenable_selective_pipeline (a b : String) (hab : a ≠ b)
    (hpre : List.isPrefixOf a.data b.data = false) (t1 t2 t3 : String) :
    (execute_disable_app (c2doc a b) a t1).bind (fun c1 =>
      (execute_disable_app c1 b t2).bind (fun c2 =>
        execute_reenable_app c2 a t3))
    = .ok [("applications", JVal.obj [(a, JVal.obj [])]),
      ("routes", JVal.arr [create_data_step [("disabled-applications", JVal.obj [(b, JVal.obj [])])] t3, JVal.obj [("action", JVal.obj [("pass", JVal.str ("applications/" ++ a))])], JVal.obj [("action", JVal.obj [("proxy", JVal.str (FAKE_PROXY_PREFIX ++ "disabled-app-ref/" ++ b))])]])] := by
  have hstr_ba : ("applications/" ++ b) ≠ ("applications/" ++ a) :=
    str_append_ne "applications/" (Ne.symm hab)
  have hother : startswith (FAKE_PROXY_PREFIX ++ "disabled-app-ref/" ++ a)
      (FAKE_PROXY_PREFIX ++ "disabled-app-ref/" ++ b) = false := by
    show ((FAKE_PROXY_PREFIX ++ "disabled-app-ref/").data ++ a.data).isPrefixOf
      ((FAKE_PROXY_PREFIX ++ "disabled-app-ref/").data ++ b.data) = false
    rw [isPrefixOf_append_cancel]
    exact hpre
  -- first transform: Disable(a)'s tree rewrite
  have hA1 : ∀ p, jsr_rec (disableReplace a) true 31
      (JVal.obj [("pass", JVal.str ("applications/" ++ a))]) p
      = some (JVal.obj [("proxy", JVal.str (FAKE_PROXY_PREFIX ++ "disabled-app-ref/" ++ a))]) :=
    fun p => jsr_obj_step (disableReplace a) 30 p _ _ _ (disableReplace_pass_match a p) rfl
  have hB1 : ∀ p, jsr_rec (disableReplace a) true 31
      (JVal.obj [("pass", JVal.str ("applications/" ++ b))]) p
      = some (JVal.obj [("pass", JVal.str ("applications/" ++ b))]) :=
    fun p => jsr_obj_step (disableReplace a) 30 p _ _ _
      (disableReplace_pass_other a _ hstr_ba p) rfl
  have hSA1 : ∀ p, jsr_rec (disableReplace a) true 32 (JVal.obj [("action", JVal.obj [("pass", JVal.str ("applications/" ++ a))])]) p
      = some (JVal.obj [("action", JVal.obj [("proxy", JVal.str (FAKE_PROXY_PREFIX ++ "disabled-app-ref/" ++ a))])]) :=
    fun p => jsr_obj_step (disableReplace a) 31 p _ _ _ rfl
      (optMapFields_cons _ _ _ _ _ _ (hA1 _) rfl)
  have hSB1 : ∀ p, jsr_rec (disableReplace a) true 32 (JVal.obj [("action", JVal.obj [("pass", JVal.str ("applications/" ++ b))])]) p
      = some (JVal.obj [("action", JVal.obj [("pass", JVal.str ("applications/" ++ b))])]) :=
    fun p => jsr_obj_step (disableReplace a) 31 p _ _ _ rfl
      (optMapFields_cons _ _ _ _ _ _ (hB1 _) rfl)
  have hApps1 : ∀ p, jsr_rec (disableReplace a) true 33 (JVal.obj [(b, JVal.obj [])]) p
      = some (JVal.obj [(b, JVal.obj [])]) :=
    fun p => jsr_obj_step (disableReplace a) 32 p _ _ _ (disableReplace_single_obj a b p) rfl
  have hRoutes1 : ∀ p, jsr_rec (disableReplace a) true 33
      (JVal.arr [create_data_step [("disabled-applications", JVal.obj [(a, JVal.obj [])])] t1, JVal.obj [("action", JVal.obj [("pass", JVal.str ("applications/" ++ a))])], JVal.obj [("action", JVal.obj [("pass", JVal.str ("applications/" ++ b))])]]) p
      = some (JVal.arr [create_data_step [("disabled-applications", JVal.obj [(a, JVal.obj [])])] t1, JVal.obj [("action", JVal.obj [("proxy", JVal.str (FAKE_PROXY_PREFIX ++ "disabled-app-ref/" ++ a))])], JVal.obj [("action", JVal.obj [("pass", JVal.str ("applications/" ++ b))])]]) :=
    fun p => jsr_arr_step (disableReplace a) 32 p _ _ _ rfl
      (optMapIdx_cons _ 0 _ _ _ _ rfl
        (optMapIdx_cons _ 1 _ _ _ _ (hSA1 _)
          (optMapIdx_cons _ 2 _ _ _ _ (hSB1 _) rfl)))
  have hj1 : json_search_replace
      (JVal.obj [("applications", JVal.obj [(b, JVal.obj [])]),
        ("routes", JVal.arr [create_data_step [("disabled-applications", JVal.obj [(a, JVal.obj [])])] t1, JVal.obj [("action", JVal.obj [("pass", JVal.str ("applications/" ++ a))])], JVal.obj [("action", JVal.obj [("pass", JVal.str ("applications/" ++ b))])]])])
      (disableReplace a) true
      = some (JVal.obj [("applications", JVal.obj [(b, JVal.obj [])]),
      ("routes", JVal.arr [create_data_step [("disabled-applications", JVal.obj [(a, JVal.obj [])])] t1, JVal.obj [("action", JVal.obj [("proxy", JVal.str (FAKE_PROXY_PREFIX ++ "disabled-app-ref/" ++ a))])], JVal.obj [("action", JVal.obj [("pass", JVal.str ("applications/" ++ b))])]])]) := by
    show jsr_rec (disableReplace a) true 34
      (JVal.obj [("applications", JVal.obj [(b, JVal.obj [])]),
        ("routes", JVal.arr [create_data_step [("disabled-applications", JVal.obj [(a, JVal.obj [])])] t1, JVal.obj [("action", JVal.obj [("pass", JVal.str ("applications/" ++ a))])], JVal.obj [("action", JVal.obj [("pass", JVal.str ("applications/" ++ b))])]])]) []
      = some (JVal.obj [("applications", JVal.obj [(b, JVal.obj [])]),
      ("routes", JVal.arr [create_data_step [("disabled-applications", JVal.obj [(a, JVal.obj [])])] t1, JVal.obj [("action", JVal.obj [("proxy", JVal.str (FAKE_PROXY_PREFIX ++ "disabled-app-ref/" ++ a))])], JVal.obj [("action", JVal.obj [("pass", JVal.str ("applications/" ++ b))])]])])
    exact jsr_obj_step (disableReplace a) 33 [] _ _ _ rfl
      (optMapFields_cons _ _ _ _ _ _ (hApps1 _)
        (optMapFields_cons _ _ _ _ _ _ (hRoutes1 _) rfl))
  -- second transform: Disable(b)'s tree rewrite
  have hBB2 : ∀ p, jsr_rec (disableReplace b) true 29
      (JVal.obj [("pass", JVal.str ("applications/" ++ b))]) p
      = some (JVal.obj [("proxy", JVal.str (FAKE_PROXY_PREFIX ++ "disabled-app-ref/" ++ b))]) :=
    fun p => jsr_obj_step (disableReplace b) 28 p _ _ _ (disableReplace_pass_match b p) rfl
  have hSB2 : ∀ p, jsr_rec (disableReplace b) true 30 (JVal.obj [("action", JVal.obj [("pass", JVal.str ("applications/" ++ b))])]) p
      = some (JVal.obj [("action", JVal.obj [("proxy", JVal.str (FAKE_PROXY_PREFIX ++ "disabled-app-ref/" ++ b))])]) :=
    fun p => jsr_obj_step (disableReplace b) 29 p _ _ _ rfl
      (optMapFields_cons _ _ _ _ _ _ (hBB2 _) rfl)
  have hRoutes2 : ∀ p, jsr_rec (disableReplace b) true 31
      (JVal.arr [create_data_step [("disabled-applications", JVal.obj [(a, JVal.obj []), (b, JVal.obj [])])] t2, JVal.obj [("action", JVal.obj [("proxy", JVal.str (FAKE_PROXY_PREFIX ++ "disabled-app-ref/" ++ a))])], JVal.obj [("action", JVal.obj [("pass", JVal.str ("applications/" ++ b))])]]) p
      = some (JVal.arr [create_data_step [("disabled-applications", JVal.obj [(a, JVal.obj []), (b, JVal.obj [])])] t2, JVal.obj [("action", JVal.obj [("proxy", JVal.str (FAKE_PROXY_PREFIX ++ "disabled-app-ref/" ++ a))])], JVal.obj [("action", JVal.obj [("proxy", JVal.str (FAKE_PROXY_PREFIX ++ "disabled-app-ref/" ++ b))])]]) :=
    fun p => jsr_arr_step (disableReplace b) 30 p _ _ _ rfl
      (optMapIdx_cons _ 0 _ _ _ _ rfl
        (optMapIdx_cons _ 1 _ _ _ _ rfl
          (optMapIdx_cons _ 2 _ _ _ _ (hSB2 _) rfl)))
  have hj2 : json_search_replace (JVal.obj [("applications", JVal.obj []),
      ("routes", JVal.arr [create_data_step [("disabled-applications", JVal.obj [(a, JVal.obj []), (b, JVal.obj [])])] t2, JVal.obj [("action", JVal.obj [("proxy", JVal.str (FAKE_PROXY_PREFIX ++ "disabled-app-ref/" ++ a))])], JVal.obj [("action", JVal.obj [("pass", JVal.str ("applications/" ++ b))])]])]) (disableReplace b) true
      = some (JVal.obj [("applications", JVal.obj []),
      ("routes", JVal.arr [create_data_step [("disabled-applications", JVal.obj [(a, JVal.obj []), (b, JVal.obj [])])] t2, JVal.obj [("action", JVal.obj [("proxy", JVal.str (FAKE_PROXY_PREFIX ++ "disabled-app-ref/" ++ a))])], JVal.obj [("action", JVal.obj [("proxy", JVal.str (FAKE_PROXY_PREFIX ++ "disabled-app-ref/" ++ b))])]])]) := by
    show jsr_rec (disableReplace b) true 32 (JVal.obj [("applications", JVal.obj []),
      ("routes", JVal.arr [create_data_step [("disabled-applications", JVal.obj [(a, JVal.obj []), (b, JVal.obj [])])] t2, JVal.obj [("action", JVal.obj [("proxy", JVal.str (FAKE_PROXY_PREFIX ++ "disabled-app-ref/" ++ a))])], JVal.obj [("action", JVal.obj [("pass", JVal.str ("applications/" ++ b))])]])]) []
      = some (JVal.obj [("applications", JVal.obj []),
      ("routes", JVal.arr [create_data_step [("disabled-applications", JVal.obj [(a, JVal.obj []), (b, JVal.obj [])])] t2, JVal.obj [("action", JVal.obj [("proxy", JVal.str (FAKE_PROXY_PREFIX ++ "disabled-app-ref/" ++ a))])], JVal.obj [("action", JVal.obj [("proxy", JVal.str (FAKE_PROXY_PREFIX ++ "disabled-app-ref/" ++ b))])]])])
    exact jsr_obj_step (disableReplace b) 31 [] _ _ _ rfl
      (optMapFields_cons _ _ _ _ _ _ rfl
        (optMapFields_cons _ _ _ _ _ _ (hRoutes2 _) rfl))
  -- third transform: Re-enable(a)'s tree rewrite
  have hPA3 : ∀ p, jsr_rec (reenableReplace a) true 29
      (JVal.obj [("proxy", JVal.str (FAKE_PROXY_PREFIX ++ "disabled-app-ref/" ++ a))]) p
      = some (JVal.obj [("pass", JVal.str ("applications/" ++ a))]) :=
    fun p => jsr_obj_step (reenableReplace a) 28 p _ _ _ (reenableReplace_proxy_self a p) rfl
  have hPB3 : ∀ p, jsr_rec (reenableReplace a) true 29
      (JVal.obj [("proxy", JVal.str (FAKE_PROXY_PREFIX ++ "disabled-app-ref/" ++ b))]) p
      = some (JVal.obj [("proxy", JVal.str (FAKE_PROXY_PREFIX ++ "disabled-app-ref/" ++ b))]) :=
    fun p => jsr_obj_step (reenableReplace a) 28 p _ _ _
      (reenableReplace_proxy_other a _ hother p) rfl
  have hSA3 : ∀ p, jsr_rec (reenableReplace a) true 30 (JVal.obj [("action", JVal.obj [("proxy", JVal.str (FAKE_PROXY_PREFIX ++ "disabled-app-ref/" ++ a))])]) p
      = some (JVal.obj [("action", JVal.obj [("pass", JVal.str ("applications/" ++ a))])]) :=
    fun p => jsr_obj_step (reenableReplace a) 29 p _ _ _ rfl
      (optMapFields_cons _ _ _ _ _ _ (hPA3 _) rfl)
  have hSB3 : ∀ p, jsr_rec (reenableReplace a) true 30 (JVal.obj [("action", JVal.obj [("proxy", JVal.str (FAKE_PROXY_PREFIX ++ "disabled-app-ref/" ++ b))])]) p
      = some (JVal.obj [("action", JVal.obj [("proxy", JVal.str (FAKE_PROXY_PREFIX ++ "disabled-app-ref/" ++ b))])]) :=
    fun p => jsr_obj_step (reenableReplace a) 29 p _ _ _ rfl
      (optMapFields_cons _ _ _ _ _ _ (hPB3 _) rfl)
  have hRoutes3 : ∀ p, jsr_rec (reenableReplace a) true 31
      (JVal.arr [create_data_step [("disabled-applications", JVal.obj [(b, JVal.obj [])])] t3, JVal.obj [("action", JVal.obj [("proxy", JVal.str (FAKE_PROXY_PREFIX ++ "disabled-app-ref/" ++ a))])], JVal.obj [("action", JVal.obj [("proxy", JVal.str (FAKE_PROXY_PREFIX ++ "disabled-app-ref/" ++ b))])]]) p
      = some (JVal.arr [create_data_step [("disabled-applications", JVal.obj [(b, JVal.obj [])])] t3, JVal.obj [("action", JVal.obj [("pass", JVal.str ("applications/" ++ a))])], JVal.obj [("action", JVal.obj [("proxy", JVal.str (FAKE_PROXY_PREFIX ++ "disabled-app-ref/" ++ b))])]]) :=
    fun p => jsr_arr_step (reenableReplace a) 30 p _ _ _ rfl
      (optMapIdx_cons _ 0 _ _ _ _ rfl
        (optMapIdx_cons _ 1 _ _ _ _ (hSA3 _)
          (optMapIdx_cons _ 2 _ _ _ _ (hSB3 _) rfl)))
  have hj3 : json_search_replace (JVal.obj [("applications", JVal.obj []),
      ("routes", JVal.arr [create_data_step [("disabled-applications", JVal.obj [(b, JVal.obj [])])] t3, JVal.obj [("action", JVal.obj [("proxy", JVal.str (FAKE_PROXY_PREFIX ++ "disabled-app-ref/" ++ a))])], JVal.obj [("action", JVal.obj [("proxy", JVal.str (FAKE_PROXY_PREFIX ++ "disabled-app-ref/" ++ b))])]])]) (reenableReplace a) true
      = some (JVal.obj [("applications", JVal.obj []),
      ("routes", JVal.arr [create_data_step [("disabled-applications", JVal.obj [(b, JVal.obj [])])] t3, JVal.obj [("action", JVal.obj [("pass", JVal.str ("applications/" ++ a))])], JVal.obj [("action", JVal.obj [("proxy", JVal.str (FAKE_PROXY_PREFIX ++ "disabled-app-ref/" ++ b))])]])]) := by
    show jsr_rec (reenableReplace a) true 32 (JVal.obj [("applications", JVal.obj []),
      ("routes", JVal.arr [create_data_step [("disabled-applications", JVal.obj [(b, JVal.obj [])])] t3, JVal.obj [("action", JVal.obj [("proxy", JVal.str (FAKE_PROXY_PREFIX ++ "disabled-app-ref/" ++ a))])], JVal.obj [("action", JVal.obj [("proxy", JVal.str (FAKE_PROXY_PREFIX ++ "disabled-app-ref/" ++ b))])]])]) []
      = some (JVal.obj [("applications", JVal.obj []),
      ("routes", JVal.arr [create_data_step [("disabled-applications", JVal.obj [(b, JVal.obj [])])] t3, JVal.obj [("action", JVal.obj [("pass", JVal.str ("applications/" ++ a))])], JVal.obj [("action", JVal.obj [("proxy", JVal.str (FAKE_PROXY_PREFIX ++ "disabled-app-ref/" ++ b))])]])])
    exact jsr_obj_step (reenableReplace a) 31 [] _ _ _ rfl
      (optMapFields_cons _ _ _ _ _ _ rfl
        (optMapFields_cons _ _ _ _ _ _ (hRoutes3 _) rfl))
  -- stage 1: Disable(a)
  have hd1 : execute_disable_app (c2doc a b) a t1 = .ok [("applications", JVal.obj [(b, JVal.obj [])]),
      ("routes", JVal.arr [create_data_step [("disabled-applications", JVal.obj [(a, JVal.obj [])])] t1, JVal.obj [("action", JVal.obj [("proxy", JVal.str (FAKE_PROXY_PREFIX ++ "disabled-app-ref/" ++ a))])], JVal.obj [("action", JVal.obj [("pass", JVal.str ("applications/" ++ b))])]])] := by
    show (match dget [(a, JVal.obj []), (b, JVal.obj [])] a with
      | none => Except.error (CmdErr.failMsg
          ("Found no active application named \x27" ++ a ++ "\x27"))
      | some app_config =>
        if app_config = JVal.null then
          Except.error (CmdErr.failMsg
            ("Found no active application named \x27" ++ a ++ "\x27"))
        else
          disable_found (dset (c2doc a b) "applications"
            (.obj (dpop [(a, JVal.obj []), (b, JVal.obj [])] a))) a t1 app_config)
      = Except.ok [("applications", JVal.obj [(b, JVal.obj [])]),
      ("routes", JVal.arr [create_data_step [("disabled-applications", JVal.obj [(a, JVal.obj [])])] t1, JVal.obj [("action", JVal.obj [("proxy", JVal.str (FAKE_PROXY_PREFIX ++ "disabled-app-ref/" ++ a))])], JVal.obj [("action", JVal.obj [("pass", JVal.str ("applications/" ++ b))])]])]
    rw [dget_cons_self, dpop_cons_self]
    show (match json_search_replace
        (JVal.obj [("applications", JVal.obj [(b, JVal.obj [])]),
          ("routes", JVal.arr [create_data_step [("disabled-applications", JVal.obj [(a, JVal.obj [])])] t1, JVal.obj [("action", JVal.obj [("pass", JVal.str ("applications/" ++ a))])], JVal.obj [("action", JVal.obj [("pass", JVal.str ("applications/" ++ b))])]])])
        (disableReplace a) true with
      | some (JVal.obj config3) => Except.ok config3
      | _ => Except.error CmdErr.crash) = Except.ok [("applications", JVal.obj [(b, JVal.obj [])]),
      ("routes", JVal.arr [create_data_step [("disabled-applications", JVal.obj [(a, JVal.obj [])])] t1, JVal.obj [("action", JVal.obj [("proxy", JVal.str (FAKE_PROXY_PREFIX ++ "disabled-app-ref/" ++ a))])], JVal.obj [("action", JVal.obj [("pass", JVal.str ("applications/" ++ b))])]])]
    rw [hj1]
  -- stage 2: Disable(b)
  have hret1 : retrieve_data_step [("applications", JVal.obj []),
      ("routes", JVal.arr [create_data_step [("disabled-applications", JVal.obj [(a, JVal.obj [])])] t1, JVal.obj [("action", JVal.obj [("proxy", JVal.str (FAKE_PROXY_PREFIX ++ "disabled-app-ref/" ++ a))])], JVal.obj [("action", JVal.obj [("pass", JVal.str ("applications/" ++ b))])]])] = some (.obj [("disabled-applications", JVal.obj [(a, JVal.obj [])])]) := by
    show decode_payload ⟨FAKE_URL_PREFIX.data
      ++ b64encode ((dumpsL (.obj [("disabled-applications", JVal.obj [(a, JVal.obj [])])])).map Char.toNat)⟩ = some (.obj [("disabled-applications", JVal.obj [(a, JVal.obj [])])])
    exact decode_payload_encode _ rfl
  have hd2 : execute_disable_app [("applications", JVal.obj [(b, JVal.obj [])]),
      ("routes", JVal.arr [create_data_step [("disabled-applications", JVal.obj [(a, JVal.obj [])])] t1, JVal.obj [("action", JVal.obj [("proxy", JVal.str (FAKE_PROXY_PREFIX ++ "disabled-app-ref/" ++ a))])], JVal.obj [("action", JVal.obj [("pass", JVal.str ("applications/" ++ b))])]])] b t2 = .ok [("applications", JVal.obj []),
      ("routes", JVal.arr [create_data_step [("disabled-applications", JVal.obj [(a, JVal.obj []), (b, JVal.obj [])])] t2, JVal.obj [("action", JVal.obj [("proxy", JVal.str (FAKE_PROXY_PREFIX ++ "disabled-app-ref/" ++ a))])], JVal.obj [("action", JVal.obj [("proxy", JVal.str (FAKE_PROXY_PREFIX ++ "disabled-app-ref/" ++ b))])]])] := by
    show (match dget [(b, JVal.obj [])] b with
      | none => Except.error (CmdErr.failMsg
          ("Found no active application named \x27" ++ b ++ "\x27"))
      | some app_config =>
        if app_config = JVal.null then
          Except.error (CmdErr.failMsg
            ("Found no active application named \x27" ++ b ++ "\x27"))
        else
          disable_found (dset [("applications", JVal.obj [(b, JVal.obj [])]),
      ("routes", JVal.arr [create_data_step [("disabled-applications", JVal.obj [(a, JVal.obj [])])] t1, JVal.obj [("action", JVal.obj [("proxy", JVal.str (FAKE_PROXY_PREFIX ++ "disabled-app-ref/" ++ a))])], JVal.obj [("action", JVal.obj [("pass", JVal.str ("applications/" ++ b))])]])] "applications"
            (.obj (dpop [(b, JVal.obj [])] b))) b t2 app_config)
      = Except.ok [("applications", JVal.obj []),
      ("routes", JVal.arr [create_data_step [("disabled-applications", JVal.obj [(a, JVal.obj []), (b, JVal.obj [])])] t2, JVal.obj [("action", JVal.obj [("proxy", JVal.str (FAKE_PROXY_PREFIX ++ "disabled-app-ref/" ++ a))])], JVal.obj [("action", JVal.obj [("proxy", JVal.str (FAKE_PROXY_PREFIX ++ "disabled-app-ref/" ++ b))])]])]
    rw [dget_cons_self, dpop_cons_self]
    show disable_found [("applications", JVal.obj []),
      ("routes", JVal.arr [create_data_step [("disabled-applications", JVal.obj [(a, JVal.obj [])])] t1, JVal.obj [("action", JVal.obj [("proxy", JVal.str (FAKE_PROXY_PREFIX ++ "disabled-app-ref/" ++ a))])], JVal.obj [("action", JVal.obj [("pass", JVal.str ("applications/" ++ b))])]])] b t2 (JVal.obj []) = Except.ok [("applications", JVal.obj []),
      ("routes", JVal.arr [create_data_step [("disabled-applications", JVal.obj [(a, JVal.obj []), (b, JVal.obj [])])] t2, JVal.obj [("action", JVal.obj [("proxy", JVal.str (FAKE_PROXY_PREFIX ++ "disabled-app-ref/" ++ a))])], JVal.obj [("action", JVal.obj [("proxy", JVal.str (FAKE_PROXY_PREFIX ++ "disabled-app-ref/" ++ b))])]])]
    unfold disable_found
    rw [hret1]
    show disable_store_transform [("applications", JVal.obj []),
      ("routes", JVal.arr [create_data_step [("disabled-applications", JVal.obj [(a, JVal.obj [])])] t1, JVal.obj [("action", JVal.obj [("proxy", JVal.str (FAKE_PROXY_PREFIX ++ "disabled-app-ref/" ++ a))])], JVal.obj [("action", JVal.obj [("pass", JVal.str ("applications/" ++ b))])]])] b t2
      (dset [("disabled-applications", JVal.obj [(a, JVal.obj [])])] "disabled-applications"
        (JVal.obj (dset [(a, JVal.obj [])] b (JVal.obj [])))) = Except.ok [("applications", JVal.obj []),
      ("routes", JVal.arr [create_data_step [("disabled-applications", JVal.obj [(a, JVal.obj []), (b, JVal.obj [])])] t2, JVal.obj [("action", JVal.obj [("proxy", JVal.str (FAKE_PROXY_PREFIX ++ "disabled-app-ref/" ++ a))])], JVal.obj [("action", JVal.obj [("proxy", JVal.str (FAKE_PROXY_PREFIX ++ "disabled-app-ref/" ++ b))])]])]
    rw [dset_cons_ne a (JVal.obj []) [] b (JVal.obj []) hab]
    show (match json_search_replace (JVal.obj [("applications", JVal.obj []),
      ("routes", JVal.arr [create_data_step [("disabled-applications", JVal.obj [(a, JVal.obj []), (b, JVal.obj [])])] t2, JVal.obj [("action", JVal.obj [("proxy", JVal.str (FAKE_PROXY_PREFIX ++ "disabled-app-ref/" ++ a))])], JVal.obj [("action", JVal.obj [("pass", JVal.str ("applications/" ++ b))])]])]) (disableReplace b) true with
      | some (JVal.obj config3) => Except.ok config3
      | _ => Except.error CmdErr.crash) = Except.ok [("applications", JVal.obj []),
      ("routes", JVal.arr [create_data_step [("disabled-applications", JVal.obj [(a, JVal.obj []), (b, JVal.obj [])])] t2, JVal.obj [("action", JVal.obj [("proxy", JVal.str (FAKE_PROXY_PREFIX ++ "disabled-app-ref/" ++ a))])], JVal.obj [("action", JVal.obj [("proxy", JVal.str (FAKE_PROXY_PREFIX ++ "disabled-app-ref/" ++ b))])]])]
    rw [hj2]
  -- stage 3: Re-enable(a)
  have hwfd2 : wfJson (.obj [("disabled-applications", JVal.obj [(a, JVal.obj []), (b, JVal.obj [])])]) = true := by
    have hba : b ≠ a := Ne.symm hab
    simp [wfJson, wfFields, keysDistinct, hba]
  have hret2 : retrieve_data_step [("applications", JVal.obj []),
      ("routes", JVal.arr [create_data_step [("disabled-applications", JVal.obj [(a, JVal.obj []), (b, JVal.obj [])])] t2, JVal.obj [("action", JVal.obj [("proxy", JVal.str (FAKE_PROXY_PREFIX ++ "disabled-app-ref/" ++ a))])], JVal.obj [("action", JVal.obj [("proxy", JVal.str (FAKE_PROXY_PREFIX ++ "disabled-app-ref/" ++ b))])]])] = some (.obj [("disabled-applications", JVal.obj [(a, JVal.obj []), (b, JVal.obj [])])]) := by
    show decode_payload ⟨FAKE_URL_PREFIX.data
      ++ b64encode ((dumpsL (.obj [("disabled-applications", JVal.obj [(a, JVal.obj []), (b, JVal.obj [])])])).map Char.toNat)⟩ = some (.obj [("disabled-applications", JVal.obj [(a, JVal.obj []), (b, JVal.obj [])])])
    exact decode_payload_encode _ hwfd2
  have hre : execute_reenable_app [("applications", JVal.obj []),
      ("routes", JVal.arr [create_data_step [("disabled-applications", JVal.obj [(a, JVal.obj []), (b, JVal.obj [])])] t2, JVal.obj [("action", JVal.obj [("proxy", JVal.str (FAKE_PROXY_PREFIX ++ "disabled-app-ref/" ++ a))])], JVal.obj [("action", JVal.obj [("proxy", JVal.str (FAKE_PROXY_PREFIX ++ "disabled-app-ref/" ++ b))])]])] a t3 = .ok [("applications", JVal.obj [(a, JVal.obj [])]),
      ("routes", JVal.arr [create_data_step [("disabled-applications", JVal.obj [(b, JVal.obj [])])] t3, JVal.obj [("action", JVal.obj [("pass", JVal.str ("applications/" ++ a))])], JVal.obj [("action", JVal.obj [("proxy", JVal.str (FAKE_PROXY_PREFIX ++ "disabled-app-ref/" ++ b))])]])] := by
    show reenable_after_check [("applications", JVal.obj []),
      ("routes", JVal.arr [create_data_step [("disabled-applications", JVal.obj [(a, JVal.obj []), (b, JVal.obj [])])] t2, JVal.obj [("action", JVal.obj [("proxy", JVal.str (FAKE_PROXY_PREFIX ++ "disabled-app-ref/" ++ a))])], JVal.obj [("action", JVal.obj [("proxy", JVal.str (FAKE_PROXY_PREFIX ++ "disabled-app-ref/" ++ b))])]])] a t3 = Except.ok [("applications", JVal.obj [(a, JVal.obj [])]),
      ("routes", JVal.arr [create_data_step [("disabled-applications", JVal.obj [(b, JVal.obj [])])] t3, JVal.obj [("action", JVal.obj [("pass", JVal.str ("applications/" ++ a))])], JVal.obj [("action", JVal.obj [("proxy", JVal.str (FAKE_PROXY_PREFIX ++ "disabled-app-ref/" ++ b))])]])]
    unfold reenable_after_check
    rw [hret2]
    show (match dget [(a, JVal.obj []), (b, JVal.obj [])] a with
      | none => Except.error (CmdErr.failMsg
          ("Found no disabled app named \x27" ++ a ++ "\x27"))
      | some app_config =>
        if app_config = JVal.null then
          Except.error (CmdErr.failMsg
            ("Found no disabled app named \x27" ++ a ++ "\x27"))
        else
          reenable_store_transform [("applications", JVal.obj []),
      ("routes", JVal.arr [create_data_step [("disabled-applications", JVal.obj [(a, JVal.obj []), (b, JVal.obj [])])] t2, JVal.obj [("action", JVal.obj [("proxy", JVal.str (FAKE_PROXY_PREFIX ++ "disabled-app-ref/" ++ a))])], JVal.obj [("action", JVal.obj [("proxy", JVal.str (FAKE_PROXY_PREFIX ++ "disabled-app-ref/" ++ b))])]])] a t3
            (dset [("disabled-applications", JVal.obj [(a, JVal.obj []), (b, JVal.obj [])])] "disabled-applications"
              (JVal.obj (dpop [(a, JVal.obj []), (b, JVal.obj [])] a))) app_config)
      = Except.ok [("applications", JVal.obj [(a, JVal.obj [])]),
      ("routes", JVal.arr [create_data_step [("disabled-applications", JVal.obj [(b, JVal.obj [])])] t3, JVal.obj [("action", JVal.obj [("pass", JVal.str ("applications/" ++ a))])], JVal.obj [("action", JVal.obj [("proxy", JVal.str (FAKE_PROXY_PREFIX ++ "disabled-app-ref/" ++ b))])]])]
    rw [dget_cons_self, dpop_cons_self]
    show (match json_search_replace (JVal.obj [("applications", JVal.obj []),
      ("routes", JVal.arr [create_data_step [("disabled-applications", JVal.obj [(b, JVal.obj [])])] t3, JVal.obj [("action", JVal.obj [("proxy", JVal.str (FAKE_PROXY_PREFIX ++ "disabled-app-ref/" ++ a))])], JVal.obj [("action", JVal.obj [("proxy", JVal.str (FAKE_PROXY_PREFIX ++ "disabled-app-ref/" ++ b))])]])]) (reenableReplace a) true with
      | some (JVal.obj config3) =>
        match dget config3 "applications" with
        | some (JVal.obj apps3) =>
          Except.ok (dset config3 "applications" (.obj (dset apps3 a (JVal.obj []))))
        | none => Except.error (CmdErr.keyError "applications")
        | some _ => Except.error CmdErr.crash
      | _ => Except.error CmdErr.crash) = Except.ok [("applications", JVal.obj [(a, JVal.obj [])]),
      ("routes", JVal.arr [create_data_step [("disabled-applications", JVal.obj [(b, JVal.obj [])])] t3, JVal.obj [("action", JVal.obj [("pass", JVal.str ("applications/" ++ a))])], JVal.obj [("action", JVal.obj [("proxy", JVal.str (FAKE_PROXY_PREFIX ++ "disabled-app-ref/" ++ b))])]])]
    rw [hj3]
    rfl
  rw [hd1]
  show (execute_disable_app [("applications", JVal.obj [(b, JVal.obj [])]),
      ("routes", JVal.arr [create_data_step [("disabled-applications", JVal.obj [(a, JVal.obj [])])] t1, JVal.obj [("action", JVal.obj [("proxy", JVal.str (FAKE_PROXY_PREFIX ++ "disabled-app-ref/" ++ a))])], JVal.obj [("action", JVal.obj [("pass", JVal.str ("applications/" ++ b))])]])] b t2).bind
    (fun c2 => execute_reenable_app c2 a t3) = Except.ok [("applications", JVal.obj [(a, JVal.obj [])]),
      ("routes", JVal.arr [create_data_step [("disabled-applications", JVal.obj [(b, JVal.obj [])])] t3, JVal.obj [("action", JVal.obj [("pass", JVal.str ("applications/" ++ a))])], JVal.obj [("action", JVal.obj [("proxy", JVal.str (FAKE_PROXY_PREFIX ++ "disabled-app-ref/" ++ b))])]])]
  rw [hd2]
  show execute_reenable_app [("applications", JVal.obj []),
      ("routes", JVal.arr [create_data_step [("disabled-applications", JVal.obj [(a, JVal.obj []), (b, JVal.obj [])])] t2, JVal.obj [("action", JVal.obj [("proxy", JVal.str (FAKE_PROXY_PREFIX ++ "disabled-app-ref/" ++ a))])], JVal.obj [("action", JVal.obj [("proxy", JVal.str (FAKE_PROXY_PREFIX ++ "disabled-app-ref/" ++ b))])]])] a t3 = Except.ok [("applications", JVal.obj [(a, JVal.obj [])]),
      ("routes", JVal.arr [create_data_step [("disabled-applications", JVal.obj [(b, JVal.obj [])])] t3, JVal.obj [("action", JVal.obj [("pass", JVal.str ("applications/" ++ a))])], JVal.obj [("action", JVal.obj [("proxy", JVal.str (FAKE_PROXY_PREFIX ++ "disabled-app-ref/" ++ b))])]])]
  exact hre

theorem C2_reenable_selective_pipeline_witness :
    (("a" : String) ≠ "b")
    ∧ List.isPrefixOf ("a" : String).data ("b" : String).data = false
    ∧ (execute_disable_app (c2doc "a" "b") "a" "t1").bind (fun c1 =>
        (execute_disable_app c1 "b" "t2").bind (fun c2 =>
          execute_reenable_app c2 "a" "t3"))
      = .ok [("applications", JVal.obj [("a", JVal.obj [])]),
          ("routes", JVal.arr
            [create_data_step [("disabled-applications", JVal.obj [("b", JVal.obj [])])] "t3",
             JVal.obj [("action", JVal.obj [("pass", JVal.str ("applications/" ++ "a"))])],
             JVal.obj [("action", JVal.obj
               [("proxy", JVal.str (FAKE_PROXY_PREFIX ++ "disabled-app-ref/" ++ "b"))])]])] :=
  ⟨by decide, by decide,
    C2_reenable_selective_pipeline "a" "b" (by decide) (by decide) "t1" "t2" "t3"⟩

end Nuri
